import Mathlib

/-! # Automata: a shallow embedding of `src/main.cpp`

The program is a scrolling platformer whose level is a cellular automaton.  Everything lives in
`main`; the embedding below splits one iteration of the inner `while (!salir)` loop into the
phases that the source marks with comments, and keeps the source's Spanish names.

Conventions of the embedding:

* `float` and `double` values are rationals (`ℚ`).  The velocity of the player
  (`moverJugador`), the collision of the player with a cell (`cajaJugador`, `cajaCelda32`,
  `Rect.inter32`, `Rect.area32`, `resolverCelda`) and the collection test (`alcanza`) round every
  operation to binary32 or binary64 as the program does, see the section on binary floating
  point; the scroll, the positions advanced by a velocity and the physics of the items are
  computed without rounding.
* `int` counters are `Nat` or `Int` without wrap-around.
* Window dimensions are natural numbers.
* Draws of the random generator are inputs: every phase that draws receives the values as a
  function from the position of the draw (the index of the cell it is made for) to its value.
* An access outside the bounds of `celdas`, or a division by zero, is undefined behaviour in the
  source; the phases that can perform one return `Option` and yield `none` in that case.
-/

namespace Automata

/-! ## Data model -/

/-- A `Point2f`. -/
structure Punto where
  x : ℚ
  y : ℚ
deriving DecidableEq

/-- Modelled from the spec: the OpenCV type `Rect2f` is not part of src/; an axis-aligned box
given by its top-left corner and its width and height. -/
structure Rect where
  x : ℚ
  y : ℚ
  width : ℚ
  height : ℚ
deriving DecidableEq

/-- Modelled from the spec: `Rect2f::area()` of OpenCV, not part of src/. -/
def Rect.area (r : Rect) : ℚ := r.width * r.height

/-- Modelled from the spec: the intersection `a & b` of OpenCV's `Rect2f`, not part of src/: the
box spanned by the larger of the two left/top edges and the smaller of the two right/bottom edges,
and the zero box when that span is empty. -/
def Rect.inter (a b : Rect) : Rect :=
  let x1 := max a.x b.x
  let y1 := max a.y b.y
  let w := min (a.x + a.width) (b.x + b.width) - x1
  let h := min (a.y + a.height) (b.y + b.height) - y1
  if w ≤ 0 ∨ h ≤ 0 then ⟨0, 0, 0, 0⟩ else ⟨x1, y1, w, h⟩

/-- The tunable configuration, with the defaults of the source. -/
structure ConfiguracionJuego where
  gravedad : ℚ := 1000
  friccionSuelo : ℚ := 0.8
  friccionAire : ℚ := 0.98
  velocidadMovimiento : ℚ := 800
  velocidadSalto : ℚ := 950
  velocidadDesplazamiento : ℚ := 10
  incrementoVelocidad : ℚ := 5
  fotogramasCambioColor : Nat := 600
  tasaEspontanea : ℚ := 0.002
  radioJugador : ℚ := 40
  radioItem : ℚ := 25
  fotogramasMostrarTitulo : Int := 300
  fotogramasMostrarNivel : Int := 180

structure Celda where
  centro : Punto
  viva : Bool
  creciendo : Bool
  encogiendo : Bool
  zonaSinGeneracion : Bool
  factorTamano : ℚ
  indiceColor : Nat
  fotogramasPorActualizacion : Int
  cuentaAtrasFotogramas : Int
deriving DecidableEq

structure Recuperable where
  pos : Punto
  vel : Punto
  recolectado : Bool
  radio : ℚ
deriving DecidableEq

structure Jugador where
  pos : Punto
  vel : Punto
  radio : ℚ
  enSuelo : Bool
  mirandoDerecha : Bool
deriving DecidableEq

/-- The state of one attempt: the variables of `main` that live across iterations of the inner
loop. -/
structure Mundo where
  ancho : Nat
  alto : Nat
  columnas : Nat
  filas : Nat
  paleta : List Nat
  indiceCicloColor : Nat
  celdas : List Celda
  items : List Recuperable
  jugador : Jugador
  cuentaGlobalFotogramas : Nat
  nivel : Nat
  cuentaMostrarNivel : Int
  mostrarTitulo : Bool
  cuentaMostrarTitulo : Int
  puntuacion : Nat
  salir : Bool
  salirTodo : Bool
  velocidadDesplazamiento : ℚ

/-- The SDL events the loop reacts to. -/
inductive Evento where
  | cerrar : Evento
  | redimension : Nat → Nat → Evento
  | otro : Evento

/-- What one iteration of the loop reads from its environment: the pending events, the keyboard,
and the draws of the random generator. `azarNacer k` and `azarVelocidad k` are the draws of
`dist01` and `distVelocidad` for the `k`-th recycled cell, `azarEspontaneo i` the draw of `dist01`
for the cell at index `i`. -/
structure Entrada where
  eventos : List Evento
  escape : Bool
  izquierda : Bool
  derecha : Bool
  salto : Bool
  azarNacer : Nat → ℚ
  azarVelocidad : Nat → ℚ
  azarEspontaneo : Nat → ℚ

/-! ## Constants and numeric helpers -/

def fps : Nat := 60

def dt : ℚ := 1 / 60

def tamanoCelda : ℚ := 120

/-- The configuration `cfg` of `main`: all defaults. -/
def cfg : ConfiguracionJuego := {}

/-- The number of entries of `coloresHex`. -/
def totalColores : Nat := 69

/-- The conversion `(int)` of a floating point value: truncation towards zero. -/
def truncar (q : ℚ) : Int := if 0 ≤ q then ⌊q⌋ else -⌊-q⌋

/-- The function `round` of `<cmath>`: nearest integer, halves away from zero. -/
def redondear (q : ℚ) : Int := if 0 ≤ q then ⌊q + 1 / 2⌋ else -⌊-q + 1 / 2⌋

/-- The update period `max(1, (int)round(fps / velocidad))`. -/
def periodo (velocidad : ℚ) : Int := max 1 (redondear ((fps : ℚ) / velocidad))

/-! ## Binary floating point

The player's velocity, the player's collision and the collection test are computed as the program
computes them: every operation on a `float` or a `double` is followed by the rounding of the
IEEE 754 format binary32 or binary64, to nearest with ties to even.  Overflow to infinity is not
modelled. -/

/-- The binary logarithm of `n`, rounded down, with at most `fuel` halvings. -/
def log2Desde : Nat → Nat → Nat
  | 0, _ => 0
  | fuel + 1, n => if 2 ≤ n then log2Desde fuel (n / 2) + 1 else 0

/-- The binary logarithm of `n`, rounded down. -/
def log2Nat (n : Nat) : Nat := log2Desde n n

/-- The power `2 ^ e` for an integer exponent. -/
def dosALa (e : Int) : ℚ :=
  if 0 ≤ e then ((2 ^ e.toNat : Nat) : ℚ) else 1 / ((2 ^ (-e).toNat : Nat) : ℚ)

/-- The binary exponent of a nonzero `q`: the `e` with `2 ^ e ≤ |q| < 2 ^ (e + 1)`. -/
def exponente (q : ℚ) : Int :=
  let e0 : Int := (log2Nat q.num.natAbs : Int) - (log2Nat q.den : Int)
  if dosALa e0 ≤ |q| then e0 else e0 - 1

/-- The integer nearest to `m`, the even one of the two when `m` lies half way. -/
def redondearPar (m : ℚ) : Int :=
  let f := ⌊m⌋
  let r := m - f
  if r < 1 / 2 then f else if 1 / 2 < r then f + 1 else if f % 2 = 0 then f else f + 1

/-- Rounding to the binary format with `p` bits of precision and least normal exponent `emin`:
the nearest multiple of `2 ^ (max e emin - (p - 1))`, ties to even, `e` the exponent of `q`. -/
def redondearBinario (p : Nat) (emin : Int) (q : ℚ) : ℚ :=
  if q = 0 then 0
  else
    let cuanto := dosALa (max (exponente q) emin - ((p : Int) - 1))
    (redondearPar (q / cuanto) : ℚ) * cuanto

/-- The value stored in a `float`. -/
def f32 (q : ℚ) : ℚ := redondearBinario 24 (-126) q

/-- The value stored in a `double`. -/
def f64 (q : ℚ) : ℚ := redondearBinario 53 (-1022) q

/-- The constant `dt = 1.0 / fps` as the program holds it, a `double`. -/
def dt64 : ℚ := f64 (1 / (fps : ℚ))

/-! ## Boxes -/

/-- The box `pr` of the player, built from `float`s. -/
def cajaJugador (j : Jugador) : Rect :=
  ⟨f32 (j.pos.x - j.radio), f32 (j.pos.y - j.radio), f32 (j.radio * 2), f32 (j.radio * 2)⟩

/-- The box `ir` of an item. -/
def cajaItem (itm : Recuperable) : Rect :=
  ⟨itm.pos.x - itm.radio, itm.pos.y - itm.radio, itm.radio * 2, itm.radio * 2⟩

/-- The box `br` of a cell: side `tamanoCelda * factorTamano`, centred on the cell's centre. -/
def cajaCelda (c : Celda) : Rect :=
  let s := tamanoCelda * c.factorTamano
  ⟨c.centro.x - s / 2, c.centro.y - s / 2, s, s⟩

/-- The box `br` of a cell as the collision of the player builds it: the side `s` is a `double`,
each corner coordinate is computed in `double` and stored in a `float`, and so is the side. -/
def cajaCelda32 (c : Celda) : Rect :=
  let s := f64 (tamanoCelda * c.factorTamano)
  ⟨f32 (f64 (c.centro.x - f64 (s / 2))), f32 (f64 (c.centro.y - f64 (s / 2))), f32 s, f32 s⟩

/-- Modelled from the spec: `Rect2f::area()` of OpenCV, not part of src/, as a product of two
`float`s. -/
def Rect.area32 (r : Rect) : ℚ := f32 (r.width * r.height)

/-- Modelled from the spec: the intersection `a & b` of OpenCV's `Rect2f`, not part of src/, with
every sum and difference rounded to `float`. -/
def Rect.inter32 (a b : Rect) : Rect :=
  let x1 := max a.x b.x
  let y1 := max a.y b.y
  let w := f32 (min (f32 (a.x + a.width)) (f32 (b.x + b.width)) - x1)
  let h := f32 (min (f32 (a.y + a.height)) (f32 (b.y + b.height)) - y1)
  if w ≤ 0 ∨ h ≤ 0 then ⟨0, 0, 0, 0⟩ else ⟨x1, y1, w, h⟩

/-! ## Initialisation of an attempt -/

/-- The test `zonaCentral` of a cell centred at `(cx, cy)`; `ancho/2` and `alto/2` are integer
divisions. -/
def zonaCentral (ancho alto : Nat) (cx cy : ℚ) : Bool :=
  decide (|cx - ((ancho / 2 : Nat) : ℚ)| < tamanoCelda)
    && decide (|cy - ((alto / 2 : Nat) : ℚ)| < tamanoCelda)

/-- The centre of the initial cell of column `x` and row `y`. -/
def centroInicial (x y : Nat) : Punto :=
  ⟨(x : ℚ) * tamanoCelda + tamanoCelda / 2, (y : ℚ) * tamanoCelda + tamanoCelda / 2⟩

/-- The cell built by the body of the initialisation loop for column `x` and row `y`. -/
def celdaInicial (ancho alto : Nat) (color : Nat) (nacer velocidad : ℚ) (x y : Nat) : Celda :=
  let centro := centroInicial x y
  let zona : Bool := zonaCentral ancho alto centro.x centro.y
  let viva : Bool := !zona && decide (nacer > 0.5)
  { centro := centro
    viva := viva
    creciendo := viva
    encogiendo := false
    zonaSinGeneracion := zona
    factorTamano := if viva then 1 else 0
    indiceColor := color
    fotogramasPorActualizacion := periodo velocidad
    cuentaAtrasFotogramas := periodo velocidad }

/-- The loop "Inicializar celdas": rows outside, columns inside, so the cell of column `x` and
row `y` is pushed at index `y * columnas + x`. -/
def inicializarCeldas (ancho alto columnas filas : Nat) (color : Nat)
    (azarNacer azarVelocidad : Nat → ℚ) : List Celda :=
  (List.range filas).flatMap fun y =>
    (List.range columnas).map fun x =>
      celdaInicial ancho alto color (azarNacer (y * columnas + x))
        (azarVelocidad (y * columnas + x)) x y

/-- The state at the start of an attempt, for a window of `ancho` by `alto`, the shuffled
palette, and the draws of the initialisation loop. -/
def inicializar (cfg : ConfiguracionJuego) (ancho alto : Nat) (paleta : List Nat)
    (azarNacer azarVelocidad : Nat → ℚ) : Mundo :=
  let columnas := ancho / 120
  let filas := alto / 120
  { ancho := ancho
    alto := alto
    columnas := columnas
    filas := filas
    paleta := paleta
    indiceCicloColor := 0
    celdas := inicializarCeldas ancho alto columnas filas (paleta.getD 0 0) azarNacer azarVelocidad
    items := []
    jugador :=
      { pos := ⟨((ancho / 2 : Nat) : ℚ), ((alto / 2 : Nat) : ℚ)⟩
        vel := ⟨0, 0⟩
        radio := cfg.radioJugador
        enSuelo := false
        mirandoDerecha := true }
    cuentaGlobalFotogramas := 0
    nivel := 1
    cuentaMostrarNivel := cfg.fotogramasMostrarNivel
    mostrarTitulo := true
    cuentaMostrarTitulo := cfg.fotogramasMostrarTitulo
    puntuacion := 0
    salir := false
    salirTodo := false
    velocidadDesplazamiento := cfg.velocidadDesplazamiento }

/-! ## One iteration of the loop -/

/-- The effect of one polled event. -/
def procesarEvento (w : Mundo) : Evento → Mundo
  | Evento.cerrar => { w with salir := true, salirTodo := true }
  | Evento.redimension a h =>
      { w with ancho := a, alto := h, columnas := a / 120, filas := h / 120 }
  | Evento.otro => w

/-- "Movimiento horizontal y dirección", "Aplicar gravedad" and "Fricción": the configuration
holds `double`s, the velocity of the player is a pair of `float`s. -/
def moverJugador (cfg : ConfiguracionJuego) (e : Entrada) (j : Jugador) : Jugador :=
  let j1 : Jugador :=
    if e.izquierda then
      { j with vel := ⟨f32 (-f64 cfg.velocidadMovimiento), j.vel.y⟩, mirandoDerecha := false }
    else if e.derecha then
      { j with vel := ⟨f32 (f64 cfg.velocidadMovimiento), j.vel.y⟩, mirandoDerecha := true }
    else j
  let j2 : Jugador :=
    { j1 with vel := ⟨j1.vel.x, f32 (f64 (j1.vel.y + f64 (f64 cfg.gravedad * dt64)))⟩ }
  if j2.enSuelo then
    { j2 with vel := ⟨f32 (f64 (j2.vel.x * f64 cfg.friccionSuelo)), j2.vel.y⟩ }
  else { j2 with vel := ⟨f32 (f64 (j2.vel.x * f64 cfg.friccionAire)), j2.vel.y⟩ }

/-- "Desplazar mundo", for a cell: `d` is `velocidadDesplazamiento * dt`. -/
def desplazarCelda (d : ℚ) (c : Celda) : Celda :=
  { c with centro := ⟨c.centro.x - d, c.centro.y⟩ }

/-- "Desplazar mundo", for an item. -/
def desplazarItem (d : ℚ) (itm : Recuperable) : Recuperable :=
  { itm with pos := ⟨itm.pos.x - d, itm.pos.y⟩ }

/-- "Desplazar mundo" and "Aplicar velocidad", for the player. -/
def desplazarJugador (d : ℚ) (j : Jugador) : Jugador :=
  let j1 : Jugador := { j with pos := ⟨j.pos.x - d, j.pos.y⟩ }
  { j1 with pos := ⟨j1.pos.x + j1.vel.x * dt, j1.pos.y + j1.vel.y * dt⟩ }

/-- The test of the recycling loop: the right edge of the cell is left of `x = 0`. -/
def fueraIzquierda (c : Celda) : Bool := decide (c.centro.x + tamanoCelda / 2 < 0)

/-- The row `yIdx` computed for a recycled cell. -/
def filaDe (c : Celda) : Int := truncar (c.centro.y / tamanoCelda)

/-- "Nueva celda a la derecha": the cell that replaces the recycled cell `c`. -/
def nuevaCelda (ancho : Nat) (color : Nat) (nacer velocidad : ℚ) (c : Celda) : Celda :=
  let viva : Bool := decide (nacer > 0.5)
  { centro := ⟨(ancho : ℚ) + tamanoCelda / 2, (filaDe c : ℚ) * tamanoCelda + tamanoCelda / 2⟩
    viva := viva
    creciendo := viva
    encogiendo := false
    zonaSinGeneracion := false
    factorTamano := if viva then 1 else 0
    indiceColor := color
    fotogramasPorActualizacion := periodo velocidad
    cuentaAtrasFotogramas := periodo velocidad }

/-- "Generar ítem recuperable": the item created when the cell `c` is recycled. -/
def nuevoItem (cfg : ConfiguracionJuego) (ancho : Nat) (c : Celda) : Recuperable :=
  { pos := ⟨(ancho : ℚ) + tamanoCelda / 2, (filaDe c : ℚ) * tamanoCelda⟩
    vel := ⟨0, 0⟩
    recolectado := false
    radio := cfg.radioItem }

/-- The recycling loop over `celdas`, from the `k`-th recycling event on: the cells that stay, the
cells pushed to `nuevasCeldas`, and the items pushed to `items`, each in order. -/
def reciclarDesde (cfg : ConfiguracionJuego) (ancho : Nat) (color : Nat) (e : Entrada) :
    List Celda → Nat → List Celda × List Celda × List Recuperable
  | [], _ => ([], [], [])
  | c :: resto, k =>
    if fueraIzquierda c then
      let r := reciclarDesde cfg ancho color e resto (k + 1)
      (r.1, nuevaCelda ancho color (e.azarNacer k) (e.azarVelocidad k) c :: r.2.1,
        nuevoItem cfg ancho c :: r.2.2)
    else
      let r := reciclarDesde cfg ancho color e resto k
      (c :: r.1, r.2.1, r.2.2)

/-- "Reciclar celdas y generar ítems": the new `celdas` (the kept cells followed by
`nuevasCeldas`) and the new `items`. -/
def reciclar (cfg : ConfiguracionJuego) (ancho : Nat) (color : Nat) (e : Entrada)
    (celdas : List Celda) (items : List Recuperable) : List Celda × List Recuperable :=
  let r := reciclarDesde cfg ancho color e celdas 0
  (r.1 ++ r.2.1, items ++ r.2.2)

/-- "animación de tamaño". -/
def animar (c : Celda) : Celda :=
  if c.creciendo then
    let f := min 1 (c.factorTamano + 0.05)
    { c with factorTamano := f, creciendo := if f ≥ 1 then false else c.creciendo }
  else if c.encogiendo then
    let f := max 0 (c.factorTamano - 0.05)
    { c with factorTamano := f, encogiendo := if f ≤ 0 then false else c.encogiendo }
  else c

/-- The offsets `(dx, dy)` in the order of the two nested loops, `(0, 0)` skipped. -/
def desplazamientos : List (Int × Int) :=
  [(-1, -1), (0, -1), (1, -1), (-1, 0), (1, 0), (-1, 1), (0, 1), (1, 1)]

/-- The index `ny*columnas + nx` read for the offset `(dx, dy)` by the cell at index `i`. -/
def indiceVecino (columnas filas : Nat) (i : Nat) (d : Int × Int) : Int :=
  let xIdx : Int := ((i % columnas : Nat) : Int)
  let yIdx : Int := ((i / columnas : Nat) : Int)
  let nx := (xIdx + d.1 + (columnas : Int)).tmod (columnas : Int)
  let ny := (yIdx + d.2 + (filas : Int)).tmod (filas : Int)
  ny * (columnas : Int) + nx

/-- The eight indices read by the cell at index `i`. -/
def vecinos (columnas filas : Nat) (i : Nat) : List Int :=
  desplazamientos.map (indiceVecino columnas filas i)

/-- The flag `viva` of the cell at index `k`, `false` when there is none. -/
def vivaEn (celdas : List Celda) (k : Int) : Bool :=
  match celdas[k.toNat]? with
  | some c => c.viva
  | none => false

/-- The neighbour count `cnt` of the cell at index `i`; `none` when `columnas` or `filas` is zero
(a remainder by zero) or when one of the eight reads falls outside `celdas`. -/
def contarVecinos (columnas filas : Nat) (celdas : List Celda) (i : Nat) : Option Nat :=
  if columnas = 0 ∨ filas = 0 then none
  else if (vecinos columnas filas i).all (fun k => decide (0 ≤ k ∧ k.toNat < celdas.length)) then
    some ((vecinos columnas filas i).countP (vivaEn celdas))
  else none

/-- The rule `siguienteViva`. -/
def siguienteViva (viva : Bool) (cnt : Nat) : Bool :=
  if viva then (cnt == 2 || cnt == 3) else cnt == 3

/-- The birth actions, shared by the rule and the spontaneous birth. -/
def nacer (colorActual : Nat) (c : Celda) : Celda :=
  { c with viva := true, factorTamano := 0, creciendo := true, indiceColor := colorActual }

/-- The death actions. -/
def morir (c : Celda) : Celda :=
  { c with viva := false, factorTamano := 1, encogiendo := true }

/-- The body of "reglas de vida" once the neighbour count `cnt` is known; `u` is the draw of
`dist01` for the spontaneous birth. -/
def evaluarVida (cfg : ConfiguracionJuego) (colorActual : Nat) (u : ℚ) (cnt : Nat) (c : Celda) :
    Celda :=
  let sv := siguienteViva c.viva cnt
  let c1 : Celda :=
    if sv && !c.viva then nacer colorActual c
    else if !sv && c.viva then morir c
    else if !c.viva && decide (u < cfg.tasaEspontanea) then nacer colorActual c
    else c
  { c1 with cuentaAtrasFotogramas := c1.fotogramasPorActualizacion }

/-- The animation followed by the decrement `--c.cuentaAtrasFotogramas`. -/
def pasoCelda (c : Celda) : Celda :=
  let c1 := animar c
  { c1 with cuentaAtrasFotogramas := c1.cuentaAtrasFotogramas - 1 }

/-- The body of the loop "Actualizar y dibujar celdas" for the index `i`: animation, countdown,
and the life rule when the countdown has expired outside the no-spawn zone. -/
def actualizarCelda (cfg : ConfiguracionJuego) (columnas filas : Nat) (colorActual : Nat)
    (azar : Nat → ℚ) (celdas : List Celda) (i : Nat) : Option (List Celda) :=
  match celdas[i]? with
  | none => some celdas
  | some c0 =>
    let c2 := pasoCelda c0
    let cs := celdas.set i c2
    if c2.cuentaAtrasFotogramas ≤ 0 ∧ c2.zonaSinGeneracion = false then
      (contarVecinos columnas filas cs i).map fun cnt =>
        cs.set i (evaluarVida cfg colorActual (azar i) cnt c2)
    else some cs

/-- The loop "Actualizar y dibujar celdas", in place and in index order. -/
def actualizarCeldas (cfg : ConfiguracionJuego) (columnas filas : Nat) (colorActual : Nat)
    (azar : Nat → ℚ) (celdas : List Celda) : Option (List Celda) :=
  (List.range celdas.length).foldlM (actualizarCelda cfg columnas filas colorActual azar) celdas

/-- "colisión con celdas" of an item, for one cell. -/
def posarItem (itm : Recuperable) (c : Celda) : Recuperable :=
  if c.factorTamano ≤ 0 ∨ c.zonaSinGeneracion = true then itm
  else
    let br := cajaCelda c
    let ir := cajaItem itm
    if (ir.inter br).area > 0 then
      { itm with pos := ⟨itm.pos.x, br.y - itm.radio⟩, vel := ⟨itm.vel.x, 0⟩ }
    else itm

/-- The test of "recolección": `dx`, `dy`, their squares and the sum are `float`s; `pow` returns
the `double` square of the `float` sum of the radii. -/
def alcanza (itm : Recuperable) (j : Jugador) : Bool :=
  let dx := f32 (itm.pos.x - j.pos.x)
  let dy := f32 (itm.pos.y - j.pos.y)
  decide (f32 (f32 (dx * dx) + f32 (dy * dy)) < f64 (f32 (itm.radio + j.radio) ^ 2))

/-- The body of the loop "Actualizar y dibujar ítems" for one item; the second component tells
whether the item has been collected in this iteration. -/
def actualizarItem (cfg : ConfiguracionJuego) (celdas : List Celda) (j : Jugador)
    (itm : Recuperable) : Recuperable × Bool :=
  if itm.recolectado then (itm, false)
  else
    let i1 : Recuperable := { itm with vel := ⟨itm.vel.x, itm.vel.y + cfg.gravedad * dt⟩ }
    let i2 : Recuperable :=
      { i1 with pos := ⟨i1.pos.x + i1.vel.x * dt, i1.pos.y + i1.vel.y * dt⟩ }
    let i3 := celdas.foldl posarItem i2
    if alcanza i3 j then ({ i3 with recolectado := true }, true) else (i3, false)

/-- The loop "Actualizar y dibujar ítems": the items and the score after it. -/
def actualizarItems (cfg : ConfiguracionJuego) (celdas : List Celda) (j : Jugador) :
    List Recuperable → Nat → List Recuperable × Nat
  | [], p => ([], p)
  | itm :: resto, p =>
    let r := actualizarItem cfg celdas j itm
    let s := actualizarItems cfg celdas j resto (if r.2 then p + 10 else p)
    (r.1 :: s.1, s.2)

/-- The body of the loop "Colisión del jugador y verificación de suelo" for one cell; the state
is the player and its box `pr`, and every operation on the positions is a `float` operation. -/
def resolverCelda (st : Jugador × Rect) (c : Celda) : Jugador × Rect :=
  let j := st.1
  let pr := st.2
  if c.factorTamano ≤ 0 ∨ c.zonaSinGeneracion = true then st
  else
    let br := cajaCelda32 c
    let inter := pr.inter32 br
    if inter.area32 > 0 then
      let j1 : Jugador :=
        if inter.width < inter.height then
          { j with
            pos := ⟨f32 (j.pos.x + (if f32 (pr.x + f32 (pr.width / 2))
                        < f32 (br.x + f32 (br.width / 2)) then -inter.width
                      else inter.width)), j.pos.y⟩
            vel := ⟨0, j.vel.y⟩ }
        else
          { j with
            pos := ⟨j.pos.x, f32 (j.pos.y + (if f32 (pr.y + f32 (pr.height / 2))
                        < f32 (br.y + f32 (br.height / 2)) then -inter.height
                      else inter.height))⟩
            vel := ⟨j.vel.x, 0⟩
            enSuelo := if f32 (pr.y + f32 (pr.height / 2)) < f32 (br.y + f32 (br.height / 2))
              then true else j.enSuelo }
      (j1, cajaJugador j1)
    else st

/-- "Colisión del jugador y verificación de suelo". -/
def colisionJugador (j : Jugador) (celdas : List Celda) : Jugador :=
  let j0 : Jugador := { j with enSuelo := false }
  (celdas.foldl resolverCelda (j0, cajaJugador j0)).1

/-- "Salto". -/
def saltar (cfg : ConfiguracionJuego) (e : Entrada) (j : Jugador) : Jugador :=
  if e.salto && j.enSuelo then { j with vel := ⟨j.vel.x, -cfg.velocidadSalto⟩, enSuelo := false }
  else j

/-- "Evento e Entrada": the polled events, then the escape key. -/
def procesarEntrada (w : Mundo) (e : Entrada) : Mundo :=
  let w1 := e.eventos.foldl procesarEvento w
  if e.escape then { w1 with salir := true, salirTodo := true } else w1

/-- The first half of an iteration, up to and including "Reciclar celdas y generar ítems":
events, keyboard, movement of the player, scroll and recycling. -/
def faseMovimiento (cfg : ConfiguracionJuego) (w : Mundo) (e : Entrada) : Mundo :=
  let w2 := procesarEntrada w e
  let d := w2.velocidadDesplazamiento * dt
  let r := reciclar cfg w2.ancho (w2.paleta.getD w2.indiceCicloColor 0) e
    (w2.celdas.map (desplazarCelda d)) (w2.items.map (desplazarItem d))
  { w2 with
    jugador := desplazarJugador d (moverJugador cfg e w2.jugador)
    celdas := r.1
    items := r.2 }

/-- "Ciclo de nivel y color"; `none` for the remainder by a zero cadence. -/
def cicloNivel (cfg : ConfiguracionJuego) (w : Mundo) : Option Mundo :=
  if 0 < w.cuentaGlobalFotogramas then
    if cfg.fotogramasCambioColor = 0 then none
    else if w.cuentaGlobalFotogramas % cfg.fotogramasCambioColor = 0 then
      some { w with
        indiceCicloColor := (w.indiceCicloColor + 1) % totalColores
        nivel := w.nivel + 1
        velocidadDesplazamiento := w.velocidadDesplazamiento + cfg.incrementoVelocidad
        cuentaMostrarNivel := cfg.fotogramasMostrarNivel }
    else some w
  else some w

/-- The end of an iteration, once the cells have been updated: items, collision of the player,
jump, loss conditions and the counters of the overlays. -/
def faseFinal (cfg : ConfiguracionJuego) (w : Mundo) (e : Entrada) (celdas : List Celda) : Mundo :=
  let it := actualizarItems cfg celdas w.jugador w.items w.puntuacion
  let j := saltar cfg e (colisionJugador w.jugador celdas)
  let pierde : Bool := decide (j.pos.x - j.radio ≤ 0 ∨ j.pos.y + j.radio ≥ (w.alto : ℚ))
  let agotado : Bool := w.mostrarTitulo && decide (w.cuentaMostrarTitulo > 0)
    && decide (w.cuentaMostrarTitulo - 1 = 0)
  { w with
    celdas := celdas
    items := it.1
    puntuacion := it.2
    jugador := j
    salir := w.salir || pierde
    cuentaMostrarNivel := w.cuentaMostrarNivel - 1
    cuentaMostrarTitulo :=
      if w.mostrarTitulo then w.cuentaMostrarTitulo - 1 else w.cuentaMostrarTitulo
    mostrarTitulo := if agotado then false else w.mostrarTitulo
    cuentaGlobalFotogramas := w.cuentaGlobalFotogramas + 1 }

/-- One iteration of the loop `while (!salir)`. -/
def tick (cfg : ConfiguracionJuego) (w : Mundo) (e : Entrada) : Option Mundo :=
  match cicloNivel cfg (faseMovimiento cfg w e) with
  | none => none
  | some w4 =>
    match actualizarCeldas cfg w4.columnas w4.filas (w4.paleta.getD w4.indiceCicloColor 0)
        e.azarEspontaneo w4.celdas with
    | none => none
    | some celdas => some (faseFinal cfg w4 e celdas)

/-- The values `distVelocidad` can return: it is a `uniform_real_distribution` on `0.5 .. 2.0`. -/
def VelocidadesValidas (azarVelocidad : Nat → ℚ) : Prop :=
  ∀ k, 1 / 2 ≤ azarVelocidad k ∧ azarVelocidad k ≤ 2

/-- The states an attempt can be in at the top of the loop: the state built by the
initialisation, for any window size, any shuffle of the palette of the `totalColores` colour
indices and any draws, and every state reached from there by iterations of the loop. -/
inductive Alcanzable (cfg : ConfiguracionJuego) : Mundo → Prop where
  | inicio (ancho alto : Nat) (paleta : List Nat) (azarNacer azarVelocidad : Nat → ℚ) :
      paleta.Perm (List.range totalColores) → VelocidadesValidas azarVelocidad →
      Alcanzable cfg (inicializar cfg ancho alto paleta azarNacer azarVelocidad)
  | paso (w w1 : Mundo) (e : Entrada) :
      Alcanzable cfg w → w.salir = false → VelocidadesValidas e.azarVelocidad →
      tick cfg w e = some w1 → Alcanzable cfg w1

/-! ## Predicates used by the statements -/


/-- The array position of the neighbour at offset `d = (dx, dy)` as the specification words it:
row `(y + dy) mod filas`, column `(x + dx) mod columnas`, with `x = i mod columnas` and
`y = i / columnas`, and `mod` the mathematical remainder. -/
def posicionToroidal (columnas filas : Nat) (i : Nat) (d : Int × Int) : Int :=
  ((((i / columnas : Nat) : Int) + d.2) % (filas : Int)) * (columnas : Int)
    + ((((i % columnas : Nat) : Int) + d.1) % (columnas : Int))

/-- The number of the positions read by the life rule that hold an alive cell, once each position
is known to be the toroidal one. -/
def conteoLeido (columnas filas : Nat) (celdas : List Celda) (i : Nat) : Nat :=
  (desplazamientos.map (posicionToroidal columnas filas i)).countP (vivaEn celdas)

/-- The eight offsets of the specification: the pairs of `{-1, 0, 1}²` other than `(0, 0)`. -/
def offsetsToroidales : List (Int × Int) :=
  ([-1, 0, 1].flatMap fun dx => [-1, 0, 1].map fun dy => ((dx, dy) : Int × Int)).filter
    fun d => decide (d ≠ (0, 0))

/-- The neighbour count as the specification words it: the number of offsets `(dx, dy)` of
`{-1, 0, 1}²` other than `(0, 0)` for which the cell stored at the toroidal position
`((y + dy) mod filas) * columnas + ((x + dx) mod columnas)` is alive. -/
def conteoToroidal (columnas filas : Nat) (celdas : List Celda) (i : Nat) : Nat :=
  (offsetsToroidales.filter fun d =>
    match celdas[(posicionToroidal columnas filas i d).toNat]? with
    | some c => c.viva
    | none => false).length

/-- The size factor lies in the closed unit interval. -/
def FactorAcotado (c : Celda) : Prop := 0 ≤ c.factorTamano ∧ c.factorTamano ≤ 1

/-- The invariant behind the exclusion of the two animation flags: outside the no-spawn zone the
period is at least 20 frames, a growing cell has gained 0.05 for every frame since its last
evaluation and a shrinking cell has lost as much, so that an animation started at an evaluation
is over before the next one. -/
def AnimacionBien (c : Celda) : Prop :=
  ¬ (c.creciendo = true ∧ c.encogiendo = true) ∧
  (c.zonaSinGeneracion = false →
    20 ≤ c.fotogramasPorActualizacion ∧
    (c.creciendo = true →
      ((c.fotogramasPorActualizacion - c.cuentaAtrasFotogramas : Int) : ℚ) * 0.05
        ≤ c.factorTamano) ∧
    (c.encogiendo = true →
      c.factorTamano
        ≤ 1 - ((c.fotogramasPorActualizacion - c.cuentaAtrasFotogramas : Int) : ℚ) * 0.05))

/-- A cell of the no-spawn zone is dead. -/
def ZonaMuerta (c : Celda) : Prop := c.zonaSinGeneracion = true → c.viva = false

/-! ## Concrete states used by the examples -/

/-- A player whose box lies wholly inside the box of `celdaLlena`. -/
def jugadorDentro : Jugador := ⟨⟨60, 50⟩, ⟨0, 0⟩, 40, false, true⟩

/-- A player that has sunk ten pixels into the top of `celdaLlena`. -/
def jugadorEncima : Jugador := ⟨⟨60, -30⟩, ⟨0, 0⟩, 40, false, true⟩

/-- A full-size alive cell with its top-left corner at the origin. -/
def celdaLlena : Celda := ⟨⟨60, 60⟩, true, false, false, false, 1, 0, 30, 30⟩

/-- A cell whose right edge is one pixel left of `x = 0`, in row 0. -/
def celdaSalida : Celda := ⟨⟨-61, 60⟩, false, false, false, false, 0, 0, 30, 12⟩

/-- An input with no event, no key pressed, and constant draws. -/
def entradaQuieta : Entrada :=
  { eventos := [], escape := false, izquierda := false, derecha := false, salto := false
    azarNacer := fun _ => 0, azarVelocidad := fun _ => 1, azarEspontaneo := fun _ => 1 }

/-- A one-cell world (window of 120 by 120) holding one item that sits exactly on `x = 0`. -/
def mundoConItem : Mundo :=
  { ancho := 120, alto := 120, columnas := 1, filas := 1
    paleta := [0], indiceCicloColor := 0
    celdas := [⟨⟨100, 60⟩, false, false, false, false, 0, 0, 30, 12⟩]
    items := [⟨⟨0, 30⟩, ⟨0, 0⟩, false, 25⟩]
    jugador := ⟨⟨80, 40⟩, ⟨0, 0⟩, 40, false, true⟩
    cuentaGlobalFotogramas := 10, nivel := 1, cuentaMostrarNivel := 170
    mostrarTitulo := true, cuentaMostrarTitulo := 290, puntuacion := 0
    salir := false, salirTodo := false, velocidadDesplazamiento := 10 }

/-- A cell at rest with the given flags and countdown. -/
def celdaDe (viva zona : Bool) (cuenta : Int) : Celda :=
  ⟨⟨0, 0⟩, viva, false, false, zona, if viva then 1 else 0, 0, 30, cuenta⟩

/-- A grid of 3 by 3: the top row alive, the centre cell dead with its countdown at 1, and a
cell of the no-spawn zone in the bottom row. -/
def rejilla3 : List Celda :=
  [celdaDe true false 5, celdaDe true false 5, celdaDe true false 5,
   celdaDe false false 5, celdaDe false false 1, celdaDe false false 5,
   celdaDe false false 5, celdaDe false true 1, celdaDe false false 5]

/-- The start of an attempt in a window of 360 by 240: a grid of 3 by 2. -/
def mundoPequeno : Mundo :=
  inicializar cfg 360 240 (List.range totalColores) (fun _ => 1) (fun _ => 1)

/-- The state after one iteration from `mundoPequeno` with no input. -/
def mundoPequenoTrasTick : Mundo := (tick cfg mundoPequeno entradaQuieta).getD mundoPequeno

/-- The state after one iteration from `mundoConItem` with no input. -/
def mundoConItemTrasTick : Mundo := (tick cfg mundoConItem entradaQuieta).getD mundoConItem

/-! ## Definitions for the later claims -/

/-- The physics update of an uncollected item: gravity, integration of the position, and the
collision with the cells; this is the item that the test of "recolección" reads. -/
def fisicaItem (cfg : ConfiguracionJuego) (celdas : List Celda) (itm : Recuperable) :
    Recuperable :=
  let i1 : Recuperable := { itm with vel := ⟨itm.vel.x, itm.vel.y + cfg.gravedad * dt⟩ }
  let i2 : Recuperable :=
    { i1 with pos := ⟨i1.pos.x + i1.vel.x * dt, i1.pos.y + i1.vel.y * dt⟩ }
  celdas.foldl posarItem i2

/-- An uncollected item whose box dips five pixels into the top of `celdaLlena`. -/
def itemSobre : Recuperable := ⟨⟨60, -20⟩, ⟨0, 30⟩, false, 25⟩

/-- The countdown of a cell outside the no-spawn zone lies between 1 and its update period. -/
def CuentaBien (c : Celda) : Prop :=
  c.zonaSinGeneracion = false →
    1 ≤ c.cuentaAtrasFotogramas ∧ c.cuentaAtrasFotogramas ≤ c.fotogramasPorActualizacion

/-- The world `mundoConItem` at a frame counter of 600, a multiple of the cadence. -/
def mundoEnCadencia : Mundo := { mundoConItem with cuentaGlobalFotogramas := 600 }

/-- The state after one iteration from `mundoEnCadencia` with no input. -/
def mundoEnCadenciaTrasTick : Mundo :=
  (tick cfg mundoEnCadencia entradaQuieta).getD mundoEnCadencia

/-! ## Predicates and states of the rounded arithmetic -/

/-- The start of an attempt in a window of 360 by 240 in which every cell outside the no-spawn
zone is alive: two columns of full-size solid cells, left and right of the player. -/
def mundoConMuros : Mundo :=
  inicializar cfg 360 240 (List.range totalColores) (fun _ => 1) (fun _ => 1)

/-- The state after one iteration from `mundoConMuros` with no input. -/
def mundoConMurosTrasTick : Mundo := (tick cfg mundoConMuros entradaQuieta).getD mundoConMuros

/-- The boxes `pr` and `br` overlap partially along the axis of the push: on that axis their
edges, as the intersection computes them, interleave, so that the player's box sticks out of the
cell's box on one side and the cell's box sticks out of the player's box on the other. -/
def solapeParcial (pr br : Rect) : Prop :=
  if (pr.inter32 br).width < (pr.inter32 br).height then
    (pr.x < br.x ∧ f32 (pr.x + pr.width) < f32 (br.x + br.width)) ∨
      (br.x < pr.x ∧ f32 (br.x + br.width) < f32 (pr.x + pr.width))
  else
    (pr.y < br.y ∧ f32 (pr.y + pr.height) < f32 (br.y + br.height)) ∨
      (br.y < pr.y ∧ f32 (br.y + br.height) < f32 (pr.y + pr.height))

instance (pr br : Rect) : Decidable (solapeParcial pr br) := by
  unfold solapeParcial
  infer_instance

/-- A player at `float` coordinates whose box overlaps the left part of the box of
`celdaDerecha`. -/
def jugadorRozando : Jugador :=
  ⟨⟨8492895 / 8192, 14332471 / 16384⟩, ⟨0, 0⟩, 40, false, true⟩

/-- A full-size solid cell at `float` coordinates. -/
def celdaDerecha : Celda := ⟨⟨15451841 / 16384, 900⟩, true, false, false, false, 1, 0, 30, 30⟩

/-! ## States of the later examples and predicates of the run without input -/

/-- A world of 3 by 3 cells holding the grid `rejilla3`. -/
def mundoRejilla3 : Mundo :=
  { mundoConItem with
    ancho := 360, alto := 360, columnas := 3, filas := 3, celdas := rejilla3, items := [] }

/-- The state after one iteration from `mundoRejilla3` with no input. -/
def mundoRejilla3TrasTick : Mundo := (tick cfg mundoRejilla3 entradaQuieta).getD mundoRejilla3

/-- The draws of `dist01` that make alive the four cells of rows 5 and 6, columns 7 and 8, of the
grid of 16 by 9, and no other cell. -/
def azarBloque (k : Nat) : ℚ := if k = 87 ∨ k = 88 ∨ k = 103 ∨ k = 104 then 1 else 0

/-- The start of an attempt in the window of 1920 by 1080 with a block of four alive cells
right under the no-spawn zone. -/
def mundoBloque : Mundo :=
  inicializar cfg 1920 1080 (List.range totalColores) azarBloque (fun _ => 1)

/-- What the scroll leaves fixed in a cell: its position in a grid scrolled `s` pixels to the
left, and its flags `zonaSinGeneracion` and `viva`. -/
def vistaCelda (s : ℚ) (c : Celda) : ℚ × ℚ × Bool × Bool :=
  (c.centro.x + s, c.centro.y, c.zonaSinGeneracion, c.viva)

/-- The grid of `mundoBloque`. -/
def patronBloque : List (ℚ × ℚ × Bool × Bool) := mundoBloque.celdas.map (vistaCelda 0)

/-- A cell at rest: full size if alive, empty if dead, and no animation that would change its
size. -/
def Quieta (c : Celda) : Prop :=
  (c.viva = true → c.factorTamano = 1 ∧ c.encogiendo = false) ∧
  (c.viva = false → c.factorTamano = 0 ∧ c.creciendo = false ∧ c.encogiendo = false)

/-- The distance scrolled after `k` iterations: 10 pixels per second up to the iteration of
frame counter 600, 15 pixels per second after it. -/
def desplazamientoTras (k : Nat) : ℚ :=
  if k ≤ 601 then (k : ℚ) / 6 else 601 / 6 + ((k : ℚ) - 601) / 4

/-- The grid of `mundoBloque`, scrolled `s` pixels to the left, with every cell at rest. -/
structure RejillaBloque (s : ℚ) (cs : List Celda) : Prop where
  vista : cs.map (vistaCelda s) = patronBloque
  quietas : ∀ c ∈ cs, Quieta c

/-- What the collision loop keeps true of the player over the block: it is either where the
movement left it, not lower than the top of the block, or it has been pushed up onto the block
and stopped. -/
def SobreBloque (j : Jugador) (st : Jugador × Rect) : Prop :=
  st.2 = cajaJugador st.1 ∧ st.1.pos.x = j.pos.x ∧ st.1.radio = 40 ∧ st.1.vel.x = j.vel.x ∧
    ((st.1.pos.y = j.pos.y ∧ st.1.vel.y = j.vel.y ∧ j.pos.y ≤ 560 + 1 / 2 ^ 11) ∨
      (st.1.vel.y = 0 ∧ |st.1.pos.y - 560| ≤ 1 / 2 ^ 11))

/-- The state of the run from `mundoBloque` without input, at frame counter `k`: the grid has
scrolled, the block stands, and the player falls onto the block or rests on it. -/
structure Parado (k : Nat) (w : Mundo) : Prop where
  cuenta : w.cuentaGlobalFotogramas = k
  sigue : w.salir = false
  ancho : w.ancho = 1920
  alto : w.alto = 1080
  columnas : w.columnas = 16
  filas : w.filas = 9
  paleta : w.paleta = List.range totalColores
  nivel : w.nivel = 1 + (k - 1) / 600
  indice : w.indiceCicloColor = (k - 1) / 600
  velocidad : w.velocidadDesplazamiento = 10 + 5 * (((k - 1) / 600 : Nat) : ℚ)
  rejilla : RejillaBloque (desplazamientoTras k) w.celdas
  items : w.items = []
  puntos : w.puntuacion = 0
  radio : w.jugador.radio = 40
  posX : w.jugador.pos.x = 960 - desplazamientoTras k
  velX : w.jugador.vel.x = 0
  velY : 0 ≤ w.jugador.vel.y
  energia : w.jugador.vel.y ^ 2 ≤ 2100 * (w.jugador.pos.y - 539)
  posY : w.jugador.pos.y ≤ 560 + 1 / 2 ^ 11

/-- The states reached from the initialisation by iterations in which no resize event is polled:
the window, and with it `columnas` and `filas`, keep the values of the initialisation. -/
inductive AlcanzableSinRedimension (cfg : ConfiguracionJuego) : Mundo → Prop where
  | inicio (ancho alto : Nat) (paleta : List Nat) (azarNacer azarVelocidad : Nat → ℚ) :
      paleta.Perm (List.range totalColores) → VelocidadesValidas azarVelocidad →
      AlcanzableSinRedimension cfg (inicializar cfg ancho alto paleta azarNacer azarVelocidad)
  | paso (w w1 : Mundo) (e : Entrada) :
      AlcanzableSinRedimension cfg w → w.salir = false →
      VelocidadesValidas e.azarVelocidad → (∀ a h, Evento.redimension a h ∉ e.eventos) →
      tick cfg w e = some w1 → AlcanzableSinRedimension cfg w1

/-! ## Lemmas -/

theorem dosALa_eq (e : Int) : dosALa e = (2 : ℚ) ^ e := by
  unfold dosALa
  by_cases h : 0 ≤ e
  · rw [if_pos h]
    obtain ⟨n, rfl⟩ := Int.eq_ofNat_of_zero_le h
    simp
  · rw [if_neg h]
    push_neg at h
    obtain ⟨n, hn⟩ := Int.eq_ofNat_of_zero_le (by omega : 0 ≤ -e)
    have he : e = -(n : Int) := by omega
    subst he
    simp

theorem dosALa_pos (e : Int) : 0 < dosALa e := by
  rw [dosALa_eq]
  positivity

theorem dosALa_add (a b : Int) : dosALa (a + b) = dosALa a * dosALa b := by
  rw [dosALa_eq, dosALa_eq, dosALa_eq, zpow_add₀ (by norm_num)]

theorem log2Desde_spec : ∀ (fuel n : Nat), n ≤ fuel → n ≠ 0 →
    2 ^ log2Desde fuel n ≤ n ∧ n < 2 ^ (log2Desde fuel n + 1) := by
  intro fuel
  induction fuel with
  | zero =>
    intro n h hn
    omega
  | succ fuel ih =>
    intro n h hn
    unfold log2Desde
    by_cases h2 : 2 ≤ n
    · rw [if_pos h2]
      have := ih (n / 2) (by omega) (by omega)
      obtain ⟨h1, h3⟩ := this
      constructor
      · rw [pow_succ]
        omega
      · rw [pow_succ]
        omega
    · rw [if_neg h2]
      have : n = 1 := by omega
      subst this
      simp

theorem log2Nat_spec (n : Nat) (hn : n ≠ 0) :
    2 ^ log2Nat n ≤ n ∧ n < 2 ^ (log2Nat n + 1) :=
  log2Desde_spec n n (Nat.le_refl n) hn

theorem exponente_spec (q : ℚ) (hq : q ≠ 0) :
    dosALa (exponente q) ≤ |q| ∧ |q| < dosALa (exponente q + 1) := by
  have hnum : q.num.natAbs ≠ 0 := by
    simpa using Rat.num_ne_zero.mpr hq
  have hden : q.den ≠ 0 := q.den_nz
  obtain ⟨ha1, ha2⟩ := log2Nat_spec _ hnum
  obtain ⟨hb1, hb2⟩ := log2Nat_spec _ hden
  have habs : |q| = (q.num.natAbs : ℚ) / (q.den : ℚ) := by
    have h1 : |q| = |(q.num : ℚ)| / |(q.den : ℚ)| := by
      rw [← abs_div, Rat.num_div_den]
    rw [h1, Nat.abs_cast, Nat.cast_natAbs, Int.cast_abs]
  have hbpos : (0 : ℚ) < (q.den : ℚ) := by exact_mod_cast Nat.pos_of_ne_zero hden
  have ha1q : (2 : ℚ) ^ (log2Nat q.num.natAbs) ≤ (q.num.natAbs : ℚ) := by exact_mod_cast ha1
  have ha2q : (q.num.natAbs : ℚ) < (2 : ℚ) ^ (log2Nat q.num.natAbs + 1) := by exact_mod_cast ha2
  have hb1q : (2 : ℚ) ^ (log2Nat q.den) ≤ (q.den : ℚ) := by exact_mod_cast hb1
  have hb2q : (q.den : ℚ) < (2 : ℚ) ^ (log2Nat q.den + 1) := by exact_mod_cast hb2
  -- bounds with integer exponents
  set la := log2Nat q.num.natAbs
  set lb := log2Nat q.den
  have hlow : dosALa ((la : Int) - (lb : Int) - 1) ≤ |q| := by
    rw [habs, dosALa_eq, le_div_iff₀ hbpos]
    have : (2 : ℚ) ^ ((la : Int) - (lb : Int) - 1) * (2 : ℚ) ^ (lb + 1) = (2 : ℚ) ^ la := by
      rw [← zpow_natCast, ← zpow_natCast, ← zpow_add₀ (by norm_num)]
      congr 1
      push_cast
      ring
    calc (2 : ℚ) ^ ((la : Int) - (lb : Int) - 1) * (q.den : ℚ)
        ≤ (2 : ℚ) ^ ((la : Int) - (lb : Int) - 1) * (2 : ℚ) ^ (lb + 1) := by
          apply mul_le_mul_of_nonneg_left hb2q.le
          positivity
      _ = (2 : ℚ) ^ la := this
      _ ≤ _ := ha1q
  have hup : |q| < dosALa ((la : Int) - (lb : Int) + 1) := by
    rw [habs, dosALa_eq, div_lt_iff₀ hbpos]
    have : (2 : ℚ) ^ ((la : Int) - (lb : Int) + 1) * (2 : ℚ) ^ lb = (2 : ℚ) ^ (la + 1) := by
      rw [← zpow_natCast, ← zpow_natCast, ← zpow_add₀ (by norm_num)]
      congr 1
      push_cast
      ring
    calc (q.num.natAbs : ℚ) < (2 : ℚ) ^ (la + 1) := ha2q
      _ = (2 : ℚ) ^ ((la : Int) - (lb : Int) + 1) * (2 : ℚ) ^ lb := this.symm
      _ ≤ (2 : ℚ) ^ ((la : Int) - (lb : Int) + 1) * (q.den : ℚ) := by
          apply mul_le_mul_of_nonneg_left hb1q
          positivity
  unfold exponente
  simp only
  by_cases h : dosALa ((la : Int) - (lb : Int)) ≤ |q|
  · rw [if_pos h]
    exact ⟨h, hup⟩
  · rw [if_neg h]
    refine ⟨hlow, ?_⟩
    rw [Int.sub_add_cancel]
    exact lt_of_not_le h

theorem redondearPar_cerca (m : ℚ) : |(redondearPar m : ℚ) - m| ≤ 1 / 2 := by
  unfold redondearPar
  simp only
  have h1 := Int.floor_le m
  have h2 := Int.lt_floor_add_one m
  rw [abs_le]
  split_ifs <;> push_cast <;> constructor <;> linarith

theorem redondearBinario_cerca (p : Nat) (emin : Int) (q : ℚ) (hq : q ≠ 0) :
    |redondearBinario p emin q - q|
      ≤ dosALa (max (exponente q) emin - ((p : Int) - 1)) / 2 := by
  unfold redondearBinario
  rw [if_neg hq]
  simp only
  set c := dosALa (max (exponente q) emin - ((p : Int) - 1)) with hc
  have hcpos : 0 < c := dosALa_pos _
  have h := redondearPar_cerca (q / c)
  have : (redondearPar (q / c) : ℚ) * c - q = ((redondearPar (q / c) : ℚ) - q / c) * c := by
    field_simp
  rw [this, abs_mul, abs_of_pos hcpos]
  calc |(redondearPar (q / c) : ℚ) - q / c| * c ≤ 1 / 2 * c :=
        mul_le_mul_of_nonneg_right h hcpos.le
    _ = c / 2 := by ring

theorem redondearBinario_cota (p : Nat) (emin : Int) (q M : ℚ) (hq : |q| ≤ M)
    (hM : dosALa emin ≤ M) :
    |redondearBinario p emin q - q| ≤ M / 2 ^ p := by
  by_cases h0 : q = 0
  · subst h0
    have hM0 : 0 ≤ M := le_trans (abs_nonneg _) hq
    simp only [redondearBinario, if_true, sub_zero, abs_zero]
    positivity
  · refine le_trans (redondearBinario_cerca p emin q h0) ?_
    have hmax : dosALa (max (exponente q) emin) ≤ M := by
      rcases le_total (exponente q) emin with h | h
      · rw [max_eq_right h]
        exact hM
      · rw [max_eq_left h]
        exact le_trans (exponente_spec q h0).1 hq
    have : dosALa (max (exponente q) emin - ((p : Int) - 1)) / 2
        = dosALa (max (exponente q) emin) / 2 ^ p := by
      have e1 : max (exponente q) emin - ((p : Int) - 1)
          = max (exponente q) emin + (-(p : Int) + 1) := by ring
      rw [e1, dosALa_add, dosALa_eq (-(p : Int) + 1), zpow_add₀ (by norm_num), zpow_neg,
        zpow_natCast, zpow_one]
      field_simp
      ring
    rw [this]
    exact div_le_div_of_nonneg_right hmax (by positivity)

theorem f32_cota (q M : ℚ) (hq : |q| ≤ M) (hM : 1 / 2 ^ 126 ≤ M) :
    |f32 q - q| ≤ M / 2 ^ 24 :=
  redondearBinario_cota 24 (-126) q M hq (by
    rw [dosALa_eq, show (-126 : Int) = -((126 : Nat) : Int) from rfl, zpow_neg, zpow_natCast,
      ← one_div]
    exact hM)

theorem f64_cota (q M : ℚ) (hq : |q| ≤ M) (hM : 1 / 2 ^ 1022 ≤ M) :
    |f64 q - q| ≤ M / 2 ^ 53 :=
  redondearBinario_cota 53 (-1022) q M hq (by
    rw [dosALa_eq, show (-1022 : Int) = -((1022 : Nat) : Int) from rfl, zpow_neg, zpow_natCast,
      ← one_div]
    exact hM)


theorem mem_inicializarCeldas {ancho alto columnas filas color : Nat} {azN azV : Nat → ℚ}
    {c : Celda} (h : c ∈ inicializarCeldas ancho alto columnas filas color azN azV) :
    ∃ x y, x < columnas ∧ y < filas ∧
      c = celdaInicial ancho alto color (azN (y * columnas + x)) (azV (y * columnas + x)) x y := by
  unfold inicializarCeldas at h
  rw [List.mem_flatMap] at h
  obtain ⟨y, hy, hc⟩ := h
  rw [List.mem_map] at hc
  obtain ⟨x, hx, rfl⟩ := hc
  exact ⟨x, y, List.mem_range.mp hx, List.mem_range.mp hy, rfl⟩

theorem mem_reciclarDesde (cfg : ConfiguracionJuego) (ancho color : Nat) (e : Entrada)
    (celdas : List Celda) :
    ∀ k, (∀ c ∈ (reciclarDesde cfg ancho color e celdas k).1, c ∈ celdas) ∧
      (∀ c ∈ (reciclarDesde cfg ancho color e celdas k).2.1, ∃ j c0,
        c = nuevaCelda ancho color (e.azarNacer j) (e.azarVelocidad j) c0) := by
  induction celdas with
  | nil => intro k; simp [reciclarDesde]
  | cons c0 resto ih =>
    intro k
    unfold reciclarDesde
    by_cases hf : fueraIzquierda c0 = true
    · simp only [hf, if_true]
      refine ⟨fun c hc => List.mem_cons_of_mem _ ((ih (k + 1)).1 c hc), fun c hc => ?_⟩
      rcases List.mem_cons.mp hc with rfl | hc
      · exact ⟨k, c0, rfl⟩
      · exact (ih (k + 1)).2 c hc
    · simp only [hf, if_false]
      refine ⟨fun c hc => ?_, fun c hc => (ih k).2 c hc⟩
      rcases List.mem_cons.mp hc with rfl | hc
      · exact List.mem_cons_self _ _
      · exact List.mem_cons_of_mem _ ((ih k).1 c hc)

theorem actualizarCelda_todas (cfg : ConfiguracionJuego) (columnas filas color : Nat)
    (azar : Nat → ℚ) (P : Celda → Prop)
    (hpaso : ∀ c, P c →
      if (pasoCelda c).cuentaAtrasFotogramas ≤ 0 ∧ (pasoCelda c).zonaSinGeneracion = false then
        ∀ u cnt, P (evaluarVida cfg color u cnt (pasoCelda c))
      else P (pasoCelda c))
    (celdas : List Celda) (i : Nat) (res : List Celda) (hP : ∀ c ∈ celdas, P c)
    (h : actualizarCelda cfg columnas filas color azar celdas i = some res) :
    ∀ c ∈ res, P c := by
  unfold actualizarCelda at h
  cases hget : celdas[i]? with
  | none =>
    simp only [hget] at h
    cases h
    exact hP
  | some c0 =>
    simp only [hget] at h
    have hc0 : P c0 := hP c0 (List.getElem?_mem hget)
    have hp := hpaso c0 hc0
    by_cases hcond : (pasoCelda c0).cuentaAtrasFotogramas ≤ 0 ∧
        (pasoCelda c0).zonaSinGeneracion = false
    · rw [if_pos hcond] at h hp
      rw [Option.map_eq_some'] at h
      obtain ⟨cnt, _, rfl⟩ := h
      intro c hc
      rw [List.set_set] at hc
      rcases List.mem_or_eq_of_mem_set hc with hc | rfl
      · exact hP c hc
      · exact hp _ _
    · rw [if_neg hcond] at h hp
      cases h
      intro c hc
      rcases List.mem_or_eq_of_mem_set hc with hc | rfl
      · exact hP c hc
      · exact hp

theorem foldlM_todas {α : Type} (f : List Celda → α → Option (List Celda)) (P : Celda → Prop)
    (hf : ∀ cs a res, (∀ c ∈ cs, P c) → f cs a = some res → ∀ c ∈ res, P c) :
    ∀ (l : List α) (cs res : List Celda), (∀ c ∈ cs, P c) → l.foldlM f cs = some res →
      ∀ c ∈ res, P c := by
  intro l
  induction l with
  | nil =>
    intro cs res hP h
    simp only [List.foldlM_nil, Option.pure_def, Option.some.injEq] at h
    subst h
    exact hP
  | cons a l ih =>
    intro cs res hP h
    rw [List.foldlM_cons, Option.bind_eq_bind, Option.bind_eq_some] at h
    obtain ⟨cs1, h1, h2⟩ := h
    exact ih cs1 res (hf cs a cs1 hP h1) h2

theorem actualizarCeldas_todas (cfg : ConfiguracionJuego) (columnas filas color : Nat)
    (azar : Nat → ℚ) (P : Celda → Prop)
    (hpaso : ∀ c, P c →
      if (pasoCelda c).cuentaAtrasFotogramas ≤ 0 ∧ (pasoCelda c).zonaSinGeneracion = false then
        ∀ u cnt, P (evaluarVida cfg color u cnt (pasoCelda c))
      else P (pasoCelda c))
    (celdas res : List Celda) (hP : ∀ c ∈ celdas, P c)
    (h : actualizarCeldas cfg columnas filas color azar celdas = some res) :
    ∀ c ∈ res, P c :=
  foldlM_todas _ P
    (fun cs i r hcs hr => actualizarCelda_todas cfg columnas filas color azar P hpaso cs i r hcs hr)
    _ _ _ hP h

theorem procesarEventos_conserva (w : Mundo) (evs : List Evento) :
    (evs.foldl procesarEvento w).celdas = w.celdas ∧
    (evs.foldl procesarEvento w).items = w.items ∧
    (evs.foldl procesarEvento w).velocidadDesplazamiento = w.velocidadDesplazamiento := by
  induction evs generalizing w with
  | nil => exact ⟨rfl, rfl, rfl⟩
  | cons ev evs ih =>
    rw [List.foldl_cons]
    rw [(ih _).1, (ih _).2.1, (ih _).2.2]
    cases ev <;> exact ⟨rfl, rfl, rfl⟩

theorem procesarEntrada_conserva (w : Mundo) (e : Entrada) :
    (procesarEntrada w e).celdas = w.celdas ∧
    (procesarEntrada w e).items = w.items ∧
    (procesarEntrada w e).velocidadDesplazamiento = w.velocidadDesplazamiento := by
  unfold procesarEntrada
  simp only
  split_ifs
  · exact procesarEventos_conserva w e.eventos
  · exact procesarEventos_conserva w e.eventos

theorem faseMovimiento_todas (cfg : ConfiguracionJuego) (P : Celda → Prop)
    (hnueva : ∀ ancho color n v c, (1 / 2 ≤ v ∧ v ≤ 2) → P (nuevaCelda ancho color n v c))
    (hdesp : ∀ d c, P c → P (desplazarCelda d c))
    (w : Mundo) (e : Entrada) (hv : VelocidadesValidas e.azarVelocidad)
    (hP : ∀ c ∈ w.celdas, P c) :
    ∀ c ∈ (faseMovimiento cfg w e).celdas, P c := by
  intro c hc
  unfold faseMovimiento reciclar at hc
  simp only at hc
  rw [List.mem_append] at hc
  rcases hc with hc | hc
  · have := (mem_reciclarDesde _ _ _ _ _ 0).1 c hc
    rw [List.mem_map, (procesarEntrada_conserva w e).1] at this
    obtain ⟨c0, hc0, rfl⟩ := this
    exact hdesp _ _ (hP c0 hc0)
  · obtain ⟨j, c0, rfl⟩ := (mem_reciclarDesde _ _ _ _ _ 0).2 c hc
    exact hnueva _ _ _ _ _ (hv j)

theorem cicloNivel_celdas (cfg : ConfiguracionJuego) (w w1 : Mundo)
    (h : cicloNivel cfg w = some w1) :
    w1.celdas = w.celdas ∧ w1.items = w.items ∧ w1.columnas = w.columnas ∧ w1.filas = w.filas
      ∧ w1.ancho = w.ancho ∧ w1.alto = w.alto := by
  unfold cicloNivel at h
  split_ifs at h <;> cases h <;> exact ⟨rfl, rfl, rfl, rfl, rfl, rfl⟩

theorem tick_eq_some (cfg : ConfiguracionJuego) (w w1 : Mundo) (e : Entrada)
    (h : tick cfg w e = some w1) :
    ∃ w4 celdas, cicloNivel cfg (faseMovimiento cfg w e) = some w4 ∧
      actualizarCeldas cfg w4.columnas w4.filas (w4.paleta.getD w4.indiceCicloColor 0)
        e.azarEspontaneo w4.celdas = some celdas ∧
      w1 = faseFinal cfg w4 e celdas := by
  unfold tick at h
  split at h
  · cases h
  · rename_i w4 h4
    split at h
    · cases h
    · rename_i celdas h5
      cases h
      exact ⟨w4, celdas, h4, h5, rfl⟩

theorem tick_todas (cfg : ConfiguracionJuego) (P : Celda → Prop)
    (hnueva : ∀ ancho color n v c, (1 / 2 ≤ v ∧ v ≤ 2) → P (nuevaCelda ancho color n v c))
    (hdesp : ∀ d c, P c → P (desplazarCelda d c))
    (hpaso : ∀ color c, P c →
      if (pasoCelda c).cuentaAtrasFotogramas ≤ 0 ∧ (pasoCelda c).zonaSinGeneracion = false then
        ∀ u cnt, P (evaluarVida cfg color u cnt (pasoCelda c))
      else P (pasoCelda c))
    (w w1 : Mundo) (e : Entrada) (hv : VelocidadesValidas e.azarVelocidad)
    (hP : ∀ c ∈ w.celdas, P c) (h : tick cfg w e = some w1) :
    ∀ c ∈ w1.celdas, P c := by
  obtain ⟨w4, celdas, h4, h5, rfl⟩ := tick_eq_some cfg w w1 e h
  show ∀ c ∈ celdas, P c
  refine actualizarCeldas_todas cfg _ _ _ _ P (hpaso _) _ _ ?_ h5
  rw [(cicloNivel_celdas cfg _ _ h4).1]
  exact faseMovimiento_todas cfg P hnueva hdesp w e hv hP

theorem alcanzable_todas (cfg : ConfiguracionJuego) (P : Celda → Prop)
    (hini : ∀ ancho alto color n v x y, (1 / 2 ≤ v ∧ v ≤ 2) →
      P (celdaInicial ancho alto color n v x y))
    (hnueva : ∀ ancho color n v c, (1 / 2 ≤ v ∧ v ≤ 2) → P (nuevaCelda ancho color n v c))
    (hdesp : ∀ d c, P c → P (desplazarCelda d c))
    (hpaso : ∀ color c, P c →
      if (pasoCelda c).cuentaAtrasFotogramas ≤ 0 ∧ (pasoCelda c).zonaSinGeneracion = false then
        ∀ u cnt, P (evaluarVida cfg color u cnt (pasoCelda c))
      else P (pasoCelda c))
    (w : Mundo) (hw : Alcanzable cfg w) : ∀ c ∈ w.celdas, P c := by
  induction hw with
  | inicio ancho alto paleta azN azV _ hv =>
    intro c hc
    obtain ⟨x, y, _, _, rfl⟩ := mem_inicializarCeldas hc
    exact hini _ _ _ _ _ _ _ (hv _)
  | paso w w1 e _ _ hv ht ih =>
    exact tick_todas cfg P hnueva hdesp hpaso w w1 e hv ih ht

theorem tmod_envuelve (n : Nat) (hn : 0 < n) (a : Nat) (δ : Int) (hδ : -1 ≤ δ) :
    ((a : Int) + δ + (n : Int)).tmod (n : Int) = ((a : Int) + δ) % (n : Int) := by
  rw [Int.tmod_eq_emod (by omega) (by omega), Int.add_emod_self]

theorem desplazamiento_acotado {d : Int × Int} (hd : d ∈ desplazamientos) :
    -1 ≤ d.1 ∧ d.1 ≤ 1 ∧ -1 ≤ d.2 ∧ d.2 ≤ 1 := by
  simp only [desplazamientos, List.mem_cons, List.mem_singleton, List.not_mem_nil, or_false] at hd
  rcases hd with rfl | rfl | rfl | rfl | rfl | rfl | rfl | rfl <;> decide

theorem indiceVecino_eq (columnas filas : Nat) (hc : 0 < columnas) (hf : 0 < filas) (i : Nat)
    {d : Int × Int} (hd : d ∈ desplazamientos) :
    indiceVecino columnas filas i d = posicionToroidal columnas filas i d := by
  obtain ⟨h1, _, h2, _⟩ := desplazamiento_acotado hd
  unfold indiceVecino posicionToroidal
  simp only
  rw [tmod_envuelve columnas hc _ _ h1, tmod_envuelve filas hf _ _ h2]

theorem posicionToroidal_cota (columnas filas : Nat) (hc : 0 < columnas) (hf : 0 < filas)
    (i : Nat) (d : Int × Int) :
    0 ≤ posicionToroidal columnas filas i d ∧
    posicionToroidal columnas filas i d < ((columnas * filas : Nat) : Int) := by
  unfold posicionToroidal
  have hc' : (0 : Int) < columnas := by exact_mod_cast hc
  have hf' : (0 : Int) < filas := by exact_mod_cast hf
  have a1 := Int.emod_nonneg (((i / columnas : Nat) : Int) + d.2) hf'.ne'
  have a2 := Int.emod_lt_of_pos (((i / columnas : Nat) : Int) + d.2) hf'
  have b1 := Int.emod_nonneg (((i % columnas : Nat) : Int) + d.1) hc'.ne'
  have b2 := Int.emod_lt_of_pos (((i % columnas : Nat) : Int) + d.1) hc'
  generalize ((((i / columnas : Nat) : Int) + d.2) % (filas : Int)) = A at a1 a2
  generalize ((((i % columnas : Nat) : Int) + d.1) % (columnas : Int)) = B at b1 b2
  constructor
  · positivity
  · have h1 : (A + 1) * (columnas : Int) ≤ (filas : Int) * (columnas : Int) :=
      Int.mul_le_mul_of_nonneg_right (by omega) hc'.le
    push_cast
    nlinarith

theorem vecinos_eq (columnas filas : Nat) (hc : 0 < columnas) (hf : 0 < filas) (i : Nat) :
    vecinos columnas filas i = desplazamientos.map (posicionToroidal columnas filas i) := by
  unfold vecinos
  exact List.map_congr_left fun d hd => indiceVecino_eq columnas filas hc hf i hd

theorem contarVecinos_eq (columnas filas : Nat) (hc : 0 < columnas) (hf : 0 < filas)
    (celdas : List Celda) (hlen : columnas * filas ≤ celdas.length) (i : Nat) :
    contarVecinos columnas filas celdas i = some (conteoLeido columnas filas celdas i) := by
  unfold contarVecinos conteoLeido
  rw [if_neg (by omega), vecinos_eq columnas filas hc hf i, if_pos]
  rw [List.all_eq_true]
  intro k hk
  rw [List.mem_map] at hk
  obtain ⟨d, _, rfl⟩ := hk
  obtain ⟨h0, h1⟩ := posicionToroidal_cota columnas filas hc hf i d
  rw [decide_eq_true_eq]
  refine ⟨h0, ?_⟩
  rw [Int.toNat_lt h0]
  have : ((columnas * filas : Nat) : Int) ≤ (celdas.length : Int) := by exact_mod_cast hlen
  omega

theorem posicionToroidal_fila (columnas filas : Nat) (hc : 0 < columnas) (i : Nat)
    (d : Int × Int) :
    posicionToroidal columnas filas i d / (columnas : Int)
      = (((i / columnas : Nat) : Int) + d.2) % (filas : Int) := by
  unfold posicionToroidal
  have hc' : (0 : Int) < columnas := by exact_mod_cast hc
  have b1 := Int.emod_nonneg (((i % columnas : Nat) : Int) + d.1) hc'.ne'
  have b2 := Int.emod_lt_of_pos (((i % columnas : Nat) : Int) + d.1) hc'
  rw [Int.add_comm, Int.add_mul_ediv_right _ _ hc'.ne', Int.ediv_eq_zero_of_lt b1 b2, Int.zero_add]

theorem posicionToroidal_columna (columnas filas : Nat) (i : Nat)
    (d : Int × Int) :
    posicionToroidal columnas filas i d % (columnas : Int)
      = (((i % columnas : Nat) : Int) + d.1) % (columnas : Int) := by
  unfold posicionToroidal
  rw [Int.add_comm, Int.add_mul_emod_self, Int.emod_emod_of_dvd _ (dvd_refl _)]

theorem emod_menos_uno (n : Nat) (hn : 0 < n) : ((0 : Int) + -1) % (n : Int) = (n : Int) - 1 := by
  have h : ((0 : Int) + -1) = ((n : Int) - 1) + (n : Int) * (-1) := by ring
  rw [h, Int.add_mul_emod_self_left, Int.emod_eq_of_lt (by omega) (by omega)]

theorem foldlM_inv {α β : Type} (f : β → α → Option β) (Q : β → Prop)
    (hf : ∀ b a r, Q b → f b a = some r → Q r) :
    ∀ (l : List α) (b r : β), Q b → l.foldlM f b = some r → Q r := by
  intro l
  induction l with
  | nil =>
    intro b r hQ h
    simp only [List.foldlM_nil, Option.pure_def, Option.some.injEq] at h
    exact h ▸ hQ
  | cons a l ih =>
    intro b r hQ h
    rw [List.foldlM_cons, Option.bind_eq_bind, Option.bind_eq_some] at h
    obtain ⟨b1, h1, h2⟩ := h
    exact ih b1 r (hf b a b1 hQ h1) h2

theorem foldlM_definida {α β : Type} (f : β → α → Option β) (Q : β → Prop)
    (hf : ∀ b a, Q b → ∃ r, f b a = some r ∧ Q r) :
    ∀ (l : List α) (b : β), Q b → ∃ r, l.foldlM f b = some r ∧ Q r := by
  intro l
  induction l with
  | nil =>
    intro b hQ
    exact ⟨b, rfl, hQ⟩
  | cons a l ih =>
    intro b hQ
    obtain ⟨b1, h1, hQ1⟩ := hf b a hQ
    obtain ⟨r, h2, hQ2⟩ := ih b1 hQ1
    refine ⟨r, ?_, hQ2⟩
    rw [List.foldlM_cons, Option.bind_eq_bind, h1]
    exact h2

theorem pasoCelda_zona (c : Celda) :
    (pasoCelda c).zonaSinGeneracion = c.zonaSinGeneracion ∧ (pasoCelda c).viva = c.viva := by
  unfold pasoCelda animar
  split_ifs <;> exact ⟨rfl, rfl⟩

theorem actualizarCelda_length (cfg : ConfiguracionJuego) (columnas filas color : Nat)
    (azar : Nat → ℚ) (celdas : List Celda) (i : Nat) (res : List Celda)
    (h : actualizarCelda cfg columnas filas color azar celdas i = some res) :
    res.length = celdas.length := by
  unfold actualizarCelda at h
  split at h
  · cases h; rfl
  · simp only at h
    split_ifs at h
    · rw [Option.map_eq_some'] at h
      obtain ⟨cnt, _, rfl⟩ := h
      simp
    · cases h
      simp

theorem actualizarCelda_zona (cfg : ConfiguracionJuego) (columnas filas color : Nat)
    (azar : Nat → ℚ) (celdas : List Celda) (j : Nat) (res : List Celda)
    (h : actualizarCelda cfg columnas filas color azar celdas j = some res)
    (i : Nat) (v : Bool)
    (hi : ∃ c, celdas[i]? = some c ∧ c.zonaSinGeneracion = true ∧ c.viva = v) :
    ∃ c, res[i]? = some c ∧ c.zonaSinGeneracion = true ∧ c.viva = v := by
  obtain ⟨c, hget, hz, hv⟩ := hi
  unfold actualizarCelda at h
  split at h
  · cases h
    exact ⟨c, hget, hz, hv⟩
  · rename_i c0 hget0
    simp only at h
    by_cases hji : j = i
    · subst hji
      rw [hget] at hget0
      cases hget0
      have hlt : j < celdas.length := (List.getElem?_eq_some_iff.mp hget).1
      rw [if_neg (by rw [(pasoCelda_zona c).1, hz]; simp)] at h
      cases h
      refine ⟨pasoCelda c, ?_, ?_, ?_⟩
      · rw [List.getElem?_set_self hlt]
      · rw [(pasoCelda_zona c).1, hz]
      · rw [(pasoCelda_zona c).2, hv]
    · split_ifs at h
      · rw [Option.map_eq_some'] at h
        obtain ⟨cnt, _, rfl⟩ := h
        refine ⟨c, ?_, hz, hv⟩
        rw [List.getElem?_set_ne hji, List.getElem?_set_ne hji, hget]
      · cases h
        refine ⟨c, ?_, hz, hv⟩
        rw [List.getElem?_set_ne hji, hget]

theorem actualizarCelda_definida (cfg : ConfiguracionJuego) (columnas filas color : Nat)
    (azar : Nat → ℚ) (celdas : List Celda) (i : Nat)
    (hlen : celdas.length = columnas * filas) :
    ∃ res, actualizarCelda cfg columnas filas color azar celdas i = some res ∧
      res.length = columnas * filas := by
  have key : ∃ res, actualizarCelda cfg columnas filas color azar celdas i = some res := by
    unfold actualizarCelda
    split
    · exact ⟨_, rfl⟩
    · rename_i c0 hget
      have hlt : i < celdas.length := (List.getElem?_eq_some_iff.mp hget).1
      have hc : 0 < columnas := Nat.pos_of_ne_zero (by
        rintro rfl
        rw [Nat.zero_mul] at hlen
        omega)
      have hf : 0 < filas := Nat.pos_of_ne_zero (by
        rintro rfl
        rw [Nat.mul_zero] at hlen
        omega)
      simp only
      split_ifs
      · rw [contarVecinos_eq columnas filas hc hf _ (by simp [hlen])]
        exact ⟨_, rfl⟩
      · exact ⟨_, rfl⟩
  obtain ⟨res, h⟩ := key
  exact ⟨res, h, (actualizarCelda_length _ _ _ _ _ _ _ _ h).trans hlen⟩

theorem actualizarCeldas_definida (cfg : ConfiguracionJuego) (columnas filas color : Nat)
    (azar : Nat → ℚ) (celdas : List Celda) (hlen : celdas.length = columnas * filas) :
    ∃ res, actualizarCeldas cfg columnas filas color azar celdas = some res ∧
      res.length = columnas * filas :=
  foldlM_definida (actualizarCelda cfg columnas filas color azar)
    (fun cs => cs.length = columnas * filas)
    (fun cs i hcs => actualizarCelda_definida cfg columnas filas color azar cs i hcs)
    (List.range celdas.length) celdas hlen

theorem actualizarCeldas_zona (cfg : ConfiguracionJuego) (columnas filas color : Nat)
    (azar : Nat → ℚ) (celdas res : List Celda)
    (h : actualizarCeldas cfg columnas filas color azar celdas = some res)
    (i : Nat) (c : Celda) (hget : celdas[i]? = some c) (hz : c.zonaSinGeneracion = true) :
    ∃ c1, res[i]? = some c1 ∧ c1.zonaSinGeneracion = true ∧ c1.viva = c.viva :=
  foldlM_inv (actualizarCelda cfg columnas filas color azar)
    (fun cs => ∃ c1, cs[i]? = some c1 ∧ c1.zonaSinGeneracion = true ∧ c1.viva = c.viva)
    (fun cs j r hcs hr => actualizarCelda_zona cfg columnas filas color azar cs j r hr i c.viva hcs)
    (List.range celdas.length) celdas res ⟨c, hget, hz, rfl⟩ h

theorem zonaMuerta_alcanzable (cfg : ConfiguracionJuego) (w : Mundo) (hw : Alcanzable cfg w) :
    ∀ c ∈ w.celdas, c.zonaSinGeneracion = true → c.viva = false := by
  refine alcanzable_todas cfg ZonaMuerta ?_ ?_ ?_ ?_ w hw
  · intro ancho alto color n v x y _
    unfold ZonaMuerta celdaInicial
    simp only
    intro h
    rw [h]
    rfl
  · intro ancho color n v c _
    unfold ZonaMuerta nuevaCelda
    simp
  · intro d c h
    exact h
  · intro color c h
    have hp := pasoCelda_zona c
    split_ifs with hcond
    · intro u cnt hz
      exfalso
      have : (evaluarVida cfg color u cnt (pasoCelda c)).zonaSinGeneracion
          = (pasoCelda c).zonaSinGeneracion := by
        unfold evaluarVida
        simp only
        split_ifs <;> rfl
      rw [this, hcond.2] at hz
      cases hz
    · intro hz
      rw [hp.2]
      exact h (hp.1 ▸ hz)

theorem length_inicializarCeldas (ancho alto columnas filas color : Nat) (azN azV : Nat → ℚ) :
    (inicializarCeldas ancho alto columnas filas color azN azV).length = columnas * filas := by
  unfold inicializarCeldas
  rw [List.length_flatMap]
  have : (List.length ∘ fun y => (List.range columnas).map fun x =>
      celdaInicial ancho alto color (azN (y * columnas + x)) (azV (y * columnas + x)) x y)
      = fun _ => columnas := by
    funext y
    simp
  rw [this]
  simp [Nat.mul_comm]

theorem reciclarDesde_eq (cfg : ConfiguracionJuego) (ancho color : Nat) (e : Entrada)
    (celdas : List Celda) :
    ∀ k, (reciclarDesde cfg ancho color e celdas k).1
        = celdas.filter (fun c => !fueraIzquierda c) ∧
      (reciclarDesde cfg ancho color e celdas k).2.1.length
        = (celdas.filter fueraIzquierda).length ∧
      (reciclarDesde cfg ancho color e celdas k).2.2
        = (celdas.filter fueraIzquierda).map (nuevoItem cfg ancho) := by
  induction celdas with
  | nil => intro k; simp [reciclarDesde]
  | cons c resto ih =>
    intro k
    unfold reciclarDesde
    by_cases hf : fueraIzquierda c = true
    · simp [hf, ih (k + 1)]
    · simp [hf, ih k]

theorem reciclar_length (cfg : ConfiguracionJuego) (ancho color : Nat) (e : Entrada)
    (celdas : List Celda) (items : List Recuperable) :
    (reciclar cfg ancho color e celdas items).1.length = celdas.length := by
  unfold reciclar
  obtain ⟨h1, h2, _⟩ := reciclarDesde_eq cfg ancho color e celdas 0
  simp only [List.length_append, h1, h2]
  have := List.length_eq_length_filter_add (l := celdas) fueraIzquierda
  omega

theorem faseMovimiento_length (cfg : ConfiguracionJuego) (w : Mundo) (e : Entrada) :
    (faseMovimiento cfg w e).celdas.length = w.celdas.length := by
  unfold faseMovimiento
  simp only
  rw [reciclar_length, List.length_map, (procesarEntrada_conserva w e).1]

theorem inter_vacia (a b : Rect)
    (h : min (a.x + a.width) (b.x + b.width) - max a.x b.x ≤ 0 ∨
      min (a.y + a.height) (b.y + b.height) - max a.y b.y ≤ 0) :
    a.inter b = ⟨0, 0, 0, 0⟩ := by
  show (if _ then _ else _) = _
  exact if_pos h

theorem inter_no_vacia (a b : Rect)
    (h : ¬ (min (a.x + a.width) (b.x + b.width) - max a.x b.x ≤ 0 ∨
      min (a.y + a.height) (b.y + b.height) - max a.y b.y ≤ 0)) :
    a.inter b = ⟨max a.x b.x, max a.y b.y,
      min (a.x + a.width) (b.x + b.width) - max a.x b.x,
      min (a.y + a.height) (b.y + b.height) - max a.y b.y⟩ := by
  show (if _ then _ else _) = _
  exact if_neg h

theorem inter_of_area_pos (a b : Rect) (h : 0 < (a.inter b).area) :
    0 < min (a.x + a.width) (b.x + b.width) - max a.x b.x ∧
    0 < min (a.y + a.height) (b.y + b.height) - max a.y b.y ∧
    (a.inter b).width = min (a.x + a.width) (b.x + b.width) - max a.x b.x ∧
    (a.inter b).height = min (a.y + a.height) (b.y + b.height) - max a.y b.y := by
  by_cases hc : min (a.x + a.width) (b.x + b.width) - max a.x b.x ≤ 0 ∨
      min (a.y + a.height) (b.y + b.height) - max a.y b.y ≤ 0
  · rw [inter_vacia a b hc] at h
    simp [Rect.area] at h
  · rw [inter_no_vacia a b hc]
    push_neg at hc
    exact ⟨hc.1, hc.2, rfl, rfl⟩

theorem inter_area_not_pos (a b : Rect)
    (h : min (a.x + a.width) (b.x + b.width) - max a.x b.x ≤ 0 ∨
      min (a.y + a.height) (b.y + b.height) - max a.y b.y ≤ 0) :
    ¬ 0 < (a.inter b).area := by
  rw [inter_vacia a b h]
  simp [Rect.area]

theorem periodo_ge (v : ℚ) (hv : 1 / 2 ≤ v ∧ v ≤ 2) : 30 ≤ periodo v := by
  have hpos : 0 < v := by linarith [hv.1]
  have h30 : (30 : ℚ) ≤ (fps : ℚ) / v := by
    rw [le_div_iff₀ hpos]
    simp only [fps]
    push_cast
    linarith [hv.2]
  unfold periodo redondear
  rw [if_pos (by linarith)]
  apply le_max_of_le_right
  rw [Int.le_floor]
  push_cast
  linarith

theorem factorAcotado_animar (c : Celda) (h : FactorAcotado c) : FactorAcotado (animar c) := by
  unfold FactorAcotado at h ⊢
  unfold animar
  split_ifs
  · exact ⟨le_min (by norm_num) (by linarith [h.1]), min_le_left _ _⟩
  · exact ⟨le_max_left _ _, max_le (by norm_num) (by linarith [h.2])⟩
  · exact h

theorem factorAcotado_evaluarVida (cfg : ConfiguracionJuego) (color : Nat) (u : ℚ) (cnt : Nat)
    (c : Celda) (h : FactorAcotado c) : FactorAcotado (evaluarVida cfg color u cnt c) := by
  unfold FactorAcotado at h ⊢
  unfold evaluarVida
  simp only
  split_ifs <;> simp [nacer, morir, h.1, h.2]

theorem animacionBien_paso (c : Celda) (h : AnimacionBien c) :
    AnimacionBien (pasoCelda c) ∧
    ((pasoCelda c).cuentaAtrasFotogramas ≤ 0 → (pasoCelda c).zonaSinGeneracion = false →
      (pasoCelda c).creciendo = false ∧ (pasoCelda c).encogiendo = false) := by
  obtain ⟨hex, hz⟩ := h
  unfold AnimacionBien pasoCelda animar
  by_cases hc : c.creciendo = true
  · have hne : c.encogiendo = false := by
      cases he : c.encogiendo
      · rfl
      · exact absurd ⟨hc, he⟩ hex
    simp only [hc, if_true]
    by_cases hf : min 1 (c.factorTamano + 0.05) ≥ 1
    · simp only [hf, if_true, hne]
      refine ⟨⟨by simp, fun hzz => ⟨(hz hzz).1, by simp, by simp⟩⟩, fun _ _ => by simp⟩
    · simp only [hf, if_false, hne]
      have hlt : c.factorTamano + 0.05 < 1 := by
        by_contra hcon
        exact hf (le_min le_rfl (not_lt.mp hcon))
      have hmin : min 1 (c.factorTamano + 0.05) = c.factorTamano + 0.05 :=
        min_eq_right hlt.le
      refine ⟨⟨by simp, fun hzz => ⟨(hz hzz).1, fun _ => ?_, by simp⟩⟩, fun hcd hzz => ?_⟩
      · have := (hz hzz).2.1 hc
        rw [hmin]
        push_cast at this ⊢
        linarith
      · exfalso
        have h1 := (hz hzz).2.1 hc
        have h20 : (20 : ℚ) ≤ (c.fotogramasPorActualizacion : ℚ) := by
          exact_mod_cast (hz hzz).1
        have hcd' : ((c.cuentaAtrasFotogramas : ℚ)) - 1 ≤ 0 := by
          have : c.cuentaAtrasFotogramas - 1 ≤ 0 := hcd
          exact_mod_cast this
        push_cast at h1
        norm_num at h1 hlt
        linarith
  · have hcf : c.creciendo = false := by simpa using hc
    simp only [hcf, Bool.false_eq_true, if_false]
    by_cases he : c.encogiendo = true
    · simp only [he, if_true]
      by_cases hf : max 0 (c.factorTamano - 0.05) ≤ 0
      · simp only [hf, if_true]
        refine ⟨⟨by simp, fun hzz => ⟨(hz hzz).1, by simp, by simp⟩⟩, fun _ _ => by simp⟩
      · simp only [hf, if_false]
        have hlt : 0 < c.factorTamano - 0.05 := by
          by_contra hcon
          exact hf (max_le le_rfl (not_lt.mp hcon))
        have hmax : max 0 (c.factorTamano - 0.05) = c.factorTamano - 0.05 :=
          max_eq_right hlt.le
        refine ⟨⟨by simp, fun hzz => ⟨(hz hzz).1, by simp, fun _ => ?_⟩⟩, fun hcd hzz => ?_⟩
        · have := (hz hzz).2.2 he
          rw [hmax]
          push_cast at this ⊢
          linarith
        · exfalso
          have h1 := (hz hzz).2.2 he
          have h20 : (20 : ℚ) ≤ (c.fotogramasPorActualizacion : ℚ) := by
            exact_mod_cast (hz hzz).1
          have hcd' : ((c.cuentaAtrasFotogramas : ℚ)) - 1 ≤ 0 := by
            have : c.cuentaAtrasFotogramas - 1 ≤ 0 := hcd
            exact_mod_cast this
          push_cast at h1
          norm_num at h1 hlt
          linarith
    · have hef : c.encogiendo = false := by simpa using he
      simp only [hef, Bool.false_eq_true, if_false]
      refine ⟨⟨by simp [hcf], fun hzz => ⟨(hz hzz).1, by simp [hcf], by simp [hef]⟩⟩,
        fun _ _ => by simp [hcf, hef]⟩

theorem animacionBien_evaluarVida (cfg : ConfiguracionJuego) (color : Nat) (u : ℚ) (cnt : Nat)
    (c : Celda) (h20 : 20 ≤ c.fotogramasPorActualizacion)
    (hc : c.creciendo = false) (he : c.encogiendo = false) :
    AnimacionBien (evaluarVida cfg color u cnt c) := by
  unfold AnimacionBien evaluarVida
  simp only
  split_ifs <;> simp [nacer, morir, hc, he, h20]

theorem vivaEn_set (celdas : List Celda) (i : Nat) (c c2 : Celda) (hget : celdas[i]? = some c)
    (hv : c2.viva = c.viva) (k : Int) : vivaEn (celdas.set i c2) k = vivaEn celdas k := by
  unfold vivaEn
  rw [List.getElem?_set]
  by_cases hik : i = k.toNat
  · subst hik
    have hlt : k.toNat < celdas.length := (List.getElem?_eq_some_iff.mp hget).1
    rw [if_pos rfl, if_pos hlt, hget]
    exact hv
  · rw [if_neg hik]

theorem contarVecinos_set (columnas filas : Nat) (celdas : List Celda) (i : Nat) (c c2 : Celda)
    (hget : celdas[i]? = some c) (hv : c2.viva = c.viva) (j : Nat) :
    contarVecinos columnas filas (celdas.set i c2) j = contarVecinos columnas filas celdas j := by
  unfold contarVecinos
  have : vivaEn (celdas.set i c2) = vivaEn celdas := funext (vivaEn_set celdas i c c2 hget hv)
  rw [this, List.length_set]

theorem pasoCelda_cuenta (c : Celda) :
    (pasoCelda c).cuentaAtrasFotogramas = c.cuentaAtrasFotogramas - 1 := by
  unfold pasoCelda animar
  split_ifs <;> rfl

theorem evaluarVida_viva (cfg : ConfiguracionJuego) (color : Nat) (u : ℚ) (n : Nat) (c : Celda) :
    (c.viva = false → n = 3 → (evaluarVida cfg color u n c).viva = true) ∧
    (c.viva = true → (n = 2 ∨ n = 3) → (evaluarVida cfg color u n c).viva = true) ∧
    (c.viva = true → (n = 0 ∨ n = 1) → (evaluarVida cfg color u n c).viva = false) ∧
    (c.viva = true → 4 ≤ n → (evaluarVida cfg color u n c).viva = false) := by
  unfold evaluarVida siguienteViva
  refine ⟨?_, ?_, ?_, ?_⟩
  · intro hv hn
    subst hn
    simp [hv, nacer]
  · intro hv hn
    rcases hn with rfl | rfl <;> simp [hv]
  · intro hv hn
    rcases hn with rfl | rfl <;> simp [hv, morir]
  · intro hv hn
    have h2 : (n == 2) = false := by simp; omega
    have h3 : (n == 3) = false := by simp; omega
    simp [hv, morir, h2, h3]

theorem actualizarItems_eq (cfg : ConfiguracionJuego) (celdas : List Celda) (j : Jugador)
    (items : List Recuperable) :
    ∀ p, (actualizarItems cfg celdas j items p).1
      = items.map (fun itm => (actualizarItem cfg celdas j itm).1) := by
  induction items with
  | nil => intro p; rfl
  | cons itm resto ih =>
    intro p
    unfold actualizarItems
    simp only [List.map_cons]
    rw [ih]

theorem faseMovimiento_items (cfg : ConfiguracionJuego) (w : Mundo) (e : Entrada) :
    ∃ nuevos, (faseMovimiento cfg w e).items
      = w.items.map (desplazarItem (w.velocidadDesplazamiento * dt)) ++ nuevos := by
  unfold faseMovimiento reciclar
  simp only
  rw [(procesarEntrada_conserva w e).2.1, (procesarEntrada_conserva w e).2.2]
  exact ⟨_, rfl⟩

theorem filter_map_flatMap {α β γ δ : Type} (p : γ → Bool) (g : γ → δ) (f : α → β → γ)
    (l2 : List β) : ∀ l1 : List α,
    ((l1.flatMap fun y => l2.map (f y)).filter p).map g
      = l1.flatMap fun y => (l2.filter fun x => p (f y x)).map fun x => g (f y x) := by
  intro l1
  induction l1 with
  | nil => rfl
  | cons a l ih =>
    rw [List.flatMap_cons, List.flatMap_cons, List.filter_append, List.map_append, ih,
      List.filter_map, List.map_map]
    rfl

theorem some_getD_of_isSome {α : Type} (o : Option α) (d : α) (h : o.isSome = true) :
    o = some (o.getD d) := by
  cases o with
  | none => cases h
  | some a => rfl

theorem velocidades_constantes : VelocidadesValidas (fun _ => 1) :=
  fun _ => ⟨by norm_num, by norm_num⟩

theorem alcanzable_mundoPequenoTrasTick : Alcanzable cfg mundoPequenoTrasTick :=
  Alcanzable.paso mundoPequeno mundoPequenoTrasTick entradaQuieta
    (Alcanzable.inicio 360 240 (List.range totalColores) (fun _ => 1) (fun _ => 1)
      (List.Perm.refl _) velocidades_constantes)
    rfl velocidades_constantes (some_getD_of_isSome _ _ (by decide!))

/-! ## The claims -/

/-- Claim C2: in every state reachable from the initialisation by iterations of the loop, with
the update periods drawn from velocities between 0.5 and 2.0, no cell has `creciendo` and
`encogiendo` both true. -/
theorem banderas_excluyentes (cfg : ConfiguracionJuego) (w : Mundo) (hw : Alcanzable cfg w) :
    ∀ c ∈ w.celdas, ¬ (c.creciendo = true ∧ c.encogiendo = true) := by
  intro c hc
  refine (alcanzable_todas cfg AnimacionBien ?_ ?_ ?_ ?_ w hw c hc).1
  · intro ancho alto color n v x y hv
    have := periodo_ge v hv
    unfold AnimacionBien celdaInicial
    simp only
    refine ⟨by simp, fun _ => ⟨by omega, fun _ => ?_, by simp⟩⟩
    split_ifs
    simp
  · intro ancho color n v c hv
    have := periodo_ge v hv
    unfold AnimacionBien nuevaCelda
    simp only
    refine ⟨by simp, fun _ => ⟨by omega, fun _ => ?_, by simp⟩⟩
    split_ifs
    simp
  · intro d c h
    exact h
  · intro color c h
    obtain ⟨h1, h2⟩ := animacionBien_paso c h
    split_ifs with hcond
    · intro u cnt
      obtain ⟨hcr, hen⟩ := h2 hcond.1 hcond.2
      exact animacionBien_evaluarVida cfg color u cnt _ (h1.2 hcond.2).1 hcr hen
    · exact h1

/-- Witness of claim C2: the state after one iteration from the start of an attempt in a window
of 360 by 240. -/
theorem banderas_excluyentes_witness :
    (mundoPequenoTrasTick.celdas.all fun c => !(c.creciendo && c.encogiendo)) = true := by
  rw [List.all_eq_true]
  intro c hc
  have h := banderas_excluyentes cfg mundoPequenoTrasTick alcanzable_mundoPequenoTrasTick c hc
  cases hcr : c.creciendo
  · rfl
  · cases hen : c.encogiendo
    · rfl
    · exact absurd ⟨hcr, hen⟩ h

/-- Claim C3, at the failing input: an attempt starts on the window of 1920 by 1080 (144 cells,
16 columns by 9 rows) and its first iteration polls a resize event to 2400 by 1080. Before and
after the recycling step of that iteration `celdas` still holds 144 cells while
`columnas * filas` is 180, and the neighbour count of the cell at index 143 reads outside
`celdas`. -/
theorem redimension_rompe_longitud (cfg : ConfiguracionJuego) (paleta : List Nat)
    (azN azV : Nat → ℚ) (e : Entrada) :
    let w0 := inicializar cfg 1920 1080 paleta azN azV
    let e1 : Entrada := { e with eventos := [Evento.redimension 2400 1080] }
    let w1 := procesarEntrada w0 e1
    let w2 := faseMovimiento cfg w0 e1
    w0.celdas.length = w0.columnas * w0.filas ∧
    w1.celdas.length = 144 ∧ w1.columnas * w1.filas = 180 ∧
    w2.celdas.length = 144 ∧ w2.columnas * w2.filas = 180 ∧
    contarVecinos w2.columnas w2.filas w2.celdas 143 = none := by
  intro w0 e1 w1 w2
  have h0 : w0.celdas.length = 144 := length_inicializarCeldas _ _ _ _ _ _ _
  have h1 : w1.celdas.length = 144 := by
    rw [(procesarEntrada_conserva w0 e1).1]
    exact h0
  have hc1 : w1.columnas = 20 ∧ w1.filas = 9 := by
    show (procesarEntrada w0 e1).columnas = 20 ∧ (procesarEntrada w0 e1).filas = 9
    unfold procesarEntrada
    simp only
    split_ifs <;> exact ⟨rfl, rfl⟩
  have h2 : w2.celdas.length = 144 := (faseMovimiento_length cfg w0 e1).trans h0
  have hc : w2.columnas = 20 := hc1.1
  have hf : w2.filas = 9 := hc1.2
  refine ⟨h0, h1, by rw [hc1.1, hc1.2], h2, by rw [hc, hf], ?_⟩
  rw [hc, hf]
  unfold contarVecinos
  rw [h2, if_neg (by decide), if_neg (by decide)]

/-- Claim C4, amended: no iteration of the loop removes an item. After every iteration the item
collection is at least as long as before, and the item at each index is the item that was at that
index before, scrolled and updated; nothing depends on the item's position, so an item left of
`x = 0` stays in the collection, collected or not. -/
theorem items_nunca_eliminados (cfg : ConfiguracionJuego) (w w1 : Mundo) (e : Entrada)
    (h : tick cfg w e = some w1) :
    w.items.length ≤ w1.items.length ∧
    ∃ (celdas : List Celda) (j : Jugador), ∀ (i : Nat) (itm : Recuperable),
      w.items[i]? = some itm →
      w1.items[i]? = some
        (actualizarItem cfg celdas j (desplazarItem (w.velocidadDesplazamiento * dt) itm)).1 := by
  obtain ⟨w4, celdas, h4, _, rfl⟩ := tick_eq_some cfg w w1 e h
  obtain ⟨nuevos, hn⟩ := faseMovimiento_items cfg w e
  have hit : (faseFinal cfg w4 e celdas).items
      = (w.items.map (desplazarItem (w.velocidadDesplazamiento * dt)) ++ nuevos).map
          (fun itm => (actualizarItem cfg celdas w4.jugador itm).1) := by
    show (actualizarItems cfg celdas w4.jugador w4.items w4.puntuacion).1 = _
    rw [actualizarItems_eq, (cicloNivel_celdas cfg _ _ h4).2.1, hn]
  refine ⟨?_, celdas, w4.jugador, ?_⟩
  · rw [hit]
    simp
  · intro i itm hget
    rw [hit, List.map_append, List.map_map]
    have hlt : i < w.items.length := (List.getElem?_eq_some_iff.mp hget).1
    rw [List.getElem?_append_left (by simpa using hlt), List.getElem?_map, hget]
    rfl

/-- Witness of claim C4, amended: one iteration from `mundoConItem`. -/
theorem items_nunca_eliminados_witness :
    mundoConItem.items.length ≤ mundoConItemTrasTick.items.length :=
  (items_nunca_eliminados cfg mundoConItem mundoConItemTrasTick entradaQuieta
    (some_getD_of_isSome _ _ (by decide!))).1

/-- Counterexample to claim C4 as stated: the only item of `mundoConItem` sits on `x = 0`; the
iteration moves it left of `x = 0`, and after the iteration the item collection still holds it,
uncollected. -/
theorem item_pasado_permanece :
    mundoConItem.items.map (fun itm => decide (0 ≤ itm.pos.x)) = [true] ∧
    (tick cfg mundoConItem entradaQuieta).map
      (fun w => w.items.map (fun itm => (decide (itm.pos.x < 0), itm.recolectado)))
      = some [(true, false)] := by
  decide!

/-- Claim C5, amended: in the initial grid of the window of 1920 by 1080 (16 columns by 9 rows)
the cells flagged `zonaSinGeneracion` are exactly two, centred at (900, 540) and (1020, 540): a
block of 2 by 1 centred at (960, 540). Every one of them is initially dead with size factor
0. -/
theorem zona_inicial (cfg : ConfiguracionJuego) (paleta : List Nat) (azN azV : Nat → ℚ) :
    (((inicializar cfg 1920 1080 paleta azN azV).celdas.filter
        fun c => c.zonaSinGeneracion).map fun c => c.centro)
      = [⟨900, 540⟩, ⟨1020, 540⟩] ∧
    ∀ c ∈ (inicializar cfg 1920 1080 paleta azN azV).celdas,
      c.zonaSinGeneracion = true → c.viva = false ∧ c.factorTamano = 0 := by
  show (((inicializarCeldas 1920 1080 16 9 (paleta.getD 0 0) azN azV).filter
        fun c => c.zonaSinGeneracion).map fun c => c.centro)
      = [⟨900, 540⟩, ⟨1020, 540⟩] ∧
    ∀ c ∈ inicializarCeldas 1920 1080 16 9 (paleta.getD 0 0) azN azV,
      c.zonaSinGeneracion = true → c.viva = false ∧ c.factorTamano = 0
  constructor
  · unfold inicializarCeldas
    rw [filter_map_flatMap]
    show ((List.range 9).flatMap fun y =>
      ((List.range 16).filter fun x =>
        zonaCentral 1920 1080 (centroInicial x y).x (centroInicial x y).y).map
        fun x => centroInicial x y) = _
    decide!
  · intro c hc hz
    obtain ⟨x, y, _, _, rfl⟩ := mem_inicializarCeldas hc
    unfold celdaInicial at hz ⊢
    simp only at hz ⊢
    rw [hz]
    exact ⟨rfl, rfl⟩

/-- Counterexample to claim C5 as stated: the cells flagged `zonaSinGeneracion` in the initial
grid of the window of 1920 by 1080 are not nine. -/
theorem zona_inicial_no_es_3x3 :
    ¬ ((inicializar cfg 1920 1080 [0] (fun _ => 0) (fun _ => 1)).celdas.filter
        fun c => c.zonaSinGeneracion).length = 9 := by
  decide!

/-- Claim C6, amended: the recycling step appends exactly one item per recycled cell, in order.
The item is uncollected, has zero velocity, sits at the `x` of the new cell's centre
(`ancho + tamanoCelda/2`, not the new cell's right edge) and at `y = row * tamanoCelda`, the top
edge of the new cell, where `row` is the row computed from the recycled cell. -/
theorem item_por_reciclaje (cfg : ConfiguracionJuego) (ancho color : Nat) (e : Entrada)
    (celdas : List Celda) (items : List Recuperable) :
    (reciclar cfg ancho color e celdas items).2
      = items ++ (celdas.filter fueraIzquierda).map (nuevoItem cfg ancho) ∧
    ∀ (c : Celda) (n v : ℚ),
      (nuevoItem cfg ancho c).recolectado = false ∧
      (nuevoItem cfg ancho c).vel = ⟨0, 0⟩ ∧
      (nuevoItem cfg ancho c).pos.x = (nuevaCelda ancho color n v c).centro.x ∧
      (nuevoItem cfg ancho c).pos.y = (filaDe c : ℚ) * tamanoCelda ∧
      (nuevoItem cfg ancho c).pos.y
        = (nuevaCelda ancho color n v c).centro.y - tamanoCelda / 2 := by
  refine ⟨?_, fun c n v => ⟨rfl, rfl, rfl, rfl, ?_⟩⟩
  · unfold reciclar
    simp only
    rw [(reciclarDesde_eq cfg ancho color e celdas 0).2.2]
  · show (filaDe c : ℚ) * tamanoCelda = (filaDe c : ℚ) * tamanoCelda + tamanoCelda / 2
      - tamanoCelda / 2
    ring

/-- Counterexample to claim C6 as stated: recycling `celdaSalida` in a world of width 1920
appends one item at `x = 1980`, while the right edge of the new cell is at `x = 2040`. -/
theorem item_no_en_borde_derecho :
    (reciclar cfg 1920 0 entradaQuieta [celdaSalida] []).2.map
        (fun itm => (itm.pos.x, itm.pos.y, itm.recolectado))
      = [(1980, 0, false)] ∧
    (reciclar cfg 1920 0 entradaQuieta [celdaSalida] []).1.map
        (fun c => c.centro.x + tamanoCelda / 2)
      = [2040] ∧
    (reciclar cfg 1920 0 entradaQuieta [celdaSalida] []).2.map (fun itm => itm.pos.x)
      ≠ (reciclar cfg 1920 0 entradaQuieta [celdaSalida] []).1.map
        (fun c => c.centro.x + tamanoCelda / 2) := by
  decide!

/-- Claim C7: when the loop reaches a cell outside the no-spawn zone whose countdown expires on
this iteration, and `n` is the neighbour count it computes, the loop body returns and leaves at
that index a cell that is alive if the cell was dead and `n = 3`, alive if it was alive and `n`
is 2 or 3, dead if it was alive and `n` is 0 or 1, and dead if it was alive and `n ≥ 4`. -/
theorem regla_de_vida (cfg : ConfiguracionJuego) (columnas filas color : Nat) (azar : Nat → ℚ)
    (celdas : List Celda) (i : Nat) (c : Celda) (n : Nat)
    (hget : celdas[i]? = some c) (hz : c.zonaSinGeneracion = false)
    (hcd : c.cuentaAtrasFotogramas ≤ 1)
    (hn : contarVecinos columnas filas celdas i = some n) :
    ∃ res c1, actualizarCelda cfg columnas filas color azar celdas i = some res ∧
      res[i]? = some c1 ∧
      (c.viva = false → n = 3 → c1.viva = true) ∧
      (c.viva = true → (n = 2 ∨ n = 3) → c1.viva = true) ∧
      (c.viva = true → (n = 0 ∨ n = 1) → c1.viva = false) ∧
      (c.viva = true → 4 ≤ n → c1.viva = false) := by
  have hlt : i < celdas.length := (List.getElem?_eq_some_iff.mp hget).1
  have hp := pasoCelda_zona c
  have hcond : (pasoCelda c).cuentaAtrasFotogramas ≤ 0 ∧
      (pasoCelda c).zonaSinGeneracion = false := by
    rw [pasoCelda_cuenta, hp.1]
    exact ⟨by omega, hz⟩
  refine ⟨celdas.set i (evaluarVida cfg color (azar i) n (pasoCelda c)),
    evaluarVida cfg color (azar i) n (pasoCelda c), ?_, ?_, ?_⟩
  · unfold actualizarCelda
    rw [hget]
    simp only
    rw [if_pos hcond, contarVecinos_set columnas filas celdas i c _ hget hp.2, hn, Option.map_some',
      List.set_set]
  · rw [List.getElem?_set_self hlt]
  · have := evaluarVida_viva cfg color (azar i) n (pasoCelda c)
    rw [hp.2] at this
    exact this

/-- Witness of claim C7: the dead centre cell of `rejilla3` has three alive neighbours and its
countdown at 1; the loop body returns and the cell is alive. -/
theorem regla_de_vida_witness :
    ∃ res c1, actualizarCelda cfg 3 3 0 (fun _ => 1) rejilla3 4 = some res ∧
      res[4]? = some c1 ∧ c1.viva = true := by
  obtain ⟨res, c1, h1, h2, h3, _⟩ :=
    regla_de_vida cfg 3 3 0 (fun _ => 1) rejilla3 4 (celdaDe false false 1) 3 rfl rfl
      (by decide) (by decide!)
  exact ⟨res, c1, h1, h2, h3 rfl rfl⟩

/-- Claim C9: the loop over the cells returns on every grid of `columnas * filas` cells; whenever
it returns, every cell flagged `zonaSinGeneracion` is still flagged and has its flag `viva`
unchanged, whatever the countdowns, the neighbours and the draws; hence in every state reachable
from the initialisation every cell of the no-spawn zone is dead. -/
theorem zona_conserva_viva (cfg : ConfiguracionJuego) (columnas filas color : Nat)
    (azar : Nat → ℚ) (celdas : List Celda) :
    (celdas.length = columnas * filas →
      ∃ res, actualizarCeldas cfg columnas filas color azar celdas = some res) ∧
    (∀ res, actualizarCeldas cfg columnas filas color azar celdas = some res →
      ∀ (i : Nat) (c : Celda), celdas[i]? = some c → c.zonaSinGeneracion = true →
        ∃ c1, res[i]? = some c1 ∧ c1.zonaSinGeneracion = true ∧ c1.viva = c.viva) ∧
    (∀ w, Alcanzable cfg w → ∀ c ∈ w.celdas, c.zonaSinGeneracion = true → c.viva = false) := by
  refine ⟨fun hlen => ?_, fun res h i c hget hz => ?_, fun w hw => ?_⟩
  · obtain ⟨res, h, _⟩ := actualizarCeldas_definida cfg columnas filas color azar celdas hlen
    exact ⟨res, h⟩
  · exact actualizarCeldas_zona cfg columnas filas color azar celdas res h i c hget hz
  · exact zonaMuerta_alcanzable cfg w hw

/-- Witness of claim C9: the loop returns on `rejilla3`, its cell of the no-spawn zone (index 7,
countdown at 1) stays dead, and the cells of the no-spawn zone are dead after one iteration from
the start of an attempt. -/
theorem zona_conserva_viva_witness :
    (∃ res c1, actualizarCeldas cfg 3 3 0 (fun _ => 1) rejilla3 = some res ∧
      res[7]? = some c1 ∧ c1.zonaSinGeneracion = true ∧ c1.viva = false) ∧
    (∀ c ∈ mundoPequenoTrasTick.celdas, c.zonaSinGeneracion = true → c.viva = false) := by
  have h := zona_conserva_viva cfg 3 3 0 (fun _ => 1) rejilla3
  obtain ⟨res, hres⟩ := h.1 rfl
  obtain ⟨c1, h1, h2, h3⟩ := h.2.1 res hres 7 (celdaDe false true 1) rfl rfl
  exact ⟨⟨res, c1, hres, h1, h2, h3⟩, h.2.2 mundoPequenoTrasTick alcanzable_mundoPequenoTrasTick⟩

/-- Claim C10: in every state reachable from the initialisation by iterations of the loop, the
size factor of every cell lies between 0 and 1. -/
theorem factorAcotado_alcanzable (cfg : ConfiguracionJuego) (w : Mundo)
    (hw : Alcanzable cfg w) : ∀ c ∈ w.celdas, 0 ≤ c.factorTamano ∧ c.factorTamano ≤ 1 := by
  refine alcanzable_todas cfg FactorAcotado ?_ ?_ ?_ ?_ w hw
  · intro ancho alto color n v x y _
    unfold FactorAcotado celdaInicial
    simp only
    split_ifs <;> norm_num
  · intro ancho color n v c _
    unfold FactorAcotado nuevaCelda
    simp only
    split_ifs <;> norm_num
  · intro d c h
    exact h
  · intro color c h
    have h1 : FactorAcotado (pasoCelda c) := factorAcotado_animar c h
    split_ifs
    · intro u cnt
      exact factorAcotado_evaluarVida cfg color u cnt _ h1
    · exact h1

/-- Witness of claim C10: the state after one iteration from the start of an attempt in a
window of 360 by 240. -/
theorem factorAcotado_alcanzable_witness :
    (mundoPequenoTrasTick.celdas.all fun c =>
      decide (0 ≤ c.factorTamano ∧ c.factorTamano ≤ 1)) = true := by
  rw [List.all_eq_true]
  intro c hc
  have h := factorAcotado_alcanzable cfg mundoPequenoTrasTick alcanzable_mundoPequenoTrasTick c hc
  simpa using h

/-! ## Recycling, progression, items, free fall and countdown -/

theorem truncar_media (row : Nat) (y : ℚ) (hy : y = (row : ℚ) * tamanoCelda + tamanoCelda / 2) :
    truncar (y / tamanoCelda) = (row : Int) := by
  have h : y / tamanoCelda = (row : ℚ) + 1 / 2 := by
    rw [hy]
    unfold tamanoCelda
    ring
  have h0 : (0 : ℚ) ≤ (row : ℚ) := Nat.cast_nonneg row
  unfold truncar
  rw [h, if_pos (by linarith), Int.floor_eq_iff]
  push_cast
  constructor <;> linarith

theorem nuevas_reciclarDesde (cfg : ConfiguracionJuego) (ancho color : Nat) (e : Entrada)
    (celdas : List Celda) :
    ∀ (k0 k : Nat) (c : Celda), (celdas.filter fueraIzquierda)[k]? = some c →
      (reciclarDesde cfg ancho color e celdas k0).2.1[k]?
        = some (nuevaCelda ancho color (e.azarNacer (k0 + k)) (e.azarVelocidad (k0 + k)) c) := by
  induction celdas with
  | nil => intro k0 k c h; simp at h
  | cons c0 resto ih =>
    intro k0 k c h
    unfold reciclarDesde
    by_cases hf : fueraIzquierda c0 = true
    · rw [List.filter_cons_of_pos hf] at h
      rw [if_pos hf]
      cases k with
      | zero =>
        simp only [List.getElem?_cons_zero, Option.some.injEq] at h
        subst h
        simp
      | succ k =>
        rw [List.getElem?_cons_succ] at h
        simp only [List.getElem?_cons_succ]
        rw [ih (k0 + 1) k c h]
        congr 3 <;> omega
    · rw [List.filter_cons_of_neg hf] at h
      rw [if_neg hf]
      exact ih k0 k c h

theorem fuera_de_nueva (ancho color : Nat) (n v : ℚ) (c : Celda) :
    fueraIzquierda (nuevaCelda ancho color n v c) = false := by
  unfold fueraIzquierda nuevaCelda tamanoCelda
  simp only [decide_eq_false_iff_not, not_lt]
  have : (0 : ℚ) ≤ (ancho : ℚ) := Nat.cast_nonneg ancho
  linarith

/-- Claim C11: the recycling step keeps, unchanged and in order, exactly the cells whose right
edge is not below 0, and appends after them one new cell for each cell whose right edge is below
0, in order. The new cell is centred at `x = ancho + tamanoCelda/2`, is outside the no-spawn
zone, and has the centre `y` of the cell it replaces whenever that `y` is
`row * tamanoCelda + tamanoCelda/2` for a row `row ≥ 0`. A cell whose right edge is below 0 is
absent from the collection after the step. -/
theorem reciclaje_en_su_fila (cfg : ConfiguracionJuego) (ancho color : Nat) (e : Entrada)
    (celdas : List Celda) (items : List Recuperable) :
    ∃ nuevas : List Celda,
      (reciclar cfg ancho color e celdas items).1
        = celdas.filter (fun c => !fueraIzquierda c) ++ nuevas ∧
      nuevas.length = (celdas.filter fueraIzquierda).length ∧
      (∀ (k : Nat) (c : Celda), (celdas.filter fueraIzquierda)[k]? = some c →
        ∃ n, nuevas[k]? = some n ∧
          n.centro.x = (ancho : ℚ) + tamanoCelda / 2 ∧
          n.zonaSinGeneracion = false ∧
          ∀ row : Nat, c.centro.y = (row : ℚ) * tamanoCelda + tamanoCelda / 2 →
            n.centro.y = c.centro.y) ∧
      (∀ c ∈ celdas, fueraIzquierda c = true →
        c ∉ (reciclar cfg ancho color e celdas items).1) := by
  obtain ⟨h1, h2, _⟩ := reciclarDesde_eq cfg ancho color e celdas 0
  have hr : (reciclar cfg ancho color e celdas items).1
      = celdas.filter (fun c => !fueraIzquierda c)
        ++ (reciclarDesde cfg ancho color e celdas 0).2.1 := by
    unfold reciclar
    simp only
    rw [h1]
  refine ⟨(reciclarDesde cfg ancho color e celdas 0).2.1, hr, h2, ?_, ?_⟩
  · intro k c hk
    refine ⟨_, nuevas_reciclarDesde cfg ancho color e celdas 0 k c hk, rfl, rfl, ?_⟩
    intro row hrow
    show ((filaDe c : Int) : ℚ) * tamanoCelda + tamanoCelda / 2 = c.centro.y
    unfold filaDe
    rw [truncar_media row c.centro.y hrow, hrow]
    push_cast
    rfl
  · intro c _ hf hmem
    rw [hr, List.mem_append] at hmem
    rcases hmem with hmem | hmem
    · have := (List.mem_filter.mp hmem).2
      rw [hf] at this
      cases this
    · obtain ⟨j, c0, rfl⟩ := (mem_reciclarDesde cfg ancho color e celdas 0).2 c hmem
      rw [fuera_de_nueva] at hf
      cases hf

/-- Witness of claim C11: recycling `celdaSalida`, a cell of row 0 one pixel past the left
boundary, in a world of width 1920. -/
theorem reciclaje_en_su_fila_witness :
    ∃ n, n ∈ (reciclar cfg 1920 0 entradaQuieta [celdaSalida] []).1 ∧
      n.centro.x = (1920 : ℚ) + tamanoCelda / 2 ∧ n.zonaSinGeneracion = false ∧
      n.centro.y = celdaSalida.centro.y := by
  obtain ⟨nuevas, h1, _, h3, _⟩ := reciclaje_en_su_fila cfg 1920 0 entradaQuieta [celdaSalida] []
  obtain ⟨n, hn, hx, hz, hy⟩ := h3 0 celdaSalida (by decide!)
  refine ⟨n, ?_, hx, hz, hy 0 (by decide!)⟩
  rw [h1]
  exact List.mem_append_right _ (List.getElem?_mem hn)

theorem procesarEventos_progresion (w : Mundo) (evs : List Evento) :
    (evs.foldl procesarEvento w).indiceCicloColor = w.indiceCicloColor ∧
    (evs.foldl procesarEvento w).nivel = w.nivel ∧
    (evs.foldl procesarEvento w).cuentaGlobalFotogramas = w.cuentaGlobalFotogramas ∧
    (evs.foldl procesarEvento w).cuentaMostrarNivel = w.cuentaMostrarNivel ∧
    (evs.foldl procesarEvento w).puntuacion = w.puntuacion ∧
    (evs.foldl procesarEvento w).jugador = w.jugador := by
  induction evs generalizing w with
  | nil => exact ⟨rfl, rfl, rfl, rfl, rfl, rfl⟩
  | cons ev evs ih =>
    rw [List.foldl_cons]
    obtain ⟨h1, h2, h3, h4, h5, h6⟩ := ih (procesarEvento w ev)
    rw [h1, h2, h3, h4, h5, h6]
    cases ev <;> exact ⟨rfl, rfl, rfl, rfl, rfl, rfl⟩

theorem procesarEntrada_progresion (w : Mundo) (e : Entrada) :
    (procesarEntrada w e).indiceCicloColor = w.indiceCicloColor ∧
    (procesarEntrada w e).nivel = w.nivel ∧
    (procesarEntrada w e).cuentaGlobalFotogramas = w.cuentaGlobalFotogramas ∧
    (procesarEntrada w e).cuentaMostrarNivel = w.cuentaMostrarNivel ∧
    (procesarEntrada w e).puntuacion = w.puntuacion ∧
    (procesarEntrada w e).jugador = w.jugador := by
  unfold procesarEntrada
  simp only
  split_ifs
  · exact procesarEventos_progresion w e.eventos
  · exact procesarEventos_progresion w e.eventos

theorem faseMovimiento_progresion (cfg : ConfiguracionJuego) (w : Mundo) (e : Entrada) :
    (faseMovimiento cfg w e).indiceCicloColor = w.indiceCicloColor ∧
    (faseMovimiento cfg w e).nivel = w.nivel ∧
    (faseMovimiento cfg w e).cuentaGlobalFotogramas = w.cuentaGlobalFotogramas ∧
    (faseMovimiento cfg w e).cuentaMostrarNivel = w.cuentaMostrarNivel ∧
    (faseMovimiento cfg w e).puntuacion = w.puntuacion ∧
    (faseMovimiento cfg w e).velocidadDesplazamiento = w.velocidadDesplazamiento :=
  ⟨(procesarEntrada_progresion w e).1, (procesarEntrada_progresion w e).2.1,
    (procesarEntrada_progresion w e).2.2.1, (procesarEntrada_progresion w e).2.2.2.1,
    (procesarEntrada_progresion w e).2.2.2.2.1, (procesarEntrada_conserva w e).2.2⟩

/-- Claim C13, amended: on every iteration whose frame counter is positive and a multiple of the
cadence, the colour cycle index becomes `(index + 1) mod 69`, the level increases by 1, the scroll
speed increases by the configured increment and the countdown of the level banner is reset to its
configured value by the progression step (the banner overlay of the same iteration then
decrements it); on every other iteration, the one with counter 0 included, the colour cycle
index, the level and the scroll speed are unchanged. -/
theorem transicion_progresion (cfg : ConfiguracionJuego) (w w1 : Mundo) (e : Entrada)
    (h : tick cfg w e = some w1) :
    (0 < w.cuentaGlobalFotogramas ∧
        w.cuentaGlobalFotogramas % cfg.fotogramasCambioColor = 0 →
      w1.indiceCicloColor = (w.indiceCicloColor + 1) % totalColores ∧
      w1.nivel = w.nivel + 1 ∧
      w1.velocidadDesplazamiento = w.velocidadDesplazamiento + cfg.incrementoVelocidad ∧
      (∃ w4, cicloNivel cfg (faseMovimiento cfg w e) = some w4 ∧
        w4.cuentaMostrarNivel = cfg.fotogramasMostrarNivel) ∧
      w1.cuentaMostrarNivel = cfg.fotogramasMostrarNivel - 1) ∧
    (¬ (0 < w.cuentaGlobalFotogramas ∧
        w.cuentaGlobalFotogramas % cfg.fotogramasCambioColor = 0) →
      w1.indiceCicloColor = w.indiceCicloColor ∧ w1.nivel = w.nivel ∧
      w1.velocidadDesplazamiento = w.velocidadDesplazamiento) := by
  obtain ⟨w4, celdas, h4, _, rfl⟩ := tick_eq_some cfg w w1 e h
  obtain ⟨p1, p2, p3, _, _, p6⟩ := faseMovimiento_progresion cfg w e
  have hc4 := h4
  unfold cicloNivel at h4
  rw [p3] at h4
  constructor
  · rintro ⟨hpos, hmod⟩
    rw [if_pos hpos] at h4
    by_cases hc : cfg.fotogramasCambioColor = 0
    · rw [if_pos hc] at h4
      cases h4
    · rw [if_neg hc, if_pos hmod] at h4
      have e4 := (Option.some.inj h4).symm
      refine ⟨?_, ?_, ?_, ⟨w4, hc4, ?_⟩, ?_⟩
      · show w4.indiceCicloColor = _
        rw [e4]
        show ((faseMovimiento cfg w e).indiceCicloColor + 1) % totalColores = _
        rw [p1]
      · show w4.nivel = _
        rw [e4]
        show (faseMovimiento cfg w e).nivel + 1 = _
        rw [p2]
      · show w4.velocidadDesplazamiento = _
        rw [e4]
        show (faseMovimiento cfg w e).velocidadDesplazamiento + cfg.incrementoVelocidad = _
        rw [p6]
      · rw [e4]
      · show w4.cuentaMostrarNivel - 1 = _
        rw [e4]
  · intro hno
    have hw4 : w4 = faseMovimiento cfg w e := by
      by_cases hpos : 0 < w.cuentaGlobalFotogramas
      · rw [if_pos hpos] at h4
        by_cases hc : cfg.fotogramasCambioColor = 0
        · rw [if_pos hc] at h4
          cases h4
        · rw [if_neg hc, if_neg (fun hm => hno ⟨hpos, hm⟩)] at h4
          cases h4
          rfl
      · rw [if_neg hpos] at h4
        cases h4
        rfl
    subst hw4
    exact ⟨p1, p2, p6⟩

/-- Counterexample to claim C13 as stated: at the start of an attempt the frame counter is 0, a
multiple of the cadence 600, and the first iteration leaves the level at 1, the colour cycle
index at 0 and the scroll speed at 10. -/
theorem sin_transicion_en_cero :
    mundoPequeno.cuentaGlobalFotogramas % cfg.fotogramasCambioColor = 0 ∧
    (tick cfg mundoPequeno entradaQuieta).map
        (fun w => (w.indiceCicloColor, w.nivel, w.velocidadDesplazamiento))
      = some (0, 1, 10) ∧
    (mundoPequeno.indiceCicloColor, mundoPequeno.nivel, mundoPequeno.velocidadDesplazamiento)
      = (0, 1, 10) := by
  decide!

theorem actualizarItem_eq (cfg : ConfiguracionJuego) (celdas : List Celda) (j : Jugador)
    (itm : Recuperable) (h : itm.recolectado = false) :
    actualizarItem cfg celdas j itm
      = if alcanza (fisicaItem cfg celdas itm) j then
          ({ fisicaItem cfg celdas itm with recolectado := true }, true)
        else (fisicaItem cfg celdas itm, false) := by
  unfold actualizarItem fisicaItem
  rw [if_neg (by rw [h]; simp)]

theorem posarItem_conserva (itm : Recuperable) (c : Celda) :
    (posarItem itm c).recolectado = itm.recolectado ∧ (posarItem itm c).radio = itm.radio ∧
    (posarItem itm c).pos.x = itm.pos.x := by
  unfold posarItem
  simp only
  split_ifs <;> exact ⟨rfl, rfl, rfl⟩

theorem foldl_posarItem_conserva (cs : List Celda) :
    ∀ i : Recuperable, (cs.foldl posarItem i).recolectado = i.recolectado ∧
      (cs.foldl posarItem i).radio = i.radio ∧ (cs.foldl posarItem i).pos.x = i.pos.x := by
  induction cs with
  | nil => intro i; exact ⟨rfl, rfl, rfl⟩
  | cons c cs ih =>
    intro i
    rw [List.foldl_cons]
    obtain ⟨h1, h2, h3⟩ := ih (posarItem i c)
    obtain ⟨g1, g2, g3⟩ := posarItem_conserva i c
    exact ⟨h1.trans g1, h2.trans g2, h3.trans g3⟩

theorem fisicaItem_conserva (cfg : ConfiguracionJuego) (celdas : List Celda)
    (itm : Recuperable) :
    (fisicaItem cfg celdas itm).recolectado = itm.recolectado ∧
    (fisicaItem cfg celdas itm).radio = itm.radio := by
  unfold fisicaItem
  simp only
  exact ⟨(foldl_posarItem_conserva celdas _).1, (foldl_posarItem_conserva celdas _).2.1⟩

/-- Claim C15: when the box of an uncollected item and the box of a solid cell (size factor
positive, outside the no-spawn zone) intersect with positive area, the resolution of the item
against that cell leaves `vel.y = 0`, the bottom edge `pos.y + radio` on the top edge
`centro.y - tamanoCelda * factorTamano / 2` of the cell's box, and `pos.x` unchanged. -/
theorem item_reposa (itm : Recuperable) (c : Celda)
    (hf : 0 < c.factorTamano) (hz : c.zonaSinGeneracion = false)
    (ha : 0 < ((cajaItem itm).inter (cajaCelda c)).area) :
    (posarItem itm c).vel.y = 0 ∧
    (posarItem itm c).pos.y + (posarItem itm c).radio
      = c.centro.y - tamanoCelda * c.factorTamano / 2 ∧
    (posarItem itm c).pos.x = itm.pos.x := by
  unfold posarItem
  rw [if_neg (by rw [hz]; simp [not_le.mpr hf])]
  simp only [gt_iff_lt]
  rw [if_pos ha]
  refine ⟨rfl, ?_, rfl⟩
  show (cajaCelda c).y - itm.radio + itm.radio = _
  unfold cajaCelda
  simp only
  ring

theorem cicloNivel_jugador (cfg : ConfiguracionJuego) (w w1 : Mundo)
    (h : cicloNivel cfg w = some w1) :
    w1.jugador = w.jugador ∧ w1.puntuacion = w.puntuacion := by
  unfold cicloNivel at h
  split_ifs at h <;> cases h <;> exact ⟨rfl, rfl⟩

theorem resolverCelda_libre (st : Jugador × Rect) (c : Celda)
    (h : 0 < c.factorTamano → c.zonaSinGeneracion = false →
      ¬ 0 < (st.2.inter32 (cajaCelda32 c)).area32) :
    resolverCelda st c = st := by
  unfold resolverCelda
  simp only
  by_cases hs : c.factorTamano ≤ 0 ∨ c.zonaSinGeneracion = true
  · rw [if_pos hs]
  · rw [if_neg hs]
    push_neg at hs
    have hz : c.zonaSinGeneracion = false := by simpa using hs.2
    rw [if_neg (h hs.1 hz)]

theorem colisionJugador_libre (j : Jugador) (celdas : List Celda)
    (h : ∀ c ∈ celdas, 0 < c.factorTamano → c.zonaSinGeneracion = false →
      ¬ 0 < ((cajaJugador j).inter32 (cajaCelda32 c)).area32) :
    colisionJugador j celdas = { j with enSuelo := false } := by
  unfold colisionJugador
  simp only
  have key : ∀ (cs : List Celda) (st : Jugador × Rect),
      (∀ c ∈ cs, 0 < c.factorTamano → c.zonaSinGeneracion = false →
        ¬ 0 < (st.2.inter32 (cajaCelda32 c)).area32) →
      cs.foldl resolverCelda st = st := by
    intro cs
    induction cs with
    | nil => intro st _; rfl
    | cons c cs ih =>
      intro st hst
      rw [List.foldl_cons, resolverCelda_libre st c (hst c (List.mem_cons_self _ _))]
      exact ih st (fun c1 hc1 => hst c1 (List.mem_cons_of_mem _ hc1))
  have hbox : cajaJugador { j with enSuelo := false } = cajaJugador j := rfl
  exact congrArg Prod.fst
    (key celdas ({ j with enSuelo := false }, cajaJugador { j with enSuelo := false })
      (fun c hc hf hz => by
        show ¬ 0 < ((cajaJugador { j with enSuelo := false }).inter32 (cajaCelda32 c)).area32
        rw [hbox]
        exact h c hc hf hz))

theorem faseMovimiento_jugador (cfg : ConfiguracionJuego) (w : Mundo) (e : Entrada) :
    (faseMovimiento cfg w e).jugador
      = desplazarJugador (w.velocidadDesplazamiento * dt) (moverJugador cfg e w.jugador) := by
  show desplazarJugador ((procesarEntrada w e).velocidadDesplazamiento * dt)
    (moverJugador cfg e (procesarEntrada w e).jugador) = _
  rw [(procesarEntrada_conserva w e).2.2, (procesarEntrada_progresion w e).2.2.2.2.2]

/-- Claim C17: the evaluation of the life rule on a cell `c` with neighbour count `cnt`, draw `u`
and current colour `color`. A dead cell that is born (`cnt = 3`, or the draw below the
spontaneous rate) ends alive, with size factor 0, `creciendo` set and the current colour; an
alive cell that dies (`cnt` neither 2 nor 3) ends dead, with size factor 1 and `encogiendo` set;
an alive cell that survives keeps `viva`, the size factor, both animation flags and its colour;
in all three cases the countdown is reset to the update period. -/
theorem acciones_de_vida (cfg : ConfiguracionJuego) (color : Nat) (u : ℚ) (cnt : Nat)
    (c : Celda) :
    (c.viva = false → (cnt = 3 ∨ u < cfg.tasaEspontanea) →
      (evaluarVida cfg color u cnt c).viva = true ∧
      (evaluarVida cfg color u cnt c).factorTamano = 0 ∧
      (evaluarVida cfg color u cnt c).creciendo = true ∧
      (evaluarVida cfg color u cnt c).indiceColor = color ∧
      (evaluarVida cfg color u cnt c).cuentaAtrasFotogramas = c.fotogramasPorActualizacion) ∧
    (c.viva = true → ¬ (cnt = 2 ∨ cnt = 3) →
      (evaluarVida cfg color u cnt c).viva = false ∧
      (evaluarVida cfg color u cnt c).factorTamano = 1 ∧
      (evaluarVida cfg color u cnt c).encogiendo = true ∧
      (evaluarVida cfg color u cnt c).cuentaAtrasFotogramas = c.fotogramasPorActualizacion) ∧
    (c.viva = true → (cnt = 2 ∨ cnt = 3) →
      (evaluarVida cfg color u cnt c).viva = true ∧
      (evaluarVida cfg color u cnt c).factorTamano = c.factorTamano ∧
      (evaluarVida cfg color u cnt c).creciendo = c.creciendo ∧
      (evaluarVida cfg color u cnt c).encogiendo = c.encogiendo ∧
      (evaluarVida cfg color u cnt c).indiceColor = c.indiceColor ∧
      (evaluarVida cfg color u cnt c).cuentaAtrasFotogramas = c.fotogramasPorActualizacion) := by
  unfold evaluarVida siguienteViva
  refine ⟨?_, ?_, ?_⟩
  · intro hv hn
    by_cases h3 : cnt = 3
    · subst h3
      simp [hv, nacer]
    · have : (cnt == 3) = false := by simpa using h3
      have hu : u < cfg.tasaEspontanea := hn.resolve_left h3
      simp [hv, nacer, this, hu]
  · intro hv hn
    push_neg at hn
    have h2 : (cnt == 2) = false := by simpa using hn.1
    have h3 : (cnt == 3) = false := by simpa using hn.2
    simp [hv, morir, h2, h3]
  · intro hv hn
    rcases hn with rfl | rfl <;> simp [hv]

theorem lista_de_cuatro {α β : Type} (f : α → β) (l : List α) (b0 b1 b2 b3 : β)
    (h : l.map f = [b0, b1, b2, b3]) :
    ∃ a0 a1 a2 a3, l = [a0, a1, a2, a3] ∧ f a0 = b0 ∧ f a1 = b1 ∧ f a2 = b2 ∧ f a3 = b3 := by
  rcases l with _ | ⟨a0, _ | ⟨a1, _ | ⟨a2, _ | ⟨a3, _ | ⟨a4, l⟩⟩⟩⟩⟩ <;> simp at h
  exact ⟨a0, a1, a2, a3, rfl, h.1, h.2.1, h.2.2.1, h.2.2.2⟩

theorem pasoCelda_centro (c : Celda) : (pasoCelda c).centro = c.centro := by
  unfold pasoCelda animar
  split_ifs <;> rfl

theorem map_set_igual {α β : Type} (f : α → β) (l : List α) (i : Nat) (a b : α)
    (hget : l[i]? = some a) (hf : f b = f a) : (l.set i b).map f = l.map f := by
  apply List.ext_getElem?
  intro n
  rw [List.getElem?_map, List.getElem?_map, List.getElem?_set]
  by_cases hin : i = n
  · subst hin
    rw [if_pos rfl]
    have hlt : i < l.length := by
      by_contra hc
      rw [List.getElem?_eq_none (Nat.le_of_not_lt hc)] at hget
      cases hget
    rw [if_pos hlt, hget, Option.map_some', Option.map_some', hf]
  · rw [if_neg hin]

theorem tick_de_fases (cfg : ConfiguracionJuego) (w w4 : Mundo) (e : Entrada) (cs : List Celda)
    (h4 : cicloNivel cfg (faseMovimiento cfg w e) = some w4)
    (h5 : actualizarCeldas cfg w4.columnas w4.filas (w4.paleta.getD w4.indiceCicloColor 0)
      e.azarEspontaneo w4.celdas = some cs) :
    tick cfg w e = some (faseFinal cfg w4 e cs) := by
  unfold tick
  rw [h4]
  simp only
  rw [h5]

theorem cicloNivel_cfg (w : Mundo) :
    ∃ w4, cicloNivel cfg w = some w4 ∧ w4.celdas = w.celdas ∧ w4.jugador = w.jugador ∧
      w4.salir = w.salir ∧ w4.alto = w.alto ∧ w4.columnas = w.columnas ∧
      w4.cuentaGlobalFotogramas = w.cuentaGlobalFotogramas ∧
      ((w4.nivel = w.nivel ∧ w4.velocidadDesplazamiento = w.velocidadDesplazamiento) ∨
        (0 < w.cuentaGlobalFotogramas ∧ w.cuentaGlobalFotogramas % 600 = 0 ∧
          w4.nivel = w.nivel + 1 ∧
          w4.velocidadDesplazamiento = w.velocidadDesplazamiento + 5)) := by
  unfold cicloNivel
  by_cases h0 : 0 < w.cuentaGlobalFotogramas
  · rw [if_pos h0, if_neg (by decide : ¬ cfg.fotogramasCambioColor = 0)]
    by_cases hm : w.cuentaGlobalFotogramas % cfg.fotogramasCambioColor = 0
    · rw [if_pos hm]
      exact ⟨_, rfl, rfl, rfl, rfl, rfl, rfl, rfl, Or.inr ⟨h0, hm, rfl, rfl⟩⟩
    · rw [if_neg hm]
      exact ⟨_, rfl, rfl, rfl, rfl, rfl, rfl, rfl, Or.inl ⟨rfl, rfl⟩⟩
  · rw [if_neg h0]
    exact ⟨_, rfl, rfl, rfl, rfl, rfl, rfl, rfl, Or.inl ⟨rfl, rfl⟩⟩

theorem reciclarDesde_sin_salida (cfg : ConfiguracionJuego) (ancho color : Nat) (e : Entrada) :
    ∀ (cs : List Celda) (k : Nat), (∀ c ∈ cs, fueraIzquierda c = false) →
      reciclarDesde cfg ancho color e cs k = (cs, [], []) := by
  intro cs
  induction cs with
  | nil => intro k _; rfl
  | cons c cs ih =>
    intro k h
    unfold reciclarDesde
    rw [h c (List.mem_cons_self _ _)]
    simp only [Bool.false_eq_true, if_false]
    rw [ih k (fun c1 hc1 => h c1 (List.mem_cons_of_mem _ hc1))]

theorem reciclar_sin_salida (cfg : ConfiguracionJuego) (ancho color : Nat) (e : Entrada)
    (cs : List Celda) (its : List Recuperable) (h : ∀ c ∈ cs, fueraIzquierda c = false) :
    (reciclar cfg ancho color e cs its).1 = cs := by
  unfold reciclar
  simp only
  rw [reciclarDesde_sin_salida cfg ancho color e cs 0 h, List.append_nil]

theorem envuelve_inyectiva (n : Nat) (hn : 3 ≤ n) (v a b : Int)
    (ha : -1 ≤ a ∧ a ≤ 1) (hb : -1 ≤ b ∧ b ≤ 1) (h : (v + a) % (n : Int) = (v + b) % (n : Int)) :
    a = b := by
  rw [Int.emod_eq_emod_iff_emod_sub_eq_zero] at h
  have hd : (n : Int) ∣ a - b := by
    have : v + a - (v + b) = a - b := by ring
    rw [this] at h
    exact Int.dvd_of_emod_eq_zero h
  obtain ⟨k, hk⟩ := hd
  have hn' : (3 : Int) ≤ (n : Int) := by exact_mod_cast hn
  have hk0 : k = 0 := by
    by_contra hne
    rcases lt_or_gt_of_ne hne with hlt | hgt
    · have : (n : Int) * k ≤ (n : Int) * (-1) :=
        Int.mul_le_mul_of_nonneg_left (by omega) (by omega)
      omega
    · have : (n : Int) * 1 ≤ (n : Int) * k :=
        Int.mul_le_mul_of_nonneg_left (by omega) (by omega)
      omega
  rw [hk0, Int.mul_zero] at hk
  omega

theorem posicionToroidal_inyectiva (columnas filas : Nat) (hc : 3 ≤ columnas) (hf : 3 ≤ filas)
    (i : Nat) (d1 d2 : Int × Int)
    (h1 : -1 ≤ d1.1 ∧ d1.1 ≤ 1 ∧ -1 ≤ d1.2 ∧ d1.2 ≤ 1)
    (h2 : -1 ≤ d2.1 ∧ d2.1 ≤ 1 ∧ -1 ≤ d2.2 ∧ d2.2 ≤ 1)
    (h : posicionToroidal columnas filas i d1 = posicionToroidal columnas filas i d2) :
    d1 = d2 := by
  have hf1 := congrArg (fun k : Int => k / (columnas : Int)) h
  have hc1 := congrArg (fun k : Int => k % (columnas : Int)) h
  simp only at hf1 hc1
  rw [posicionToroidal_fila columnas filas (by omega), posicionToroidal_fila columnas filas
    (by omega)] at hf1
  rw [posicionToroidal_columna, posicionToroidal_columna] at hc1
  have e1 := envuelve_inyectiva columnas hc _ _ _ ⟨h1.1, h1.2.1⟩ ⟨h2.1, h2.2.1⟩ hc1
  have e2 := envuelve_inyectiva filas hf _ _ _ ⟨h1.2.2.1, h1.2.2.2⟩ ⟨h2.2.2.1, h2.2.2.2⟩ hf1
  exact Prod.ext e1 e2

theorem posicionToroidal_centro (columnas filas : Nat) (i : Nat) (hi : i < columnas * filas) :
    posicionToroidal columnas filas i (0, 0) = (i : Int) := by
  have hc : 0 < columnas := Nat.pos_of_ne_zero (by rintro rfl; simp at hi)
  have hy : i / columnas < filas := Nat.div_lt_of_lt_mul hi
  have hx : i % columnas < columnas := Nat.mod_lt _ hc
  unfold posicionToroidal
  simp only [Int.add_zero]
  rw [Int.emod_eq_of_lt (Int.ofNat_nonneg _) (by exact_mod_cast hy),
    Int.emod_eq_of_lt (Int.ofNat_nonneg _) (by exact_mod_cast hx)]
  have h2 : ((columnas * (i / columnas) + i % columnas : Nat) : Int) = (i : Int) := by
    rw [Nat.div_add_mod i columnas]
  rw [← h2]
  simp only [Nat.cast_add, Nat.cast_mul]
  ring

/-- Claim C18: on a grid with at least 3 columns and 3 rows, for every index `i` below
`columnas * filas`, the eight indices read by the life rule are pairwise distinct, lie in
`[0, columnas * filas)` and differ from `i`: no cell is counted twice and a cell never counts
itself. -/
theorem vecinos_distintos (columnas filas : Nat) (i : Nat) (hc : 3 ≤ columnas) (hf : 3 ≤ filas)
    (hi : i < columnas * filas) :
    (vecinos columnas filas i).Nodup ∧
    ∀ k ∈ vecinos columnas filas i,
      0 ≤ k ∧ k < ((columnas * filas : Nat) : Int) ∧ k ≠ (i : Int) := by
  rw [vecinos_eq columnas filas (by omega) (by omega) i]
  constructor
  · refine List.Nodup.map_on ?_ (by decide)
    intro d1 h1 d2 h2 h
    exact posicionToroidal_inyectiva columnas filas hc hf i d1 d2 (desplazamiento_acotado h1)
      (desplazamiento_acotado h2) h
  · intro k hk
    rw [List.mem_map] at hk
    obtain ⟨d, hd, rfl⟩ := hk
    obtain ⟨h0, h1⟩ := posicionToroidal_cota columnas filas (by omega) (by omega) i d
    refine ⟨h0, h1, ?_⟩
    intro heq
    rw [← posicionToroidal_centro columnas filas i hi] at heq
    have := posicionToroidal_inyectiva columnas filas hc hf i d (0, 0)
      (desplazamiento_acotado hd) (by decide) heq
    rw [this] at hd
    exact absurd hd (by decide)

/-- Witness of claim C18: the centre cell of a grid of 3 by 3. -/
theorem vecinos_distintos_witness :
    (vecinos 3 3 4).Nodup ∧
    ∀ k ∈ vecinos 3 3 4, 0 ≤ k ∧ k < ((3 * 3 : Nat) : Int) ∧ k ≠ ((4 : Nat) : Int) :=
  vecinos_distintos 3 3 4 (by decide) (by decide) (by decide)

theorem periodo_pos (v : ℚ) : 1 ≤ periodo v := le_max_left _ _

theorem pasoCelda_periodo (c : Celda) :
    (pasoCelda c).fotogramasPorActualizacion = c.fotogramasPorActualizacion := by
  unfold pasoCelda animar
  split_ifs <;> rfl

theorem evaluarVida_cuenta (cfg : ConfiguracionJuego) (color : Nat) (u : ℚ) (cnt : Nat)
    (c : Celda) :
    (evaluarVida cfg color u cnt c).cuentaAtrasFotogramas = c.fotogramasPorActualizacion ∧
    (evaluarVida cfg color u cnt c).fotogramasPorActualizacion = c.fotogramasPorActualizacion ∧
    (evaluarVida cfg color u cnt c).zonaSinGeneracion = c.zonaSinGeneracion := by
  unfold evaluarVida
  simp only
  split_ifs <;> exact ⟨rfl, rfl, rfl⟩

theorem actualizarItem_casos (cfg : ConfiguracionJuego) (celdas : List Celda) (j : Jugador)
    (itm : Recuperable) :
    ((actualizarItem cfg celdas j itm).2 = false ∧
      (actualizarItem cfg celdas j itm).1.recolectado = itm.recolectado) ∨
    ((actualizarItem cfg celdas j itm).2 = true ∧ itm.recolectado = false ∧
      (actualizarItem cfg celdas j itm).1.recolectado = true) := by
  cases hrec : itm.recolectado
  · rw [actualizarItem_eq cfg celdas j itm hrec]
    cases ha : alcanza (fisicaItem cfg celdas itm) j
    · rw [if_neg (by simp)]
      exact Or.inl ⟨rfl, (fisicaItem_conserva cfg celdas itm).1.trans hrec⟩
    · rw [if_pos rfl]
      exact Or.inr ⟨rfl, rfl, rfl⟩
  · have hact : actualizarItem cfg celdas j itm = (itm, false) := by
      unfold actualizarItem
      rw [if_pos hrec]
    rw [hact]
    exact Or.inl ⟨rfl, hrec⟩

theorem actualizarItems_puntos (cfg : ConfiguracionJuego) (celdas : List Celda) (j : Jugador)
    (items : List Recuperable) :
    ∀ p : Nat, (actualizarItems cfg celdas j items p).2
        + 10 * items.countP (fun itm => itm.recolectado)
      = p + 10 * (actualizarItems cfg celdas j items p).1.countP (fun itm => itm.recolectado) := by
  induction items with
  | nil => intro p; rfl
  | cons itm resto ih =>
    intro p
    have hr := ih (if (actualizarItem cfg celdas j itm).2 = true then p + 10 else p)
    show (actualizarItems cfg celdas j resto
          (if (actualizarItem cfg celdas j itm).2 = true then p + 10 else p)).2
        + 10 * (itm :: resto).countP (fun itm => itm.recolectado)
      = p + 10 * ((actualizarItem cfg celdas j itm).1 :: (actualizarItems cfg celdas j resto
          (if (actualizarItem cfg celdas j itm).2 = true then p + 10 else p)).1).countP
            (fun itm => itm.recolectado)
    rw [List.countP_cons, List.countP_cons]
    rcases actualizarItem_casos cfg celdas j itm with ⟨h2, h1⟩ | ⟨h2, h0, h1⟩
    · rw [h2] at hr ⊢
      rw [h1]
      simp only [Bool.false_eq_true, if_false] at hr ⊢
      omega
    · rw [h2] at hr ⊢
      rw [h1, h0]
      simp only [if_true, Bool.false_eq_true, if_false] at hr ⊢
      omega

theorem faseMovimiento_cuenta_items (cfg : ConfiguracionJuego) (w : Mundo) (e : Entrada) :
    (faseMovimiento cfg w e).items.countP (fun itm => itm.recolectado)
      = w.items.countP (fun itm => itm.recolectado) := by
  have h : (faseMovimiento cfg w e).items
      = (procesarEntrada w e).items.map
          (desplazarItem ((procesarEntrada w e).velocidadDesplazamiento * dt))
        ++ (((procesarEntrada w e).celdas.map
            (desplazarCelda ((procesarEntrada w e).velocidadDesplazamiento * dt))).filter
            fueraIzquierda).map (nuevoItem cfg (procesarEntrada w e).ancho) := by
    unfold faseMovimiento reciclar
    simp only
    rw [(reciclarDesde_eq cfg _ _ e _ 0).2.2]
  rw [h, List.countP_append, List.countP_map, List.countP_map, (procesarEntrada_conserva w e).2.1]
  have h0 : List.countP ((fun itm => itm.recolectado) ∘ nuevoItem cfg (procesarEntrada w e).ancho)
      (((procesarEntrada w e).celdas.map
        (desplazarCelda ((procesarEntrada w e).velocidadDesplazamiento * dt))).filter
        fueraIzquierda) = 0 := by
    rw [List.countP_eq_zero]
    intro c _
    simp [nuevoItem]
  rw [h0, Nat.add_zero]
  rfl

/-- Claim C20: in every state reachable within an attempt the score is 10 times the number of
items whose flag `recolectado` is true; an item that is collected is left as it is by the item
loop, which awards no points for it, and the scroll keeps its flag: a collected item never becomes
uncollected and never awards points again. -/
theorem puntuacion_invariante (cfg : ConfiguracionJuego) :
    (∀ w, Alcanzable cfg w →
      w.puntuacion = 10 * w.items.countP (fun itm => itm.recolectado)) ∧
    (∀ (celdas : List Celda) (j : Jugador) (itm : Recuperable), itm.recolectado = true →
      actualizarItem cfg celdas j itm = (itm, false)) ∧
    (∀ (d : ℚ) (itm : Recuperable), (desplazarItem d itm).recolectado = itm.recolectado) := by
  refine ⟨?_, ?_, fun _ _ => rfl⟩
  · intro w hw
    induction hw with
    | inicio ancho alto paleta azN azV _ _ => rfl
    | paso w w1 e _ _ _ ht ih =>
      obtain ⟨w4, celdas, h4, _, rfl⟩ := tick_eq_some cfg w w1 e ht
      have hp := actualizarItems_puntos cfg celdas w4.jugador w4.items w4.puntuacion
      have hi : w4.items.countP (fun itm => itm.recolectado)
          = w.items.countP (fun itm => itm.recolectado) := by
        rw [(cicloNivel_celdas cfg _ _ h4).2.1]
        exact faseMovimiento_cuenta_items cfg w e
      have hpu : w4.puntuacion = w.puntuacion := by
        rw [(cicloNivel_jugador cfg _ _ h4).2]
        exact (faseMovimiento_progresion cfg w e).2.2.2.2.1
      show (actualizarItems cfg celdas w4.jugador w4.items w4.puntuacion).2
        = 10 * (actualizarItems cfg celdas w4.jugador w4.items w4.puntuacion).1.countP
            (fun itm => itm.recolectado)
      omega
  · intro celdas j itm hrec
    unfold actualizarItem
    rw [if_pos hrec]

/-- Witness of claim C13, amended: the iteration at frame counter 600 advances the colour cycle
index, the level and the scroll speed. -/
theorem transicion_progresion_witness :
    mundoEnCadenciaTrasTick.indiceCicloColor
      = (mundoEnCadencia.indiceCicloColor + 1) % totalColores ∧
    mundoEnCadenciaTrasTick.nivel = mundoEnCadencia.nivel + 1 ∧
    mundoEnCadenciaTrasTick.velocidadDesplazamiento
      = mundoEnCadencia.velocidadDesplazamiento + cfg.incrementoVelocidad := by
  have h := (transicion_progresion cfg mundoEnCadencia mundoEnCadenciaTrasTick entradaQuieta
    (some_getD_of_isSome _ _ (by decide!))).1 ⟨by decide, by decide⟩
  exact ⟨h.1, h.2.1, h.2.2.1⟩

/-- Witness of claim C15: an item that dips five pixels into the top of a full-size cell comes to
rest on it. -/
theorem item_reposa_witness :
    (posarItem itemSobre celdaLlena).vel.y = 0 ∧
    (posarItem itemSobre celdaLlena).pos.y + (posarItem itemSobre celdaLlena).radio
      = celdaLlena.centro.y - tamanoCelda * celdaLlena.factorTamano / 2 ∧
    (posarItem itemSobre celdaLlena).pos.x = itemSobre.pos.x :=
  item_reposa itemSobre celdaLlena (by decide!) rfl (by decide!)

/-- Witness of claim C17: a dead cell with three alive neighbours is born with the current
colour 7. -/
theorem acciones_de_vida_witness :
    (evaluarVida cfg 7 1 3 (celdaDe false false 0)).viva = true ∧
    (evaluarVida cfg 7 1 3 (celdaDe false false 0)).factorTamano = 0 ∧
    (evaluarVida cfg 7 1 3 (celdaDe false false 0)).creciendo = true ∧
    (evaluarVida cfg 7 1 3 (celdaDe false false 0)).indiceColor = 7 ∧
    (evaluarVida cfg 7 1 3 (celdaDe false false 0)).cuentaAtrasFotogramas
      = (celdaDe false false 0).fotogramasPorActualizacion :=
  (acciones_de_vida cfg 7 1 3 (celdaDe false false 0)).1 rfl (Or.inl rfl)

/-! ## The progression invariant -/

theorem procesarEventos_paleta (w : Mundo) (evs : List Evento) :
    (evs.foldl procesarEvento w).paleta = w.paleta := by
  induction evs generalizing w with
  | nil => rfl
  | cons ev evs ih =>
    rw [List.foldl_cons, ih (procesarEvento w ev)]
    cases ev <;> rfl

theorem procesarEntrada_paleta (w : Mundo) (e : Entrada) :
    (procesarEntrada w e).paleta = w.paleta := by
  unfold procesarEntrada
  simp only
  split_ifs
  · exact procesarEventos_paleta w e.eventos
  · exact procesarEventos_paleta w e.eventos

theorem cicloNivel_paleta (cfg : ConfiguracionJuego) (w w1 : Mundo)
    (h : cicloNivel cfg w = some w1) : w1.paleta = w.paleta := by
  unfold cicloNivel at h
  split_ifs at h <;> cases h <;> rfl

theorem cicloNivel_casos (cfg : ConfiguracionJuego) (w w1 : Mundo)
    (h : cicloNivel cfg w = some w1) :
    (w1.indiceCicloColor = w.indiceCicloColor ∧ w1.nivel = w.nivel ∧
      w1.velocidadDesplazamiento = w.velocidadDesplazamiento) ∨
    (w1.indiceCicloColor = (w.indiceCicloColor + 1) % totalColores ∧ w1.nivel = w.nivel + 1 ∧
      w1.velocidadDesplazamiento = w.velocidadDesplazamiento + cfg.incrementoVelocidad) := by
  unfold cicloNivel at h
  split_ifs at h <;> cases h
  · exact Or.inr ⟨rfl, rfl, rfl⟩
  · exact Or.inl ⟨rfl, rfl, rfl⟩
  · exact Or.inl ⟨rfl, rfl, rfl⟩

/-! ## Free fall, collection and collision in rounded arithmetic -/

theorem moverJugador_vel_y (cfg : ConfiguracionJuego) (e : Entrada) (j : Jugador) :
    (moverJugador cfg e j).vel.y = f32 (f64 (j.vel.y + f64 (f64 cfg.gravedad * dt64))) := by
  unfold moverJugador
  simp only
  split_ifs <;> rfl

theorem dt64_cerca : |dt64 - dt| ≤ 1 / 2 ^ 58 ∧ 0 ≤ dt64 ∧ dt64 ≤ 1 / 32 := by
  decide!

theorem gravedad_redondeada (cfg : ConfiguracionJuego) (v M : ℚ) (hM : 1 ≤ M)
    (hv : |v| ≤ M) (hg : |cfg.gravedad| ≤ M) :
    |f32 (f64 (v + f64 (f64 cfg.gravedad * dt64))) - (v + cfg.gravedad * dt)| ≤ M / 2 ^ 22 := by
  obtain ⟨hd1, hd2, hd3⟩ := dt64_cerca
  have hM0 : (0 : ℚ) < M := by linarith
  have hm64 : (1 : ℚ) / 2 ^ 1022 ≤ M := le_trans (by norm_num) hM
  have hm32 : (1 : ℚ) / 2 ^ 126 ≤ M := le_trans (by norm_num) hM
  have hdt : dt = 1 / 60 := by norm_num [dt]
  -- the double value of the gravity
  have e1 := f64_cota cfg.gravedad M hg hm64
  have hg64 : |f64 cfg.gravedad| ≤ 2 * M := by
    have := abs_sub_abs_le_abs_sub (f64 cfg.gravedad) cfg.gravedad
    have h53 : M / 2 ^ 53 ≤ M := div_le_self hM0.le (by norm_num)
    linarith
  -- the product
  have hA : |f64 cfg.gravedad * dt64| ≤ M := by
    rw [abs_mul, abs_of_nonneg hd2]
    calc |f64 cfg.gravedad| * dt64 ≤ 2 * M * (1 / 32) :=
          mul_le_mul hg64 hd3 hd2 (by linarith)
      _ ≤ M := by linarith
  have e2 := f64_cota (f64 cfg.gravedad * dt64) M hA hm64
  have hAerr : |f64 cfg.gravedad * dt64 - cfg.gravedad * dt| ≤ M / 2 ^ 52 := by
    have : f64 cfg.gravedad * dt64 - cfg.gravedad * dt
        = (f64 cfg.gravedad - cfg.gravedad) * dt64 + cfg.gravedad * (dt64 - dt) := by ring
    rw [this]
    refine le_trans (abs_add _ _) ?_
    rw [abs_mul, abs_mul, abs_of_nonneg hd2]
    have t1 : |f64 cfg.gravedad - cfg.gravedad| * dt64 ≤ M / 2 ^ 53 * (1 / 32) :=
      mul_le_mul e1 hd3 hd2 (by positivity)
    have t2 : |cfg.gravedad| * |dt64 - dt| ≤ M * (1 / 2 ^ 58) :=
      mul_le_mul hg hd1 (abs_nonneg _) hM0.le
    have : M / 2 ^ 53 * (1 / 32) + M * (1 / 2 ^ 58) ≤ M / 2 ^ 52 :=
      calc M / 2 ^ 53 * (1 / 32) + M * (1 / 2 ^ 58) = M * (1 / 2 ^ 57) := by ring
        _ ≤ M * (1 / 2 ^ 52) := mul_le_mul_of_nonneg_left (by norm_num) hM0.le
        _ = M / 2 ^ 52 := by ring
    linarith
  have hB : |f64 (f64 cfg.gravedad * dt64)| ≤ 2 * M := by
    have := abs_sub_abs_le_abs_sub (f64 (f64 cfg.gravedad * dt64)) (f64 cfg.gravedad * dt64)
    have h53 : M / 2 ^ 53 ≤ M := div_le_self hM0.le (by norm_num)
    linarith
  have hC : |v + f64 (f64 cfg.gravedad * dt64)| ≤ 3 * M := by
    refine le_trans (abs_add _ _) ?_
    linarith
  have e3 := f64_cota (v + f64 (f64 cfg.gravedad * dt64)) (3 * M) hC (by linarith)
  have hD : |f64 (v + f64 (f64 cfg.gravedad * dt64))| ≤ 4 * M := by
    have := abs_sub_abs_le_abs_sub (f64 (v + f64 (f64 cfg.gravedad * dt64)))
      (v + f64 (f64 cfg.gravedad * dt64))
    have h53 : 3 * M / 2 ^ 53 ≤ M := by
      rw [div_le_iff₀ (by positivity)]
      nlinarith
    linarith
  have hD3 : |f64 (v + f64 (f64 cfg.gravedad * dt64))| ≤ 3 * M + 3 * M / 2 ^ 53 := by
    have := abs_sub_abs_le_abs_sub (f64 (v + f64 (f64 cfg.gravedad * dt64)))
      (v + f64 (f64 cfg.gravedad * dt64))
    linarith
  have e4 := f32_cota (f64 (v + f64 (f64 cfg.gravedad * dt64))) (3 * M + 3 * M / 2 ^ 53) hD3
    (by
      have : (0 : ℚ) ≤ 3 * M / 2 ^ 53 := by positivity
      linarith)
  -- total
  have tot : f32 (f64 (v + f64 (f64 cfg.gravedad * dt64))) - (v + cfg.gravedad * dt)
      = (f32 (f64 (v + f64 (f64 cfg.gravedad * dt64))) - f64 (v + f64 (f64 cfg.gravedad * dt64)))
        + (f64 (v + f64 (f64 cfg.gravedad * dt64)) - (v + f64 (f64 cfg.gravedad * dt64)))
        + (f64 (f64 cfg.gravedad * dt64) - f64 cfg.gravedad * dt64)
        + (f64 cfg.gravedad * dt64 - cfg.gravedad * dt) := by ring
  rw [tot]
  refine le_trans (abs_add _ _) ?_
  refine le_trans (add_le_add_right (abs_add _ _) _) ?_
  refine le_trans (add_le_add_right (add_le_add_right (abs_add _ _) _) _) ?_
  have key : (3 * M + 3 * M / 2 ^ 53) / 2 ^ 24 + 3 * M / 2 ^ 53 + M / 2 ^ 53 + M / 2 ^ 52
      ≤ M / 2 ^ 22 :=
    calc (3 * M + 3 * M / 2 ^ 53) / 2 ^ 24 + 3 * M / 2 ^ 53 + M / 2 ^ 53 + M / 2 ^ 52
        = M * ((3 + 3 / 2 ^ 53) / 2 ^ 24 + 3 / 2 ^ 53 + 1 / 2 ^ 53 + 1 / 2 ^ 52) := by ring
      _ ≤ M * (1 / 2 ^ 22) := mul_le_mul_of_nonneg_left (by norm_num) hM0.le
      _ = M / 2 ^ 22 := by ring
  linarith

/-- Claim C16, amended: for one iteration in which no solid cell's box overlaps with positive
area the box the player has when the collision phase starts, the player's `vel.y` after the
iteration is the `float` nearest to the `double` sum of its previous `vel.y` and the `double`
product `gravedad * dt`, and `enSuelo` is false at the end of the iteration, whatever the keys;
that value lies within `M / 2 ^ 22` of the previous `vel.y` plus `gravedad * dt` whenever `M ≥ 1`
bounds the previous `vel.y` and the gravity in absolute value. -/
theorem caida_libre (cfg : ConfiguracionJuego) (w w1 : Mundo) (e : Entrada)
    (h : tick cfg w e = some w1)
    (hlibre : ∀ c ∈ w1.celdas, 0 < c.factorTamano → c.zonaSinGeneracion = false →
      ¬ 0 < ((cajaJugador (faseMovimiento cfg w e).jugador).inter32 (cajaCelda32 c)).area32) :
    w1.jugador.vel.y = f32 (f64 (w.jugador.vel.y + f64 (f64 cfg.gravedad * dt64))) ∧
    w1.jugador.enSuelo = false ∧
    (∀ M : ℚ, 1 ≤ M → |w.jugador.vel.y| ≤ M → |cfg.gravedad| ≤ M →
      |w1.jugador.vel.y - (w.jugador.vel.y + cfg.gravedad * dt)| ≤ M / 2 ^ 22) := by
  obtain ⟨w4, celdas, h4, _, rfl⟩ := tick_eq_some cfg w w1 e h
  have hj : w4.jugador = (faseMovimiento cfg w e).jugador := (cicloNivel_jugador cfg _ _ h4).1
  have hcol : colisionJugador w4.jugador celdas = { w4.jugador with enSuelo := false } := by
    apply colisionJugador_libre
    rw [hj]
    exact hlibre
  have hfin : (faseFinal cfg w4 e celdas).jugador = { w4.jugador with enSuelo := false } := by
    show saltar cfg e (colisionJugador w4.jugador celdas) = _
    rw [hcol]
    unfold saltar
    rw [if_neg (by simp)]
  have hvy : (faseFinal cfg w4 e celdas).jugador.vel.y
      = f32 (f64 (w.jugador.vel.y + f64 (f64 cfg.gravedad * dt64))) := by
    rw [hfin]
    show w4.jugador.vel.y = _
    rw [hj, faseMovimiento_jugador]
    show (moverJugador cfg e w.jugador).vel.y = _
    exact moverJugador_vel_y cfg e w.jugador
  refine ⟨hvy, ?_, ?_⟩
  · rw [hfin]
  · intro M hM hv hg
    rw [hvy]
    exact gravedad_redondeada cfg w.jugador.vel.y M hM hv hg

/-- Counterexample to claim C16 as stated: from the start of an attempt in a window of 360 by
240, where the player is at rest and no solid cell touches its box, one iteration with no input
leaves `vel.y` at `8738133 / 524288`, the `float` nearest to `1000 / 60`, and not at the previous
`vel.y` plus `1000 / 60`. -/
theorem caida_libre_no_exacta :
    tick cfg mundoConMuros entradaQuieta = some mundoConMurosTrasTick ∧
    (mundoConMurosTrasTick.celdas.all fun c =>
      decide (0 < c.factorTamano → c.zonaSinGeneracion = false →
        ¬ 0 < ((cajaJugador (faseMovimiento cfg mundoConMuros entradaQuieta).jugador).inter32
          (cajaCelda32 c)).area32)) = true ∧
    mundoConMuros.jugador.vel.y = 0 ∧
    cfg.gravedad * dt = 1000 / 60 ∧
    mundoConMurosTrasTick.jugador.vel.y = 8738133 / 524288 ∧
    mundoConMurosTrasTick.jugador.vel.y ≠ mundoConMuros.jugador.vel.y + cfg.gravedad * dt := by
  refine ⟨some_getD_of_isSome _ _ (by decide!), by decide!, rfl, by decide!, by decide!,
    by decide!⟩

/-- Witness of claim C16, amended: one iteration with no input from the start of an attempt in a
window of 360 by 240, which has four full-size solid cells, none of them touching the box of the
player. -/
theorem caida_libre_witness :
    (mundoConMurosTrasTick.celdas.filter fun c =>
      decide (0 < c.factorTamano) && !c.zonaSinGeneracion).length = 4 ∧
    mundoConMurosTrasTick.jugador.vel.y
      = f32 (f64 (mundoConMuros.jugador.vel.y + f64 (f64 cfg.gravedad * dt64))) ∧
    mundoConMurosTrasTick.jugador.enSuelo = false ∧
    |mundoConMurosTrasTick.jugador.vel.y - (mundoConMuros.jugador.vel.y + cfg.gravedad * dt)|
      ≤ 1000 / 2 ^ 22 := by
  have h := caida_libre cfg mundoConMuros mundoConMurosTrasTick entradaQuieta
    (some_getD_of_isSome _ _ (by decide!)) (by decide!)
  exact ⟨by decide!, h.1, h.2.1, h.2.2 1000 (by norm_num) (by decide!) (by decide!)⟩

theorem empuje_1d (d p r a wa b wb Ra Rb W ca cb p2 a2 Ra2 : ℚ) (hd : 0 ≤ d)
    (h_a : |a - (p - r)| ≤ d) (h_Ra : |Ra - (a + wa)| ≤ d) (h_Rb : |Rb - (b + wb)| ≤ d)
    (h_W : |W - (min Ra Rb - max a b)| ≤ d)
    (h_ca : |ca - (a + wa / 2)| ≤ 2 * d) (h_cb : |cb - (b + wb / 2)| ≤ 2 * d)
    (h_p2 : |p2 - (p + (if ca < cb then -W else W))| ≤ d)
    (h_a2 : |a2 - (p2 - r)| ≤ d) (h_Ra2 : |Ra2 - (a2 + wa)| ≤ d)
    (hint : (a < b ∧ Ra < Rb) ∨ (b < a ∧ Rb < Ra)) :
    min Ra2 Rb - max a2 b ≤ 14 * d := by
  rw [abs_le] at h_a h_Ra h_Rb h_W h_ca h_cb h_p2 h_a2 h_Ra2
  rcases hint with ⟨h1, h2⟩ | ⟨h1, h2⟩
  · rw [min_eq_left h2.le, max_eq_right h1.le] at h_W
    by_cases hdir : ca < cb
    · rw [if_pos hdir] at h_p2
      have : min Ra2 Rb - max a2 b ≤ Ra2 - b := by
        have := min_le_left Ra2 Rb
        have := le_max_right a2 b
        linarith
      linarith [h_a.1, h_a.2, h_Ra.1, h_Ra.2, h_W.1, h_W.2, h_p2.1, h_p2.2, h_a2.1, h_a2.2,
        h_Ra2.1, h_Ra2.2]
    · rw [if_neg hdir] at h_p2
      push_neg at hdir
      have : min Ra2 Rb - max a2 b ≤ Rb - a2 := by
        have := min_le_right Ra2 Rb
        have := le_max_left a2 b
        linarith
      linarith [h_a.1, h_a.2, h_Ra.1, h_Ra.2, h_Rb.1, h_Rb.2, h_W.1, h_W.2, h_p2.1, h_p2.2,
        h_a2.1, h_a2.2, h_ca.1, h_ca.2, h_cb.1, h_cb.2]
  · rw [min_eq_right h2.le, max_eq_left h1.le] at h_W
    by_cases hdir : ca < cb
    · rw [if_pos hdir] at h_p2
      have : min Ra2 Rb - max a2 b ≤ Ra2 - b := by
        have := min_le_left Ra2 Rb
        have := le_max_right a2 b
        linarith
      linarith [h_a.1, h_a.2, h_Ra.1, h_Ra.2, h_Rb.1, h_Rb.2, h_W.1, h_W.2, h_p2.1, h_p2.2,
        h_a2.1, h_a2.2, h_Ra2.1, h_Ra2.2, h_ca.1, h_ca.2, h_cb.1, h_cb.2]
    · rw [if_neg hdir] at h_p2
      push_neg at hdir
      have : min Ra2 Rb - max a2 b ≤ Rb - a2 := by
        have := min_le_right Ra2 Rb
        have := le_max_left a2 b
        linarith
      linarith [h_a.1, h_a.2, h_Ra.1, h_Ra.2, h_Rb.1, h_Rb.2, h_W.1, h_W.2, h_p2.1, h_p2.2,
        h_a2.1, h_a2.2, h_Ra2.1, h_Ra2.2]

theorem f32_paso (B x : ℚ) (hB : 1 ≤ B) (hx : |x| ≤ 64 * B) :
    x - B / 2 ^ 18 ≤ f32 x ∧ f32 x ≤ x + B / 2 ^ 18 := by
  have h := f32_cota x (64 * B) hx (by
    have : (1 : ℚ) / 2 ^ 126 ≤ 1 := by norm_num
    linarith)
  have e : 64 * B / 2 ^ 24 = B / 2 ^ 18 := by ring
  rw [e, abs_le] at h
  constructor <;> linarith [h.1, h.2]

theorem empuje_f32 (B p r b wb : ℚ) (hB : 1 ≤ B) (hp : |p| ≤ B) (hr0 : 0 ≤ r) (hr : r ≤ B)
    (hb : |b| ≤ B) (hwb0 : 0 ≤ wb) (hwb : wb ≤ B)
    (hint : (f32 (p - r) < b ∧ f32 (f32 (p - r) + f32 (r * 2)) < f32 (b + wb)) ∨
      (b < f32 (p - r) ∧ f32 (b + wb) < f32 (f32 (p - r) + f32 (r * 2)))) :
    f32 (min
        (f32 (f32 (f32 (p + (if f32 (f32 (p - r) + f32 (f32 (r * 2) / 2)) < f32 (b + f32 (wb / 2))
          then -f32 (min (f32 (f32 (p - r) + f32 (r * 2))) (f32 (b + wb)) - max (f32 (p - r)) b)
          else f32 (min (f32 (f32 (p - r) + f32 (r * 2))) (f32 (b + wb)) - max (f32 (p - r)) b)))
          - r) + f32 (r * 2)))
        (f32 (b + wb))
      - max (f32 (f32 (p + (if f32 (f32 (p - r) + f32 (f32 (r * 2) / 2)) < f32 (b + f32 (wb / 2))
          then -f32 (min (f32 (f32 (p - r) + f32 (r * 2))) (f32 (b + wb)) - max (f32 (p - r)) b)
          else f32 (min (f32 (f32 (p - r) + f32 (r * 2))) (f32 (b + wb)) - max (f32 (p - r)) b)))
          - r)) b)
      ≤ B / 2 ^ 14 := by
  rw [abs_le] at hp hb
  have hd0 : (0 : ℚ) ≤ B / 2 ^ 18 := by positivity
  have hdB : B / 2 ^ 18 ≤ B := div_le_self (by linarith) (by norm_num)
  have h15 : 15 * (B / 2 ^ 18) ≤ B / 2 ^ 14 := by
    have e1 : 15 * (B / 2 ^ 18) = B * (15 / 2 ^ 18) := by ring
    have e2 : B / 2 ^ 14 = B * (1 / 2 ^ 14) := by ring
    rw [e1, e2]
    exact mul_le_mul_of_nonneg_left (by norm_num) (by linarith)
  generalize hd : B / 2 ^ 18 = d at hd0 hdB h15
  have paso : ∀ x : ℚ, -(64 * B) ≤ x → x ≤ 64 * B → x - d ≤ f32 x ∧ f32 x ≤ x + d := by
    intro x h1 h2
    rw [← hd]
    exact f32_paso B x hB (abs_le.mpr ⟨h1, h2⟩)
  clear hd
  -- the box of the player
  obtain ⟨a1, a2⟩ := paso (p - r) (by linarith) (by linarith)
  generalize f32 (p - r) = a at a1 a2 hint ⊢
  obtain ⟨wa1, wa2⟩ := paso (r * 2) (by linarith) (by linarith)
  generalize f32 (r * 2) = wa at wa1 wa2 hint ⊢
  obtain ⟨Ra1, Ra2⟩ := paso (a + wa) (by linarith) (by linarith)
  generalize f32 (a + wa) = Ra at Ra1 Ra2 hint ⊢
  obtain ⟨Rb1, Rb2⟩ := paso (b + wb) (by linarith) (by linarith)
  generalize f32 (b + wb) = Rb at Rb1 Rb2 hint ⊢
  -- the width of the intersection
  have hmn1 : -(6 * B) ≤ min Ra Rb := le_min (by linarith) (by linarith)
  have hmn2 : min Ra Rb ≤ 6 * B := le_trans (min_le_left _ _) (by linarith)
  have hmx1 : -(6 * B) ≤ max a b := le_trans (by linarith) (le_max_left _ _)
  have hmx2 : max a b ≤ 6 * B := max_le (by linarith) (by linarith)
  obtain ⟨W1, W2⟩ := paso (min Ra Rb - max a b) (by linarith) (by linarith)
  generalize f32 (min Ra Rb - max a b) = W at W1 W2 ⊢
  -- the centres
  obtain ⟨ha1, ha2⟩ := paso (wa / 2) (by linarith) (by linarith)
  generalize f32 (wa / 2) = wah at ha1 ha2 ⊢
  obtain ⟨ca1, ca2⟩ := paso (a + wah) (by linarith) (by linarith)
  generalize f32 (a + wah) = ca at ca1 ca2 ⊢
  obtain ⟨hb1, hb2⟩ := paso (wb / 2) (by linarith) (by linarith)
  generalize f32 (wb / 2) = wbh at hb1 hb2 ⊢
  obtain ⟨cb1, cb2⟩ := paso (b + wbh) (by linarith) (by linarith)
  generalize f32 (b + wbh) = cb at cb1 cb2 ⊢
  -- the push
  have hpush : -(14 * B) ≤ (if ca < cb then -W else W) ∧ (if ca < cb then -W else W) ≤ 14 * B := by
    split_ifs <;> constructor <;> linarith
  obtain ⟨p21, p22⟩ := paso (p + (if ca < cb then -W else W)) (by linarith [hpush.1])
    (by linarith [hpush.2])
  generalize hp2 : f32 (p + (if ca < cb then -W else W)) = p2 at p21 p22 ⊢
  obtain ⟨a'1, a'2⟩ := paso (p2 - r) (by linarith [hpush.1]) (by linarith [hpush.2])
  generalize f32 (p2 - r) = a' at a'1 a'2 ⊢
  obtain ⟨Ra'1, Ra'2⟩ := paso (a' + wa) (by linarith [hpush.1]) (by linarith [hpush.2])
  generalize f32 (a' + wa) = Ra' at Ra'1 Ra'2 ⊢
  have hmn1' : -(24 * B) ≤ min Ra' Rb := le_min (by linarith [hpush.1]) (by linarith)
  have hmn2' : min Ra' Rb ≤ 24 * B := le_trans (min_le_right _ _) (by linarith)
  have hmx1' : -(24 * B) ≤ max a' b := le_trans (by linarith) (le_max_right _ _)
  have hmx2' : max a' b ≤ 24 * B := max_le (by linarith [hpush.2]) (by linarith)
  obtain ⟨F1, F2⟩ := paso (min Ra' Rb - max a' b) (by linarith) (by linarith)
  have key := empuje_1d d p r a wa b wb Ra Rb W ca cb p2 a' Ra' hd0
    (by rw [abs_le]; constructor <;> linarith) (by rw [abs_le]; constructor <;> linarith)
    (by rw [abs_le]; constructor <;> linarith) (by rw [abs_le]; constructor <;> linarith)
    (by rw [abs_le]; constructor <;> linarith) (by rw [abs_le]; constructor <;> linarith)
    (by rw [abs_le]; constructor <;> linarith) (by rw [abs_le]; constructor <;> linarith)
    (by rw [abs_le]; constructor <;> linarith) hint
  linarith

theorem f32_cero : f32 0 = 0 := by
  unfold f32 redondearBinario
  simp

theorem inter32_of_area_pos (a b : Rect) (h : 0 < (a.inter32 b).area32) :
    a.inter32 b = ⟨max a.x b.x, max a.y b.y,
      f32 (min (f32 (a.x + a.width)) (f32 (b.x + b.width)) - max a.x b.x),
      f32 (min (f32 (a.y + a.height)) (f32 (b.y + b.height)) - max a.y b.y)⟩ := by
  unfold Rect.inter32 at h ⊢
  simp only at h ⊢
  split_ifs at h ⊢ with hc
  · exfalso
    unfold Rect.area32 at h
    simp only [mul_zero, f32_cero, lt_self_iff_false] at h
  · rfl

theorem inter32_width_le (a b : Rect) (t : ℚ) (ht : 0 ≤ t)
    (h : f32 (min (f32 (a.x + a.width)) (f32 (b.x + b.width)) - max a.x b.x) ≤ t) :
    (a.inter32 b).width ≤ t := by
  unfold Rect.inter32
  simp only
  split_ifs
  · exact ht
  · exact h

theorem inter32_height_le (a b : Rect) (t : ℚ) (ht : 0 ≤ t)
    (h : f32 (min (f32 (a.y + a.height)) (f32 (b.y + b.height)) - max a.y b.y) ≤ t) :
    (a.inter32 b).height ≤ t := by
  unfold Rect.inter32
  simp only
  split_ifs
  · exact ht
  · exact h

/-- Claim C1, amended: for a player and a solid cell (size factor positive, outside the no-spawn
zone) whose boxes intersect with positive area and overlap partially along the axis of the push,
with the coordinates of the player, its radius and the cell's box bounded by `B ≥ 1`: after the
resolution step for that one cell the box kept by the loop is the player's recomputed box, and it
overlaps the cell's box along the axis of the push over at most `B / 2 ^ 14`: the push is computed
in `float`, and a sliver of the size of the rounding can remain. -/
theorem resolverCelda_separa (j : Jugador) (c : Celda) (B : ℚ) (hB : 1 ≤ B)
    (hpx : |j.pos.x| ≤ B) (hpy : |j.pos.y| ≤ B) (hr0 : 0 ≤ j.radio) (hr : j.radio ≤ B)
    (hbx : |(cajaCelda32 c).x| ≤ B) (hby : |(cajaCelda32 c).y| ≤ B)
    (hbw0 : 0 ≤ (cajaCelda32 c).width) (hbw : (cajaCelda32 c).width ≤ B)
    (hf : 0 < c.factorTamano) (hz : c.zonaSinGeneracion = false)
    (ha : 0 < ((cajaJugador j).inter32 (cajaCelda32 c)).area32)
    (hp : solapeParcial (cajaJugador j) (cajaCelda32 c)) :
    (resolverCelda (j, cajaJugador j) c).2 = cajaJugador (resolverCelda (j, cajaJugador j) c).1 ∧
    (if ((cajaJugador j).inter32 (cajaCelda32 c)).width
        < ((cajaJugador j).inter32 (cajaCelda32 c)).height then
      ((resolverCelda (j, cajaJugador j) c).2.inter32 (cajaCelda32 c)).width ≤ B / 2 ^ 14
    else
      ((resolverCelda (j, cajaJugador j) c).2.inter32 (cajaCelda32 c)).height ≤ B / 2 ^ 14) := by
  have hnf : ¬ c.factorTamano ≤ 0 := not_le.mpr hf
  have hB0 : (0 : ℚ) ≤ B / 2 ^ 14 := by positivity
  have hres : resolverCelda (j, cajaJugador j) c
      = (if ((cajaJugador j).inter32 (cajaCelda32 c)).width
            < ((cajaJugador j).inter32 (cajaCelda32 c)).height then
          ({ j with
              pos := ⟨f32 (j.pos.x + (if f32 ((cajaJugador j).x + f32 ((cajaJugador j).width / 2))
                          < f32 ((cajaCelda32 c).x + f32 ((cajaCelda32 c).width / 2))
                        then -((cajaJugador j).inter32 (cajaCelda32 c)).width
                        else ((cajaJugador j).inter32 (cajaCelda32 c)).width)), j.pos.y⟩
              vel := ⟨0, j.vel.y⟩ } : Jugador)
        else
          { j with
            pos := ⟨j.pos.x, f32 (j.pos.y + (if f32 ((cajaJugador j).y
                          + f32 ((cajaJugador j).height / 2))
                          < f32 ((cajaCelda32 c).y + f32 ((cajaCelda32 c).height / 2))
                        then -((cajaJugador j).inter32 (cajaCelda32 c)).height
                        else ((cajaJugador j).inter32 (cajaCelda32 c)).height))⟩
            vel := ⟨j.vel.x, 0⟩
            enSuelo := if f32 ((cajaJugador j).y + f32 ((cajaJugador j).height / 2))
                < f32 ((cajaCelda32 c).y + f32 ((cajaCelda32 c).height / 2))
              then true else j.enSuelo },
        cajaJugador (if ((cajaJugador j).inter32 (cajaCelda32 c)).width
            < ((cajaJugador j).inter32 (cajaCelda32 c)).height then
          ({ j with
              pos := ⟨f32 (j.pos.x + (if f32 ((cajaJugador j).x + f32 ((cajaJugador j).width / 2))
                          < f32 ((cajaCelda32 c).x + f32 ((cajaCelda32 c).width / 2))
                        then -((cajaJugador j).inter32 (cajaCelda32 c)).width
                        else ((cajaJugador j).inter32 (cajaCelda32 c)).width)), j.pos.y⟩
              vel := ⟨0, j.vel.y⟩ } : Jugador)
        else
          { j with
            pos := ⟨j.pos.x, f32 (j.pos.y + (if f32 ((cajaJugador j).y
                          + f32 ((cajaJugador j).height / 2))
                          < f32 ((cajaCelda32 c).y + f32 ((cajaCelda32 c).height / 2))
                        then -((cajaJugador j).inter32 (cajaCelda32 c)).height
                        else ((cajaJugador j).inter32 (cajaCelda32 c)).height))⟩
            vel := ⟨j.vel.x, 0⟩
            enSuelo := if f32 ((cajaJugador j).y + f32 ((cajaJugador j).height / 2))
                < f32 ((cajaCelda32 c).y + f32 ((cajaCelda32 c).height / 2))
              then true else j.enSuelo })) := by
    unfold resolverCelda
    simp only [hnf, hz, false_or, Bool.false_eq_true, if_false, gt_iff_lt, ha, if_true]
  rw [hres]
  refine ⟨rfl, ?_⟩
  have hi := inter32_of_area_pos _ _ ha
  unfold solapeParcial at hp
  by_cases hb : ((cajaJugador j).inter32 (cajaCelda32 c)).width
      < ((cajaJugador j).inter32 (cajaCelda32 c)).height
  · rw [if_pos hb] at hp ⊢
    simp only [if_pos hb]
    apply inter32_width_le _ _ _ hB0
    have key := empuje_f32 B j.pos.x j.radio (cajaCelda32 c).x (cajaCelda32 c).width hB hpx hr0 hr
      hbx hbw0 hbw hp
    rw [hi]
    exact key
  · rw [if_neg hb] at hp ⊢
    simp only [if_neg hb]
    apply inter32_height_le _ _ _ hB0
    have key := empuje_f32 B j.pos.y j.radio (cajaCelda32 c).y (cajaCelda32 c).height hB hpy hr0 hr
      hby hbw0 hbw hp
    rw [hi]
    exact key

/-- Counterexample to claim C1 as stated: the box of a player of radius 40 centred at (60, 50)
lies wholly inside the box of the full-size cell centred at (60, 60); the intersection has
positive area, and after the resolution against that cell the recomputed box still overlaps the
cell's box with positive area. -/
theorem resolverCelda_no_separa :
    0 < celdaLlena.factorTamano ∧ celdaLlena.zonaSinGeneracion = false ∧
    0 < ((cajaJugador jugadorDentro).inter32 (cajaCelda32 celdaLlena)).area32 ∧
    0 < ((resolverCelda (jugadorDentro, cajaJugador jugadorDentro) celdaLlena).2.inter32
      (cajaCelda32 celdaLlena)).area32 := by
  decide!

/-- Witness of claim C1, amended: the box of the player `jugadorRozando` overlaps the left part
of the box of `celdaDerecha` over about 6.4 by 74.8 pixels; after the push to the left a sliver
of width `2 ^ -14` remains, which has positive area and is within the bound for `B = 2048`. -/
theorem resolverCelda_separa_witness :
    ((resolverCelda (jugadorRozando, cajaJugador jugadorRozando) celdaDerecha).2.inter32
      (cajaCelda32 celdaDerecha)).width = 1 / 2 ^ 14 ∧
    0 < ((resolverCelda (jugadorRozando, cajaJugador jugadorRozando) celdaDerecha).2.inter32
      (cajaCelda32 celdaDerecha)).area32 ∧
    ((resolverCelda (jugadorRozando, cajaJugador jugadorRozando) celdaDerecha).2.inter32
      (cajaCelda32 celdaDerecha)).width ≤ 2048 / 2 ^ 14 := by
  have h := resolverCelda_separa jugadorRozando celdaDerecha 2048 (by norm_num) (by decide!)
    (by decide!) (by decide!) (by decide!) (by decide!) (by decide!) (by decide!) (by decide!)
    (by decide!) rfl (by decide!) (by decide!)
  have hb : ((cajaJugador jugadorRozando).inter32 (cajaCelda32 celdaDerecha)).width
      < ((cajaJugador jugadorRozando).inter32 (cajaCelda32 celdaDerecha)).height := by decide!
  rw [if_pos hb] at h
  exact ⟨by decide!, by decide!, h.2⟩

/-! ## The toroidal count, written from the formula of the positions -/

theorem offsets_perm : offsetsToroidales.Perm desplazamientos := by decide

theorem conteoLeido_eq (columnas filas : Nat) (celdas : List Celda) (i : Nat) :
    conteoLeido columnas filas celdas i = conteoToroidal columnas filas celdas i := by
  unfold conteoLeido conteoToroidal
  rw [List.countP_map, ← List.countP_eq_length_filter]
  exact (offsets_perm.countP_eq _).symm

theorem fila_de_arriba (dx : Int) (h : dx ∈ [(-1 : Int), 0, 1]) :
    (dx, (-1 : Int)) ∈ desplazamientos ∧ (dx, (1 : Int)) ∈ desplazamientos := by
  simp only [List.mem_cons, List.mem_singleton, List.not_mem_nil, or_false] at h
  rcases h with rfl | rfl | rfl <;> decide

theorem columna_de_lado (dy : Int) (h : dy ∈ [(-1 : Int), 0, 1]) :
    ((-1 : Int), dy) ∈ desplazamientos ∧ ((1 : Int), dy) ∈ desplazamientos := by
  simp only [List.mem_cons, List.mem_singleton, List.not_mem_nil, or_false] at h
  rcases h with rfl | rfl | rfl <;> decide

/-- Claim C8: on a grid of `columnas * filas` cells, for every index `i` below that number, the
neighbour count of the life rule is the number of offsets `(dx, dy)` of `{-1, 0, 1}²` other than
`(0, 0)` whose toroidal position `((y + dy) mod filas) * columnas + ((x + dx) mod columnas)`
holds an alive cell.  The life rule reads eight indices; for each of the eight offsets the index
it reads is the toroidal position and lies inside `celdas`.  A cell of row 0 reads, for `dy = -1`
and each `dx`, an index of row `filas - 1`; a cell of row `filas - 1` reads row 0 for `dy = 1`;
a cell of column 0 reads column `columnas - 1` for `dx = -1`, and a cell of column
`columnas - 1` reads column 0 for `dx = 1`. -/
theorem conteo_toroidal (columnas filas : Nat) (celdas : List Celda) (i : Nat)
    (hi : i < columnas * filas) (hlen : celdas.length = columnas * filas) :
    contarVecinos columnas filas celdas i = some (conteoToroidal columnas filas celdas i) ∧
    (vecinos columnas filas i).length = 8 ∧
    (∀ d ∈ offsetsToroidales,
      indiceVecino columnas filas i d ∈ vecinos columnas filas i ∧
      indiceVecino columnas filas i d = posicionToroidal columnas filas i d ∧
      0 ≤ indiceVecino columnas filas i d ∧
      (indiceVecino columnas filas i d).toNat < celdas.length) ∧
    (∀ dx ∈ [(-1 : Int), 0, 1], i / columnas = 0 →
      indiceVecino columnas filas i (dx, -1) ∈ vecinos columnas filas i ∧
      indiceVecino columnas filas i (dx, -1) / (columnas : Int) = (filas : Int) - 1) ∧
    (∀ dx ∈ [(-1 : Int), 0, 1], i / columnas = filas - 1 →
      indiceVecino columnas filas i (dx, 1) ∈ vecinos columnas filas i ∧
      indiceVecino columnas filas i (dx, 1) / (columnas : Int) = 0) ∧
    (∀ dy ∈ [(-1 : Int), 0, 1], i % columnas = 0 →
      indiceVecino columnas filas i (-1, dy) ∈ vecinos columnas filas i ∧
      indiceVecino columnas filas i (-1, dy) % (columnas : Int) = (columnas : Int) - 1) ∧
    (∀ dy ∈ [(-1 : Int), 0, 1], i % columnas = columnas - 1 →
      indiceVecino columnas filas i (1, dy) ∈ vecinos columnas filas i ∧
      indiceVecino columnas filas i (1, dy) % (columnas : Int) = 0) := by
  have hc : 0 < columnas := Nat.pos_of_ne_zero (by rintro rfl; simp at hi)
  have hf : 0 < filas := Nat.pos_of_ne_zero (by rintro rfl; simp at hi)
  have hmem : ∀ d ∈ desplazamientos,
      indiceVecino columnas filas i d ∈ vecinos columnas filas i :=
    fun d hd => List.mem_map_of_mem _ hd
  refine ⟨?_, rfl, ?_, ?_, ?_, ?_, ?_⟩
  · rw [contarVecinos_eq columnas filas hc hf celdas hlen.ge i, conteoLeido_eq]
  · intro d hd0
    have hd := offsets_perm.subset hd0
    have he := indiceVecino_eq columnas filas hc hf i hd
    obtain ⟨h0, h1⟩ := posicionToroidal_cota columnas filas hc hf i d
    refine ⟨hmem d hd, he, he ▸ h0, ?_⟩
    rw [he, Int.toNat_lt h0, hlen]
    exact h1
  · intro dx hdx hy
    have hd := (fila_de_arriba dx hdx).1
    refine ⟨hmem _ hd, ?_⟩
    rw [indiceVecino_eq columnas filas hc hf i hd, posicionToroidal_fila columnas filas hc, hy]
    exact emod_menos_uno filas hf
  · intro dx hdx hy
    have hd := (fila_de_arriba dx hdx).2
    refine ⟨hmem _ hd, ?_⟩
    rw [indiceVecino_eq columnas filas hc hf i hd, posicionToroidal_fila columnas filas hc, hy]
    have : (((filas - 1 : Nat) : Int) + 1) = (filas : Int) := by omega
    show (((filas - 1 : Nat) : Int) + 1) % (filas : Int) = 0
    rw [this, Int.emod_self]
  · intro dy hdy hx
    have hd := (columna_de_lado dy hdy).1
    refine ⟨hmem _ hd, ?_⟩
    rw [indiceVecino_eq columnas filas hc hf i hd, posicionToroidal_columna columnas filas, hx]
    exact emod_menos_uno columnas hc
  · intro dy hdy hx
    have hd := (columna_de_lado dy hdy).2
    refine ⟨hmem _ hd, ?_⟩
    rw [indiceVecino_eq columnas filas hc hf i hd, posicionToroidal_columna columnas filas, hx]
    have : (((columnas - 1 : Nat) : Int) + 1) = (columnas : Int) := by omega
    show (((columnas - 1 : Nat) : Int) + 1) % (columnas : Int) = 0
    rw [this, Int.emod_self]

/-- Witness of claim C8: the bottom-left cell of `rejilla3`, at index 6 in row 2 and column 0.
Its count is 3, and the three alive cells it counts are those of row 0, read for `dy = 1` at the
indices 2, 0 and 1: the index 2 is reached by wrapping both the row and the column. -/
theorem conteo_toroidal_witness :
    contarVecinos 3 3 rejilla3 6 = some (conteoToroidal 3 3 rejilla3 6) ∧
    conteoToroidal 3 3 rejilla3 6 = 3 ∧
    [indiceVecino 3 3 6 (-1, 1), indiceVecino 3 3 6 (0, 1), indiceVecino 3 3 6 (1, 1)] = [2, 0, 1] ∧
    indiceVecino 3 3 6 (-1, 1) ∈ vecinos 3 3 6 ∧
    indiceVecino 3 3 6 (-1, 1) / 3 = 0 ∧
    indiceVecino 3 3 6 (-1, 1) % 3 = 3 - 1 := by
  have h := conteo_toroidal 3 3 rejilla3 6 (by decide) rfl
  exact ⟨h.1, by decide, by decide, (h.2.2.2.2.1 (-1) (by decide) (by decide)).1,
    (h.2.2.2.2.1 (-1) (by decide) (by decide)).2,
    (h.2.2.2.2.2.1 1 (by decide) (by decide)).2⟩

/-! ## The countdown within an iteration -/

theorem actualizarCelda_otros (cfg : ConfiguracionJuego) (columnas filas color : Nat)
    (azar : Nat → ℚ) (cs res : List Celda) (j : Nat)
    (h : actualizarCelda cfg columnas filas color azar cs j = some res) (i : Nat) (hij : i ≠ j) :
    res[i]? = cs[i]? := by
  unfold actualizarCelda at h
  split at h
  · cases h; rfl
  · simp only at h
    split_ifs at h
    · rw [Option.map_eq_some'] at h
      obtain ⟨cnt, _, rfl⟩ := h
      rw [List.set_set, List.getElem?_set_ne (Ne.symm hij)]
    · cases h
      rw [List.getElem?_set_ne (Ne.symm hij)]

theorem foldlM_otros (cfg : ConfiguracionJuego) (columnas filas color : Nat) (azar : Nat → ℚ)
    (i : Nat) :
    ∀ (l : List Nat) (cs res : List Celda), i ∉ l →
      l.foldlM (actualizarCelda cfg columnas filas color azar) cs = some res →
      res[i]? = cs[i]? := by
  intro l
  induction l with
  | nil =>
    intro cs res _ h
    cases h
    rfl
  | cons a l ih =>
    intro cs res hi h
    rw [List.foldlM_cons, Option.bind_eq_bind, Option.bind_eq_some] at h
    obtain ⟨cs1, h1, h2⟩ := h
    rw [List.mem_cons, not_or] at hi
    rw [ih cs1 res hi.2 h2]
    exact actualizarCelda_otros cfg columnas filas color azar cs cs1 a h1 i hi.1

theorem foldlM_en (cfg : ConfiguracionJuego) (columnas filas color : Nat) (azar : Nat → ℚ)
    (i : Nat) :
    ∀ (l : List Nat) (cs res : List Celda), l.Nodup → i ∈ l →
      l.foldlM (actualizarCelda cfg columnas filas color azar) cs = some res →
      ∃ cs0 cs1, cs0[i]? = cs[i]? ∧
        actualizarCelda cfg columnas filas color azar cs0 i = some cs1 ∧ res[i]? = cs1[i]? := by
  intro l
  induction l with
  | nil =>
    intro cs res _ hi _
    cases hi
  | cons a l ih =>
    intro cs res hnd hi h
    rw [List.foldlM_cons, Option.bind_eq_bind, Option.bind_eq_some] at h
    obtain ⟨cs1, h1, h2⟩ := h
    rw [List.nodup_cons] at hnd
    by_cases hai : i = a
    · subst hai
      exact ⟨cs, cs1, rfl, h1, foldlM_otros cfg columnas filas color azar i l cs1 res hnd.1 h2⟩
    · have hil : i ∈ l := by
        rcases List.mem_cons.mp hi with h | h
        · exact absurd h hai
        · exact h
      obtain ⟨cs0, cs2, e0, e1, e2⟩ := ih cs1 res hnd.2 hil h2
      refine ⟨cs0, cs2, ?_, e1, e2⟩
      rw [e0]
      exact actualizarCelda_otros cfg columnas filas color azar cs cs1 a h1 i hai

theorem actualizarCelda_en (cfg : ConfiguracionJuego) (columnas filas color : Nat)
    (azar : Nat → ℚ) (cs cs1 : List Celda) (i : Nat) (c : Celda) (hget : cs[i]? = some c)
    (hz : c.zonaSinGeneracion = false)
    (h : actualizarCelda cfg columnas filas color azar cs i = some cs1) :
    (1 < c.cuentaAtrasFotogramas → cs1[i]? = some (pasoCelda c)) ∧
    (c.cuentaAtrasFotogramas ≤ 1 → ∃ cnt,
      contarVecinos columnas filas cs i = some cnt ∧
      cs1[i]? = some (evaluarVida cfg color (azar i) cnt (pasoCelda c))) := by
  have hlt : i < cs.length := (List.getElem?_eq_some_iff.mp hget).1
  unfold actualizarCelda at h
  rw [hget] at h
  simp only at h
  constructor
  · intro hcd
    have hno : ¬ ((pasoCelda c).cuentaAtrasFotogramas ≤ 0 ∧
        (pasoCelda c).zonaSinGeneracion = false) := by
      rw [pasoCelda_cuenta]
      intro hc
      omega
    rw [if_neg hno] at h
    cases h
    rw [List.getElem?_set_self hlt]
  · intro hcd
    have hsi : (pasoCelda c).cuentaAtrasFotogramas ≤ 0 ∧
        (pasoCelda c).zonaSinGeneracion = false := by
      rw [pasoCelda_cuenta, (pasoCelda_zona c).1]
      exact ⟨by omega, hz⟩
    rw [if_pos hsi, Option.map_eq_some'] at h
    obtain ⟨cnt, hcnt, rfl⟩ := h
    rw [contarVecinos_set columnas filas cs i c _ hget (pasoCelda_zona c).2] at hcnt
    refine ⟨cnt, hcnt, ?_⟩
    rw [List.set_set, List.getElem?_set_self hlt]

theorem actualizarCeldas_en (cfg : ConfiguracionJuego) (columnas filas color : Nat)
    (azar : Nat → ℚ) (cs res : List Celda) (i : Nat) (c : Celda) (hget : cs[i]? = some c)
    (hz : c.zonaSinGeneracion = false)
    (h : actualizarCeldas cfg columnas filas color azar cs = some res) :
    (1 < c.cuentaAtrasFotogramas → res[i]? = some (pasoCelda c)) ∧
    (c.cuentaAtrasFotogramas ≤ 1 → ∃ cs0 cnt,
      contarVecinos columnas filas cs0 i = some cnt ∧
      res[i]? = some (evaluarVida cfg color (azar i) cnt (pasoCelda c))) := by
  have hlt : i < cs.length := (List.getElem?_eq_some_iff.mp hget).1
  unfold actualizarCeldas at h
  obtain ⟨cs0, cs1, e0, e1, e2⟩ := foldlM_en cfg columnas filas color azar i _ cs res
    (List.nodup_range _) (List.mem_range.mpr hlt) h
  rw [hget] at e0
  obtain ⟨a, b⟩ := actualizarCelda_en cfg columnas filas color azar cs0 cs1 i c e0 hz e1
  constructor
  · intro hcd
    rw [e2]
    exact a hcd
  · intro hcd
    obtain ⟨cnt, h1, h2⟩ := b hcd
    exact ⟨cs0, cnt, h1, e2 ▸ h2⟩

theorem faseMovimiento_cuenta (cfg : ConfiguracionJuego) (w : Mundo) (e : Entrada) :
    ∀ c ∈ (faseMovimiento cfg w e).celdas,
      (∃ c0 ∈ w.celdas, c = desplazarCelda (w.velocidadDesplazamiento * dt) c0) ∨
      (c.zonaSinGeneracion = false ∧ c.cuentaAtrasFotogramas = c.fotogramasPorActualizacion) := by
  intro c hc
  unfold faseMovimiento reciclar at hc
  simp only at hc
  rw [List.mem_append] at hc
  rcases hc with hc | hc
  · have := (mem_reciclarDesde _ _ _ _ _ 0).1 c hc
    rw [List.mem_map, (procesarEntrada_conserva w e).1, (procesarEntrada_conserva w e).2.2] at this
    obtain ⟨c0, hc0, rfl⟩ := this
    exact Or.inl ⟨c0, hc0, rfl⟩
  · obtain ⟨j, c0, rfl⟩ := (mem_reciclarDesde _ _ _ _ _ 0).2 c hc
    exact Or.inr ⟨rfl, rfl⟩

/-- Claim C19: in every state reachable within an attempt, every cell outside the no-spawn zone
has `1 ≤ cuentaAtrasFotogramas ≤ fotogramasPorActualizacion`.  In an iteration, a cell outside
the zone that enters the loop over the cells at index `i` with a countdown above 1 leaves it
with the countdown lowered by one and the life rule not applied; with a countdown of 1 (or less)
the life rule is evaluated for it, on the neighbour count read at that moment, and the countdown
is reset to the period.  The scroll keeps the countdown and the period of a cell, and a recycled
cell starts with its countdown at its period: the rule is evaluated for a cell exactly on every
`fotogramasPorActualizacion`-th iteration since its creation. -/
theorem cuenta_atras_invariante (cfg : ConfiguracionJuego) :
    (∀ w, Alcanzable cfg w → ∀ c ∈ w.celdas, c.zonaSinGeneracion = false →
      1 ≤ c.cuentaAtrasFotogramas ∧ c.cuentaAtrasFotogramas ≤ c.fotogramasPorActualizacion) ∧
    (∀ (w w1 : Mundo) (e : Entrada) (i : Nat) (c : Celda), tick cfg w e = some w1 →
      (faseMovimiento cfg w e).celdas[i]? = some c → c.zonaSinGeneracion = false →
      (1 < c.cuentaAtrasFotogramas →
        w1.celdas[i]? = some (pasoCelda c) ∧
        (pasoCelda c).cuentaAtrasFotogramas = c.cuentaAtrasFotogramas - 1 ∧
        (pasoCelda c).viva = c.viva) ∧
      (c.cuentaAtrasFotogramas ≤ 1 →
        ∃ (color : Nat) (cs0 : List Celda) (cnt : Nat),
          contarVecinos w1.columnas w1.filas cs0 i = some cnt ∧
          w1.celdas[i]? = some (evaluarVida cfg color (e.azarEspontaneo i) cnt (pasoCelda c)) ∧
          (evaluarVida cfg color (e.azarEspontaneo i) cnt (pasoCelda c)).cuentaAtrasFotogramas
            = c.fotogramasPorActualizacion)) ∧
    (∀ (w : Mundo) (e : Entrada), ∀ c ∈ (faseMovimiento cfg w e).celdas,
      (∃ c0 ∈ w.celdas, c = desplazarCelda (w.velocidadDesplazamiento * dt) c0 ∧
        c.cuentaAtrasFotogramas = c0.cuentaAtrasFotogramas ∧
        c.fotogramasPorActualizacion = c0.fotogramasPorActualizacion) ∨
      (c.zonaSinGeneracion = false ∧
        c.cuentaAtrasFotogramas = c.fotogramasPorActualizacion)) := by
  refine ⟨?_, ?_, ?_⟩
  · intro w hw
    refine alcanzable_todas cfg CuentaBien ?_ ?_ ?_ ?_ w hw
    · intro ancho alto color n v x y _ _
      exact ⟨periodo_pos v, le_refl _⟩
    · intro ancho color n v c _ _
      exact ⟨periodo_pos v, le_refl _⟩
    · intro d c h
      exact h
    · intro color c h
      split_ifs with hcond
      · intro u cnt hz
        obtain ⟨e1, e2, e3⟩ := evaluarVida_cuenta cfg color u cnt (pasoCelda c)
        rw [e1, e2, pasoCelda_periodo]
        have hzc : c.zonaSinGeneracion = false := (pasoCelda_zona c).1 ▸ hcond.2
        have := h hzc
        exact ⟨by omega, le_refl _⟩
      · intro hz
        have hzc : c.zonaSinGeneracion = false := (pasoCelda_zona c).1 ▸ hz
        have hb := h hzc
        rw [pasoCelda_cuenta, pasoCelda_periodo]
        have hpos : ¬ (pasoCelda c).cuentaAtrasFotogramas ≤ 0 := fun hle => hcond ⟨hle, hz⟩
        rw [pasoCelda_cuenta] at hpos
        exact ⟨by omega, by omega⟩
  · intro w w1 e i c h hget hz
    obtain ⟨w4, celdas, h4, h5, rfl⟩ := tick_eq_some cfg w w1 e h
    rw [← (cicloNivel_celdas cfg _ _ h4).1] at hget
    obtain ⟨a, b⟩ := actualizarCeldas_en cfg w4.columnas w4.filas _ e.azarEspontaneo w4.celdas
      celdas i c hget hz h5
    constructor
    · intro hcd
      exact ⟨a hcd, pasoCelda_cuenta c, (pasoCelda_zona c).2⟩
    · intro hcd
      obtain ⟨cs0, cnt, h1, h2⟩ := b hcd
      refine ⟨_, cs0, cnt, h1, h2, ?_⟩
      rw [(evaluarVida_cuenta cfg _ _ cnt (pasoCelda c)).1, pasoCelda_periodo]
  · intro w e c hc
    rcases faseMovimiento_cuenta cfg w e c hc with ⟨c0, hc0, rfl⟩ | h
    · exact Or.inl ⟨c0, hc0, rfl, rfl, rfl⟩
    · exact Or.inr h

/-- Witness of claim C19: every cell of the state reached by one iteration from the start of an
attempt in a window of 360 by 240 satisfies the bounds; and in the iteration from
`mundoRejilla3` the dead cell at index 4, whose countdown is 1, is evaluated (it is born, and its
countdown is back at its period 30), while the cell at index 3, whose countdown is 5, leaves with
a countdown of 4. -/
theorem cuenta_atras_invariante_witness :
    (mundoPequenoTrasTick.celdas.all fun c =>
      c.zonaSinGeneracion || decide (1 ≤ c.cuentaAtrasFotogramas
        ∧ c.cuentaAtrasFotogramas ≤ c.fotogramasPorActualizacion)) = true ∧
    (mundoRejilla3TrasTick.celdas[4]?.map
      fun c => (c.viva, c.cuentaAtrasFotogramas)) = some (true, 30) ∧
    mundoRejilla3TrasTick.celdas[3]?
      = some (pasoCelda (desplazarCelda (10 * dt) (celdaDe false false 5))) ∧
    (pasoCelda (desplazarCelda (10 * dt) (celdaDe false false 5))).cuentaAtrasFotogramas = 4 := by
  have ht : tick cfg mundoRejilla3 entradaQuieta = some mundoRejilla3TrasTick :=
    some_getD_of_isSome _ _ (by decide!)
  refine ⟨?_, ?_, ?_, ?_⟩
  · rw [List.all_eq_true]
    intro c hc
    have h := (cuenta_atras_invariante cfg).1 mundoPequenoTrasTick alcanzable_mundoPequenoTrasTick
      c hc
    cases hz : c.zonaSinGeneracion
    · simpa using h hz
    · rfl
  · obtain ⟨color, cs0, cnt, _, h2, h3⟩ := ((cuenta_atras_invariante cfg).2.1 mundoRejilla3
      mundoRejilla3TrasTick entradaQuieta 4 (desplazarCelda (10 * dt) (celdaDe false false 1)) ht
      (by decide!) rfl).2 (by decide)
    decide!
  · exact (((cuenta_atras_invariante cfg).2.1 mundoRejilla3 mundoRejilla3TrasTick entradaQuieta 3
      (desplazarCelda (10 * dt) (celdaDe false false 5)) ht (by decide!) rfl).1 (by decide)).1
  · exact (((cuenta_atras_invariante cfg).2.1 mundoRejilla3 mundoRejilla3TrasTick entradaQuieta 3
      (desplazarCelda (10 * dt) (celdaDe false false 5)) ht (by decide!) rfl).1 (by decide)).2.1.trans
        (by decide)

/-! ## A run without input in the window of 1920 by 1080 -/

theorem patron_length : patronBloque.length = 144 := by decide!

theorem patron_x : (patronBloque.all fun t => decide (60 ≤ t.1 ∧ t.1 ≤ 1860)) = true := by decide!

theorem patron_estable :
    ((List.range 144).all fun i =>
      match contarVecinos 16 9 mundoBloque.celdas i, mundoBloque.celdas[i]? with
      | some n, some c => siguienteViva c.viva n == c.viva
      | _, _ => false) = true := by decide!

theorem vista_desplazar (s d : ℚ) (c : Celda) :
    vistaCelda (s + d) (desplazarCelda d c) = vistaCelda s c := by
  simp only [vistaCelda, desplazarCelda, Prod.mk.injEq, and_true]
  ring

theorem quieta_pasoCelda (c : Celda) (h : Quieta c) : Quieta (pasoCelda c) := by
  obtain ⟨h1, h2⟩ := h
  cases hv : c.viva with
  | true =>
    obtain ⟨hf, he⟩ := h1 hv
    unfold pasoCelda animar
    split_ifs with hc
    · refine ⟨fun _ => ⟨?_, he⟩, fun h => ?_⟩
      · show min 1 (c.factorTamano + 0.05) = 1; rw [hf]; norm_num
      · exact absurd (hv.symm.trans h) (by simp)
    · exact absurd he (by simp_all)
    · exact ⟨fun _ => ⟨hf, he⟩, fun h => absurd (hv.symm.trans h) (by simp)⟩
  | false =>
    obtain ⟨hf, hc, he⟩ := h2 hv
    unfold pasoCelda animar
    rw [if_neg (by simp [hc]), if_neg (by simp [he])]
    exact ⟨fun h => absurd (hv.symm.trans h) (by simp), fun _ => ⟨hf, hc, he⟩⟩

theorem vista_pasoCelda (s : ℚ) (c : Celda) : vistaCelda s (pasoCelda c) = vistaCelda s c := by
  unfold vistaCelda pasoCelda animar
  split_ifs <;> rfl

theorem evaluarVida_estable (color cnt : Nat) (c : Celda)
    (h : siguienteViva c.viva cnt = c.viva) :
    evaluarVida cfg color 1 cnt c
      = { c with cuentaAtrasFotogramas := c.fotogramasPorActualizacion } := by
  have ht : ¬ ((1 : ℚ) < cfg.tasaEspontanea) := by decide!
  unfold evaluarVida
  simp only [h, ht, decide_False, Bool.and_false, Bool.and_not_self, Bool.not_and_self,
    Bool.false_eq_true, if_false]

theorem vivaEn_vivas (cs cs2 : List Celda) (h : cs.map (fun c => c.viva) = cs2.map fun c => c.viva)
    (k : Int) : vivaEn cs k = vivaEn cs2 k := by
  have h1 := congrArg (fun l => l[k.toNat]?) h
  simp only [List.getElem?_map] at h1
  unfold vivaEn
  cases h3 : cs[k.toNat]? <;> cases h4 : cs2[k.toNat]? <;> simp_all

theorem contarVecinos_vivas (columnas filas : Nat) (cs cs2 : List Celda)
    (h : cs.map (fun c => c.viva) = cs2.map fun c => c.viva) (i : Nat) :
    contarVecinos columnas filas cs i = contarVecinos columnas filas cs2 i := by
  have hl : cs.length = cs2.length := by simpa using congrArg List.length h
  unfold contarVecinos
  rw [funext (vivaEn_vivas cs cs2 h), hl]

theorem rejilla_vivas (s : ℚ) (cs : List Celda) (h : cs.map (vistaCelda s) = patronBloque) :
    cs.map (fun c => c.viva) = mundoBloque.celdas.map fun c => c.viva := by
  have h1 := congrArg (List.map fun t : ℚ × ℚ × Bool × Bool => t.2.2.2) h
  unfold patronBloque at h1
  simpa [List.map_map, Function.comp_def, vistaCelda] using h1

theorem rejilla_length (s : ℚ) (cs : List Celda) (h : cs.map (vistaCelda s) = patronBloque) :
    cs.length = 144 := by
  have h1 := congrArg List.length h
  rwa [List.length_map, patron_length] at h1

theorem rejilla_estable (s : ℚ) (cs : List Celda) (h : cs.map (vistaCelda s) = patronBloque)
    (i : Nat) (c : Celda) (hget : cs[i]? = some c) :
    ∃ n, contarVecinos 16 9 cs i = some n ∧ siguienteViva c.viva n = c.viva := by
  have hi : i < 144 := by
    rw [← rejilla_length s cs h]
    exact (List.getElem?_eq_some_iff.mp hget).1
  have hv := rejilla_vivas s cs h
  have h1 := List.all_eq_true.mp patron_estable i (List.mem_range.mpr hi)
  rw [← contarVecinos_vivas 16 9 cs mundoBloque.celdas hv i] at h1
  have h2 := congrArg (fun l => l[i]?) hv
  simp only [List.getElem?_map, hget, Option.map_some'] at h2
  cases h3 : contarVecinos 16 9 cs i with
  | none => simp [h3] at h1
  | some n =>
    cases h4 : mundoBloque.celdas[i]? with
    | none => simp [h4] at h2
    | some c2 =>
      rw [h4] at h2
      simp only [Option.map_some', Option.some.injEq] at h2
      simp only [h3, h4, beq_iff_eq] at h1
      exact ⟨n, rfl, by rw [h2]; exact h1⟩

theorem rejilla_set (s : ℚ) (cs : List Celda) (i : Nat) (c c2 : Celda)
    (h : RejillaBloque s cs) (hget : cs[i]? = some c)
    (hv : vistaCelda s c2 = vistaCelda s c) (hq : Quieta c2) : RejillaBloque s (cs.set i c2) := by
  refine ⟨?_, ?_⟩
  · rw [map_set_igual (vistaCelda s) cs i c c2 hget hv]
    exact h.vista
  · intro x hx
    rcases List.mem_or_eq_of_mem_set hx with hx | rfl
    · exact h.quietas x hx
    · exact hq

theorem actualizarCelda_rejilla (s : ℚ) (color : Nat) (cs res : List Celda) (i : Nat)
    (h : RejillaBloque s cs)
    (hres : actualizarCelda cfg 16 9 color (fun _ => 1) cs i = some res) :
    RejillaBloque s res := by
  unfold actualizarCelda at hres
  cases hget : cs[i]? with
  | none =>
    simp only [hget] at hres
    cases hres
    exact h
  | some c0 =>
    simp only [hget] at hres
    have hq0 : Quieta c0 := h.quietas c0 (List.getElem?_mem hget)
    have h1 : RejillaBloque s (cs.set i (pasoCelda c0)) :=
      rejilla_set s cs i c0 _ h hget (vista_pasoCelda s c0) (quieta_pasoCelda c0 hq0)
    have hi : i < cs.length := (List.getElem?_eq_some_iff.mp hget).1
    have hget1 : (cs.set i (pasoCelda c0))[i]? = some (pasoCelda c0) := by
      rw [List.getElem?_set, if_pos rfl, if_pos hi]
    split_ifs at hres with hcond
    · rw [Option.map_eq_some'] at hres
      obtain ⟨cnt, hcnt, rfl⟩ := hres
      obtain ⟨n, hn, hsv⟩ := rejilla_estable s _ h1.vista i _ hget1
      have hnc : cnt = n := Option.some.inj (hcnt.symm.trans hn)
      rw [hnc, evaluarVida_estable color n _ hsv]
      exact rejilla_set s _ i _ _ h1 hget1 rfl (quieta_pasoCelda c0 hq0)
    · cases hres
      exact h1

theorem actualizarCeldas_rejilla (s : ℚ) (color : Nat) (cs : List Celda)
    (h : RejillaBloque s cs) :
    ∃ res, actualizarCeldas cfg 16 9 color (fun _ => 1) cs = some res ∧ RejillaBloque s res := by
  obtain ⟨res, hres, _⟩ := actualizarCeldas_definida cfg 16 9 color (fun _ => 1) cs
    (rejilla_length s cs h.vista)
  refine ⟨res, hres, ?_⟩
  unfold actualizarCeldas at hres
  exact foldlM_inv _ (RejillaBloque s)
    (fun b a r hb hr => actualizarCelda_rejilla s color b r a hb hr) _ _ _ h hres

theorem rejilla_inicial : RejillaBloque 0 mundoBloque.celdas := by
  constructor
  · unfold patronBloque
    rfl
  · intro c hc
    have hc2 : c ∈ inicializarCeldas 1920 1080 (1920 / 120) (1080 / 120)
        ((List.range totalColores).getD 0 0) azarBloque (fun _ => 1) := hc
    obtain ⟨x, y, _, _, rfl⟩ := mem_inicializarCeldas hc2
    generalize azarBloque _ = u
    unfold celdaInicial Quieta
    constructor
    · intro hv
      simp only at hv ⊢
      simp [hv]
    · intro hv
      simp only at hv ⊢
      simp [hv]

theorem f32_d (x : ℚ) (hx : |x| ≤ 2048) : |f32 x - x| ≤ 1 / 2 ^ 13 := by
  have h := f32_cota x 2048 hx (by norm_num)
  calc |f32 x - x| ≤ 2048 / 2 ^ 24 := h
    _ = 1 / 2 ^ 13 := by norm_num

theorem f64_d (x : ℚ) (hx : |x| ≤ 2048) : |f64 x - x| ≤ 1 / 2 ^ 42 := by
  have h := f64_cota x 2048 hx (by norm_num)
  calc |f64 x - x| ≤ 2048 / 2 ^ 53 := h
    _ = 1 / 2 ^ 42 := by norm_num

theorem f32_pos_cota (x : ℚ) (hx : 0 < x) (h : f32 x ≤ 0) : x ≤ 1 / 2 ^ 150 := by
  by_cases hM : 1 / 2 ^ 126 ≤ x
  · have h1 := f32_cota x x (le_of_eq (abs_of_pos hx)) hM
    rw [abs_le] at h1
    have : x / 2 ^ 24 < x := by
      rw [div_lt_iff₀ (by norm_num)]
      nlinarith
    linarith [h1.1]
  · have h1 := f32_cota x (1 / 2 ^ 126) (by rw [abs_of_pos hx]; linarith) le_rfl
    rw [abs_le] at h1
    have : (1 : ℚ) / 2 ^ 126 / 2 ^ 24 = 1 / 2 ^ 150 := by norm_num
    linarith [h1.1]

theorem cajaCelda32_llena (c : Celda) (hf : c.factorTamano = 1) :
    cajaCelda32 c = ⟨f32 (f64 (c.centro.x - 60)), f32 (f64 (c.centro.y - 60)), 120, 120⟩ := by
  have h1 : f64 (tamanoCelda * 1) = 120 := by decide!
  have h2 : f64 ((120 : ℚ) / 2) = 60 := by decide!
  have h3 : f32 120 = 120 := by decide!
  unfold cajaCelda32
  simp only [hf, h1, h2, h3]

theorem cajaJugador_40 (j : Jugador) (hr : j.radio = 40) :
    cajaJugador j = ⟨f32 (j.pos.x - 40), f32 (j.pos.y - 40), 80, 80⟩ := by
  have h1 : f32 ((40 : ℚ) * 2) = 80 := by decide!
  unfold cajaJugador
  simp only [hr, h1]

theorem ancho_solape (X cx : ℚ) (hX : 800 ≤ X) (hX2 : X ≤ 960) (hc : |cx - X| ≤ 60) :
    39 ≤ f32 (min (f32 (f32 (X - 40) + 80)) (f32 (f32 (f64 (cx - 60)) + 120))
      - max (f32 (X - 40)) (f32 (f64 (cx - 60)))) := by
  rw [abs_le] at hc
  have h1 := f32_d (X - 40) (by rw [abs_le]; constructor <;> linarith)
  have h2 := f64_d (cx - 60) (by rw [abs_le]; constructor <;> linarith)
  rw [abs_le] at h1 h2
  generalize f32 (X - 40) = a at h1 ⊢
  generalize f64 (cx - 60) = b0 at h2 ⊢
  have e42 : (1 : ℚ) / 2 ^ 42 ≤ 1 / 2 ^ 13 := by norm_num
  have e13 : (1 : ℚ) / 2 ^ 13 ≤ 1 / 8000 := by norm_num
  have h3 := f32_d b0 (by rw [abs_le]; constructor <;> linarith)
  rw [abs_le] at h3
  generalize f32 b0 = b at h3 ⊢
  have h4 := f32_d (a + 80) (by rw [abs_le]; constructor <;> linarith)
  have h5 := f32_d (b + 120) (by rw [abs_le]; constructor <;> linarith)
  rw [abs_le] at h4 h5
  generalize f32 (a + 80) = Ra at h4 ⊢
  generalize f32 (b + 120) = Rb at h5 ⊢
  have hdif : 40 - 1 / 1000 ≤ min Ra Rb - max a b := by
    rcases min_choice Ra Rb with h | h <;> rcases max_choice a b with h7 | h7 <;>
      rw [h, h7] <;> linarith
  have hmin2 : min Ra Rb ≤ 1100 := le_trans (min_le_left _ _) (by linarith)
  have hmax2 : 0 ≤ max a b := le_trans (by linarith) (le_max_left _ _)
  have h6 := f32_d (min Ra Rb - max a b) (by rw [abs_le]; constructor <;> linarith)
  rw [abs_le] at h6
  linarith [h6.1]

theorem alto_solape (y : ℚ) (hy : 539 ≤ y) (hy2 : y ≤ 570) :
    |f32 (min (f32 (f32 (y - 40) + 80)) (f32 (600 + 120)) - max (f32 (y - 40)) 600)
      - (y - 560)| ≤ 3 / 2 ^ 13 := by
  have e720 : f32 ((600 : ℚ) + 120) = 720 := by decide!
  rw [e720]
  have e13 : (1 : ℚ) / 2 ^ 13 ≤ 1 / 8000 := by norm_num
  have h1 := f32_d (y - 40) (by rw [abs_le]; constructor <;> linarith)
  rw [abs_le] at h1
  generalize f32 (y - 40) = a at h1 ⊢
  have h4 := f32_d (a + 80) (by rw [abs_le]; constructor <;> linarith)
  rw [abs_le] at h4
  generalize f32 (a + 80) = Ra at h4 ⊢
  rw [min_eq_left (by linarith), max_eq_right (by linarith)]
  have h6 := f32_d (Ra - 600) (by rw [abs_le]; constructor <;> linarith)
  rw [abs_le] at h6 ⊢
  have e3 : (3 : ℚ) / 2 ^ 13 = 3 * (1 / 2 ^ 13) := by ring
  constructor <;> linarith

theorem alto_sin_solape (y : ℚ) (hy : 539 ≤ y) (hy2 : y ≤ 570) :
    f32 (min (f32 (f32 (y - 40) + 80)) (f32 (720 + 120)) - max (f32 (y - 40)) 720) ≤ 0 := by
  have e840 : f32 ((720 : ℚ) + 120) = 840 := by decide!
  rw [e840]
  have e13 : (1 : ℚ) / 2 ^ 13 ≤ 1 / 8000 := by norm_num
  have h1 := f32_d (y - 40) (by rw [abs_le]; constructor <;> linarith)
  rw [abs_le] at h1
  generalize f32 (y - 40) = a at h1 ⊢
  have h4 := f32_d (a + 80) (by rw [abs_le]; constructor <;> linarith)
  rw [abs_le] at h4
  generalize f32 (a + 80) = Ra at h4 ⊢
  rw [min_eq_left (by linarith), max_eq_right (by linarith)]
  have h6 := f32_d (Ra - 720) (by rw [abs_le]; constructor <;> linarith)
  rw [abs_le] at h6
  linarith

theorem centro_encima (y : ℚ) (hy : 539 ≤ y) (hy2 : y ≤ 570) :
    f32 (f32 (y - 40) + f32 (80 / 2)) < f32 (600 + f32 (120 / 2)) := by
  have e1 : f32 ((80 : ℚ) / 2) = 40 := by decide!
  have e2 : f32 ((600 : ℚ) + f32 (120 / 2)) = 660 := by decide!
  rw [e1, e2]
  have e13 : (1 : ℚ) / 2 ^ 13 ≤ 1 / 8000 := by norm_num
  have h1 := f32_d (y - 40) (by rw [abs_le]; constructor <;> linarith)
  rw [abs_le] at h1
  generalize f32 (y - 40) = a at h1 ⊢
  have h4 := f32_d (a + 40) (by rw [abs_le]; constructor <;> linarith)
  rw [abs_le] at h4
  linarith

theorem empuje_arriba (y H : ℚ)
    (hH : |H - (y - 560)| ≤ 3 / 2 ^ 13) : |f32 (y + -H) - 560| ≤ 1 / 2 ^ 11 := by
  rw [abs_le] at hH
  have e3 : (3 : ℚ) / 2 ^ 13 = 3 * (1 / 2 ^ 13) := by ring
  have e4 : (1 : ℚ) / 2 ^ 11 = 4 * (1 / 2 ^ 13) := by norm_num
  have e13 : (1 : ℚ) / 2 ^ 13 ≤ 1 / 8000 := by norm_num
  have h6 := f32_d (y + -H) (by rw [abs_le]; constructor <;> linarith)
  rw [abs_le] at h6 ⊢
  constructor <;> linarith

theorem inter32_lados_pos (a b : Rect) (h : 0 < (a.inter32 b).area32) :
    0 < f32 (min (f32 (a.x + a.width)) (f32 (b.x + b.width)) - max a.x b.x) ∧
    0 < f32 (min (f32 (a.y + a.height)) (f32 (b.y + b.height)) - max a.y b.y) := by
  unfold Rect.inter32 at h
  simp only at h
  split_ifs at h with hc
  · exfalso
    unfold Rect.area32 at h
    simp only [mul_zero, f32_cero, lt_self_iff_false] at h
  · push_neg at hc
    exact hc

theorem inter32_area_cero (a b : Rect)
    (hw : 0 < f32 (min (f32 (a.x + a.width)) (f32 (b.x + b.width)) - max a.x b.x))
    (hh : 0 < f32 (min (f32 (a.y + a.height)) (f32 (b.y + b.height)) - max a.y b.y))
    (h : ¬ 0 < (a.inter32 b).area32) :
    f32 (min (f32 (a.x + a.width)) (f32 (b.x + b.width)) - max a.x b.x)
      * f32 (min (f32 (a.y + a.height)) (f32 (b.y + b.height)) - max a.y b.y)
      ≤ 1 / 2 ^ 150 := by
  unfold Rect.inter32 at h
  simp only at h
  rw [if_neg (by push_neg; exact ⟨hw, hh⟩)] at h
  unfold Rect.area32 at h
  simp only at h
  exact f32_pos_cota _ (mul_pos hw hh) (not_lt.mp h)

theorem resolverCelda_vacia (st : Jugador × Rect) (c : Celda) (hf : c.factorTamano = 0) :
    resolverCelda st c = st := by
  unfold resolverCelda
  simp [hf]

theorem resolverCelda_fondo (j : Jugador) (c : Celda) (hr : j.radio = 40)
    (hy : 539 ≤ j.pos.y) (hy2 : j.pos.y ≤ 570) (hf : c.factorTamano = 1)
    (hcy : c.centro.y = 780) :
    resolverCelda (j, cajaJugador j) c = (j, cajaJugador j) := by
  apply resolverCelda_libre
  intro _ _ ha
  have hH := (inter32_lados_pos _ _ ha).2
  have e720 : f32 (f64 ((780 : ℚ) - 60)) = 720 := by decide!
  rw [cajaCelda32_llena c hf, cajaJugador_40 j hr, hcy, e720] at hH
  exact absurd hH (not_lt.mpr (alto_sin_solape j.pos.y hy hy2))

theorem resolverCelda_techo (j : Jugador) (c : Celda) (hr : j.radio = 40)
    (hX : 800 ≤ j.pos.x) (hX2 : j.pos.x ≤ 960) (hy : 539 ≤ j.pos.y) (hy2 : j.pos.y ≤ 570)
    (hf : c.factorTamano = 1) (hz : c.zonaSinGeneracion = false)
    (hcx : |c.centro.x - j.pos.x| ≤ 60) (hcy : c.centro.y = 660) :
    (resolverCelda (j, cajaJugador j) c = (j, cajaJugador j) ∧ j.pos.y ≤ 560 + 1 / 2 ^ 11) ∨
    ∃ y2, |y2 - 560| ≤ 1 / 2 ^ 11 ∧
      resolverCelda (j, cajaJugador j) c
        = (({ j with pos := ⟨j.pos.x, y2⟩, vel := ⟨j.vel.x, 0⟩, enSuelo := true } : Jugador),
          cajaJugador { j with pos := ⟨j.pos.x, y2⟩, vel := ⟨j.vel.x, 0⟩, enSuelo := true }) := by
  have e600 : f32 (f64 ((660 : ℚ) - 60)) = 600 := by decide!
  have hcaja : cajaCelda32 c = ⟨f32 (f64 (c.centro.x - 60)), 600, 120, 120⟩ := by
    rw [cajaCelda32_llena c hf, hcy, e600]
  have hW := ancho_solape j.pos.x c.centro.x hX hX2 hcx
  have hH := alto_solape j.pos.y hy hy2
  have hdir := centro_encima j.pos.y hy hy2
  have e3 : (3 : ℚ) / 2 ^ 13 = 3 * (1 / 2 ^ 13) := by ring
  have e4 : (1 : ℚ) / 2 ^ 11 = 4 * (1 / 2 ^ 13) := by norm_num
  have e13 : (1 : ℚ) / 2 ^ 13 ≤ 1 / 8000 ∧ (0 : ℚ) < 1 / 2 ^ 13 := by norm_num
  have e150 : (1 : ℚ) / 2 ^ 150 ≤ 1 / 2 ^ 13 := by
    apply one_div_le_one_div_of_le (by positivity)
    exact pow_le_pow_right₀ (by norm_num) (by norm_num)
  by_cases ha : 0 < ((cajaJugador j).inter32 (cajaCelda32 c)).area32
  · right
    have hi := inter32_of_area_pos _ _ ha
    rw [hcaja, cajaJugador_40 j hr] at hi
    simp only at hi
    refine ⟨f32 (j.pos.y + -f32 (min (f32 (f32 (j.pos.y - 40) + 80)) (f32 (600 + 120))
      - max (f32 (j.pos.y - 40)) 600)), empuje_arriba _ _ hH, ?_⟩
    have hnf : ¬ c.factorTamano ≤ 0 := by rw [hf]; norm_num
    unfold resolverCelda
    simp only [hnf, hz, false_or, Bool.false_eq_true, if_false, gt_iff_lt, ha, if_true]
    rw [hcaja, cajaJugador_40 j hr, hi]
    simp only
    have hno : ¬ (f32 (min (f32 (f32 (j.pos.x - 40) + 80)) (f32 (f32 (f64 (c.centro.x - 60)) + 120))
        - max (f32 (j.pos.x - 40)) (f32 (f64 (c.centro.x - 60))))
        < f32 (min (f32 (f32 (j.pos.y - 40) + 80)) (f32 (600 + 120))
          - max (f32 (j.pos.y - 40)) 600)) := by
      rw [abs_le] at hH
      generalize f32 (min (f32 (f32 (j.pos.x - 40) + 80))
        (f32 (f32 (f64 (c.centro.x - 60)) + 120))
        - max (f32 (j.pos.x - 40)) (f32 (f64 (c.centro.x - 60)))) = W at hW ⊢
      generalize f32 (min (f32 (f32 (j.pos.y - 40) + 80)) (f32 (600 + 120))
          - max (f32 (j.pos.y - 40)) 600) = H at hH ⊢
      linarith [hH.2, e13.1]
    rw [if_neg hno, if_pos hdir, if_pos hdir]
  · left
    refine ⟨resolverCelda_libre _ _ (fun _ _ => ha), ?_⟩
    rw [hcaja, cajaJugador_40 j hr] at ha
    rw [abs_le] at hH
    by_cases hh : 0 < f32 (min (f32 (f32 (j.pos.y - 40) + 80)) (f32 (600 + 120))
          - max (f32 (j.pos.y - 40)) 600)
    · have hW0 := lt_of_lt_of_le (show (0 : ℚ) < 39 by norm_num) hW
      have hp := inter32_area_cero ⟨f32 (j.pos.x - 40), f32 (j.pos.y - 40), 80, 80⟩
        ⟨f32 (f64 (c.centro.x - 60)), 600, 120, 120⟩ hW0 hh ha
      simp only at hp
      generalize f32 (min (f32 (f32 (j.pos.x - 40) + 80))
        (f32 (f32 (f64 (c.centro.x - 60)) + 120))
        - max (f32 (j.pos.x - 40)) (f32 (f64 (c.centro.x - 60)))) = W at hW hp
      generalize f32 (min (f32 (f32 (j.pos.y - 40) + 80)) (f32 (600 + 120))
          - max (f32 (j.pos.y - 40)) 600) = H at hH hh hp
      have h150 : H ≤ 1 / 2 ^ 150 := by nlinarith
      linarith [hH.1, e13.1]
    · generalize f32 (min (f32 (f32 (j.pos.y - 40) + 80)) (f32 (600 + 120))
          - max (f32 (j.pos.y - 40)) 600) = H at hH hh
      linarith [hH.1, not_lt.mp hh, e13.2]

theorem patron_clase :
    (patronBloque.all fun t =>
      !t.2.2.2 || (decide (|t.1 - 960| ≤ 60) && !t.2.2.1
        && (decide (t.2.1 = 660) || decide (t.2.1 = 780)))) = true := by decide!

theorem patron_antes : ((patronBloque.take 87).all fun t => !t.2.2.2) = true := by decide!

theorem patron_87 : patronBloque[87]? = some (900, 660, false, true) := by decide!

theorem rejilla_clase (s : ℚ) (cs : List Celda) (h : RejillaBloque s cs) (c : Celda)
    (hc : c ∈ cs) :
    c.factorTamano = 0 ∨
      (c.factorTamano = 1 ∧ c.zonaSinGeneracion = false ∧ |c.centro.x - (960 - s)| ≤ 60 ∧
        (c.centro.y = 660 ∨ c.centro.y = 780)) := by
  have hq := h.quietas c hc
  have hm : vistaCelda s c ∈ patronBloque := by
    rw [← h.vista]
    exact List.mem_map_of_mem _ hc
  have hp := List.all_eq_true.mp patron_clase _ hm
  cases hv : c.viva with
  | false => exact Or.inl (hq.2 hv).1
  | true =>
    right
    simp only [vistaCelda, hv, Bool.not_true, Bool.false_or, Bool.and_eq_true, Bool.or_eq_true,
      decide_eq_true_eq, Bool.not_eq_true'] at hp
    obtain ⟨⟨hx, hz⟩, hy⟩ := hp
    refine ⟨(hq.1 hv).1, hz, ?_, hy⟩
    rw [show c.centro.x - (960 - s) = c.centro.x + s - 960 by ring]
    exact hx

theorem foldl_vacias (l : List Celda) (st : Jugador × Rect)
    (h : ∀ c ∈ l, c.factorTamano = 0) : l.foldl resolverCelda st = st := by
  induction l with
  | nil => rfl
  | cons c l ih =>
    rw [List.foldl_cons, resolverCelda_vacia st c (h c (List.mem_cons_self _ _))]
    exact ih fun x hx => h x (List.mem_cons_of_mem _ hx)

theorem foldl_inv {α β : Type} (f : β → α → β) (Q : β → Prop) (l : List α)
    (hf : ∀ b a, a ∈ l → Q b → Q (f b a)) : ∀ b, Q b → Q (l.foldl f b) := by
  induction l with
  | nil => exact fun b hb => hb
  | cons a l ih =>
    intro b hb
    rw [List.foldl_cons]
    exact ih (fun b2 a2 ha2 => hf b2 a2 (List.mem_cons_of_mem _ ha2)) _
      (hf b a (List.mem_cons_self _ _) hb)

theorem sobreBloque_y (j : Jugador) (st : Jugador × Rect) (hy : 539 ≤ j.pos.y)
    (h : SobreBloque j st) : 539 ≤ st.1.pos.y ∧ st.1.pos.y ≤ 570 := by
  have e11 : (1 : ℚ) / 2 ^ 11 ≤ 1 := by norm_num
  obtain ⟨_, _, _, _, ⟨h1, _, h2⟩ | ⟨_, h1⟩⟩ := h
  · rw [h1]
    constructor <;> linarith
  · rw [abs_le] at h1
    constructor <;> linarith

theorem resolverCelda_sobre (s : ℚ) (j : Jugador) (st : Jugador × Rect) (c : Celda)
    (hx : j.pos.x = 960 - s) (hs0 : 0 ≤ s) (hs : s ≤ 121) (hy : 539 ≤ j.pos.y)
    (hc : c.factorTamano = 0 ∨
      (c.factorTamano = 1 ∧ c.zonaSinGeneracion = false ∧ |c.centro.x - (960 - s)| ≤ 60 ∧
        (c.centro.y = 660 ∨ c.centro.y = 780)))
    (h : SobreBloque j st) : SobreBloque j (resolverCelda st c) := by
  obtain ⟨hy1, hy2⟩ := sobreBloque_y j st hy h
  obtain ⟨hst, h1, h2, h3, h4⟩ := h
  have hst2 : st = (st.1, cajaJugador st.1) := Prod.ext rfl hst
  rcases hc with hf | ⟨hf, hz, hcx, hcy | hcy⟩
  · rw [resolverCelda_vacia st c hf]
    exact ⟨hst, h1, h2, h3, h4⟩
  · rw [hst2]
    rcases resolverCelda_techo st.1 c h2 (by rw [h1, hx]; linarith) (by rw [h1, hx]; linarith)
      hy1 hy2 hf hz (by rw [h1, hx]; exact hcx) hcy with ⟨hr, _⟩ | ⟨y2, hy2, hr⟩
    · rw [hr]
      exact ⟨rfl, h1, h2, h3, h4⟩
    · rw [hr]
      exact ⟨rfl, h1, h2, h3, Or.inr ⟨rfl, hy2⟩⟩
  · rw [hst2, resolverCelda_fondo st.1 c h2 hy1 hy2 hf hcy]
    exact ⟨rfl, h1, h2, h3, h4⟩

theorem colisionJugador_bloque (s : ℚ) (j : Jugador) (cs : List Celda)
    (hcs : RejillaBloque s cs) (hr : j.radio = 40) (hx : j.pos.x = 960 - s) (hs0 : 0 ≤ s)
    (hs : s ≤ 121) (hy : 539 ≤ j.pos.y) (hy2 : j.pos.y ≤ 570) :
    (colisionJugador j cs).pos.x = j.pos.x ∧ (colisionJugador j cs).radio = 40 ∧
      (colisionJugador j cs).vel.x = j.vel.x ∧
      (((colisionJugador j cs).pos.y = j.pos.y ∧ (colisionJugador j cs).vel.y = j.vel.y ∧
          j.pos.y ≤ 560 + 1 / 2 ^ 11) ∨
        ((colisionJugador j cs).vel.y = 0 ∧
          |(colisionJugador j cs).pos.y - 560| ≤ 1 / 2 ^ 11)) := by
  have hlen := rejilla_length s cs hcs.vista
  have h87 : 87 < cs.length := by rw [hlen]; norm_num
  have hsplit : cs = cs.take 87 ++ cs[87] :: cs.drop 88 := by
    rw [← List.drop_eq_getElem_cons h87, List.take_append_drop]
  have hantes : ∀ c ∈ cs.take 87, c.factorTamano = 0 := by
    intro c hc
    have hm : vistaCelda s c ∈ patronBloque.take 87 := by
      rw [← hcs.vista, ← List.map_take]
      exact List.mem_map_of_mem _ hc
    have hv := List.all_eq_true.mp patron_antes _ hm
    simp only [vistaCelda, Bool.not_eq_true'] at hv
    exact ((hcs.quietas c (List.mem_of_mem_take hc)).2 hv).1
  have hc87 : vistaCelda s cs[87] = (900, 660, false, true) := by
    have h1 : (cs.map (vistaCelda s))[87]? = some (vistaCelda s cs[87]) := by
      rw [List.getElem?_map, List.getElem?_eq_getElem h87]
      rfl
    rw [hcs.vista, patron_87] at h1
    exact (Option.some.inj h1).symm
  simp only [vistaCelda, Prod.mk.injEq] at hc87
  obtain ⟨hcx, hcy, hcz, hcv⟩ := hc87
  have hmem87 : cs[87] ∈ cs := List.getElem_mem h87
  have hq87 := (hcs.quietas _ hmem87).1 hcv
  have key : SobreBloque { j with enSuelo := false }
      (cs.foldl resolverCelda ({ j with enSuelo := false }, cajaJugador { j with enSuelo := false }))
      := by
    rw [hsplit, List.foldl_append, foldl_vacias _ _ hantes, List.foldl_cons]
    apply foldl_inv resolverCelda (SobreBloque { j with enSuelo := false })
    · intro b a ha hb
      exact resolverCelda_sobre s _ b a hx hs0 hs hy
        (rejilla_clase s cs hcs a (List.mem_of_mem_drop ha)) hb
    · rcases resolverCelda_techo { j with enSuelo := false } cs[87] hr
        (by show 800 ≤ j.pos.x; rw [hx]; linarith) (by show j.pos.x ≤ 960; rw [hx]; linarith)
        hy hy2 hq87.1 hcz
        (by show |cs[87].centro.x - j.pos.x| ≤ 60; rw [hx, abs_le]; constructor <;> linarith)
        hcy with ⟨hres, hle⟩ | ⟨y2, hy2, hres⟩
      · rw [hres]
        exact ⟨rfl, rfl, hr, rfl, Or.inl ⟨rfl, rfl, hle⟩⟩
      · rw [hres]
        exact ⟨rfl, rfl, hr, rfl, Or.inr ⟨rfl, hy2⟩⟩
  unfold colisionJugador
  obtain ⟨_, h1, h2, h3, h4⟩ := key
  exact ⟨h1, h2, h3, h4⟩

theorem desplazamiento_paso (k : Nat) (hk : k ≤ 680) :
    desplazamientoTras k + (10 + 5 * (((k - 1) / 600 : Nat) : ℚ)) * dt
      = desplazamientoTras (k + 1) := by
  unfold desplazamientoTras dt
  by_cases h : k ≤ 600
  · have h0 : (k - 1) / 600 = 0 := by omega
    rw [h0, if_pos (by omega), if_pos (by omega)]
    push_cast
    ring
  · have h1 : (k - 1) / 600 = 1 := by omega
    rw [h1]
    by_cases h2 : k = 601
    · subst h2
      norm_num
    · rw [if_neg (by omega), if_neg (by omega)]
      push_cast
      ring

theorem desplazamiento_cota (k : Nat) (hk : k ≤ 681) :
    0 ≤ desplazamientoTras k ∧ desplazamientoTras k ≤ 121 ∧
      (k ≤ 680 → desplazamientoTras k ≤ 120) := by
  have hk2 : (k : ℚ) ≤ 681 := by exact_mod_cast hk
  have hk0 : (0 : ℚ) ≤ k := Nat.cast_nonneg k
  unfold desplazamientoTras
  split_ifs with h
  · have h3 : (k : ℚ) ≤ 601 := by exact_mod_cast h
    refine ⟨by positivity, by linarith, fun _ => by linarith⟩
  · have h3 : (601 : ℚ) ≤ k := by
      have : 601 ≤ k := by omega
      exact_mod_cast this
    refine ⟨by linarith, by linarith, fun h4 => ?_⟩
    have h5 : (k : ℚ) ≤ 680 := by exact_mod_cast h4
    linarith

theorem f64_cero : f64 0 = 0 := by
  unfold f64 redondearBinario
  simp

theorem moverJugador_quieto (j : Jugador) (hvx : j.vel.x = 0) :
    moverJugador cfg entradaQuieta j
      = { j with vel := ⟨0, f32 (f64 (j.vel.y + f64 (f64 cfg.gravedad * dt64)))⟩ } := by
  unfold moverJugador
  simp only [entradaQuieta, Bool.false_eq_true, if_false, hvx, zero_mul, f64_cero, f32_cero,
    ite_self]

theorem cicloNivel_bloque (w : Mundo) (hk : w.cuentaGlobalFotogramas ≤ 680) :
    cicloNivel cfg w = some (if w.cuentaGlobalFotogramas = 600 then
      { w with
        indiceCicloColor := (w.indiceCicloColor + 1) % totalColores
        nivel := w.nivel + 1
        velocidadDesplazamiento := w.velocidadDesplazamiento + 5
        cuentaMostrarNivel := 180 }
      else w) := by
  unfold cicloNivel
  have hc : cfg.fotogramasCambioColor = 600 := rfl
  have hi : cfg.incrementoVelocidad = 5 := rfl
  have hm : cfg.fotogramasMostrarNivel = 180 := rfl
  rw [hc, hi, hm]
  by_cases h : w.cuentaGlobalFotogramas = 600
  · rw [if_pos h, if_pos (by omega), if_neg (by norm_num), if_pos (by omega)]
  · rw [if_neg h]
    by_cases h0 : 0 < w.cuentaGlobalFotogramas
    · rw [if_pos h0, if_neg (by norm_num), if_neg (by omega)]
    · rw [if_neg h0]

theorem rejilla_desplazada (s d : ℚ) (cs : List Celda) (h : RejillaBloque s cs) :
    RejillaBloque (s + d) (cs.map (desplazarCelda d)) := by
  constructor
  · rw [List.map_map, ← h.vista]
    exact List.map_congr_left fun c _ => vista_desplazar s d c
  · intro c hc
    obtain ⟨c0, hc0, rfl⟩ := List.mem_map.mp hc
    exact h.quietas c0 hc0

theorem rejilla_dentro (s : ℚ) (cs : List Celda) (h : RejillaBloque s cs) (hs : s ≤ 120) :
    ∀ c ∈ cs, fueraIzquierda c = false := by
  intro c hc
  have hm : vistaCelda s c ∈ patronBloque := by
    rw [← h.vista]
    exact List.mem_map_of_mem _ hc
  have hp := List.all_eq_true.mp patron_x _ hm
  simp only [vistaCelda, decide_eq_true_eq] at hp
  unfold fueraIzquierda tamanoCelda
  rw [decide_eq_false_iff_not]
  linarith [hp.1]

theorem faseMovimiento_bloque (k : Nat) (w : Mundo) (h : Parado k w) (hk : k ≤ 679) :
    faseMovimiento cfg w entradaQuieta
      = { w with
          jugador := desplazarJugador (w.velocidadDesplazamiento * dt)
            (moverJugador cfg entradaQuieta w.jugador)
          celdas := w.celdas.map (desplazarCelda (w.velocidadDesplazamiento * dt))
          items := [] } := by
  have hs := desplazamiento_paso k (by omega)
  rw [← h.velocidad] at hs
  have hr := rejilla_desplazada _ (w.velocidadDesplazamiento * dt) _ h.rejilla
  rw [hs] at hr
  have hd := rejilla_dentro _ _ hr ((desplazamiento_cota (k + 1) (by omega)).2.2 (by omega))
  have hw : procesarEntrada w entradaQuieta = w := rfl
  unfold faseMovimiento reciclar
  simp only [hw, reciclarDesde_sin_salida _ _ _ _ _ _ hd, h.items, List.map_nil,
    List.append_nil]

theorem jugador_paso (s d : ℚ) (j : Jugador) (cs : List Celda)
    (hcs : RejillaBloque (s + d) cs) (hs0 : 0 ≤ s + d) (hs : s + d ≤ 121)
    (hr : j.radio = 40) (hx : j.pos.x = 960 - s) (hvx : j.vel.x = 0) (hvy : 0 ≤ j.vel.y)
    (he : j.vel.y ^ 2 ≤ 2100 * (j.pos.y - 539)) (hy : j.pos.y ≤ 560 + 1 / 2 ^ 11) :
    (colisionJugador (desplazarJugador d (moverJugador cfg entradaQuieta j)) cs).radio = 40 ∧
    (colisionJugador (desplazarJugador d (moverJugador cfg entradaQuieta j)) cs).pos.x
      = 960 - (s + d) ∧
    (colisionJugador (desplazarJugador d (moverJugador cfg entradaQuieta j)) cs).vel.x = 0 ∧
    0 ≤ (colisionJugador (desplazarJugador d (moverJugador cfg entradaQuieta j)) cs).vel.y ∧
    (colisionJugador (desplazarJugador d (moverJugador cfg entradaQuieta j)) cs).vel.y ^ 2
      ≤ 2100 * ((colisionJugador (desplazarJugador d (moverJugador cfg entradaQuieta j)) cs).pos.y
        - 539) ∧
    (colisionJugador (desplazarJugador d (moverJugador cfg entradaQuieta j)) cs).pos.y
      ≤ 560 + 1 / 2 ^ 11 := by
  have e11 : (1 : ℚ) / 2 ^ 11 ≤ 1 / 2000 ∧ (0 : ℚ) ≤ 1 / 2 ^ 11 := by norm_num
  have hv211 : j.vel.y ≤ 211 := by
    by_contra hc
    push_neg at hc
    nlinarith
  have hg := gravedad_redondeada cfg j.vel.y 1000 (by norm_num)
    (by rw [abs_le]; constructor <;> linarith) (by show |(1000 : ℚ)| ≤ 1000; norm_num)
  have hgd : cfg.gravedad * dt = 50 / 3 := by
    show (1000 : ℚ) * (1 / 60) = 50 / 3
    norm_num
  rw [hgd, abs_le] at hg
  have e22 : (1000 : ℚ) / 2 ^ 22 ≤ 1 / 1000 := by norm_num
  rw [moverJugador_quieto j hvx]
  generalize f32 (f64 (j.vel.y + f64 (f64 cfg.gravedad * dt64))) = v at hg ⊢
  have hj2 : desplazarJugador d { j with vel := ⟨0, v⟩ }
      = { j with pos := ⟨j.pos.x - d + 0 * dt, j.pos.y + v * dt⟩, vel := ⟨0, v⟩ } := rfl
  rw [hj2]
  have hdt : dt = 1 / 60 := rfl
  have hy0 : 539 ≤ j.pos.y := by nlinarith [sq_nonneg j.vel.y]
  obtain ⟨h1, h2, h3, h4⟩ := colisionJugador_bloque (s + d)
    { j with pos := ⟨j.pos.x - d + 0 * dt, j.pos.y + v * dt⟩, vel := ⟨0, v⟩ } cs hcs hr
    (by show j.pos.x - d + 0 * dt = 960 - (s + d); rw [hx]; ring) hs0 hs
    (by show 539 ≤ j.pos.y + v * dt; rw [hdt]; linarith)
    (by show j.pos.y + v * dt ≤ 570; rw [hdt]; linarith)
  generalize colisionJugador
    { j with pos := ⟨j.pos.x - d + 0 * dt, j.pos.y + v * dt⟩, vel := ⟨0, v⟩ } cs = j3
    at h1 h2 h3 h4 ⊢
  simp only at h1 h2 h3 h4
  refine ⟨h2, by rw [h1, hx]; ring, h3, ?_, ?_, ?_⟩
  · rcases h4 with ⟨_, h5, _⟩ | ⟨h5, _⟩
    · rw [h5]; linarith
    · rw [h5]
  · rcases h4 with ⟨h6, h5, _⟩ | ⟨h5, h6⟩
    · rw [h5, h6, hdt]
      have ha0 : 0 ≤ v - j.vel.y := by linarith
      have ha1 : v - j.vel.y ≤ 17 := by linarith
      nlinarith [mul_nonneg hvy (sub_nonneg.mpr ha1), mul_nonneg ha0 (sub_nonneg.mpr ha1)]
    · rw [h5]
      rw [abs_le] at h6
      nlinarith
  · rcases h4 with ⟨h6, _, h5⟩ | ⟨_, h6⟩
    · rw [h6]; exact h5
    · rw [abs_le] at h6
      linarith

theorem cicloNivel_parado (k : Nat) (w3 : Mundo) (hk : k ≤ 680)
    (hc : w3.cuentaGlobalFotogramas = k) (hn : w3.nivel = 1 + (k - 1) / 600)
    (hi : w3.indiceCicloColor = (k - 1) / 600)
    (hv : w3.velocidadDesplazamiento = 10 + 5 * (((k - 1) / 600 : Nat) : ℚ)) :
    ∃ w4, cicloNivel cfg w3 = some w4 ∧ w4.celdas = w3.celdas ∧ w4.jugador = w3.jugador ∧
      w4.items = w3.items ∧ w4.puntuacion = w3.puntuacion ∧ w4.salir = w3.salir ∧
      w4.ancho = w3.ancho ∧ w4.alto = w3.alto ∧ w4.columnas = w3.columnas ∧
      w4.filas = w3.filas ∧ w4.paleta = w3.paleta ∧ w4.cuentaGlobalFotogramas = k ∧
      w4.nivel = 1 + k / 600 ∧ w4.indiceCicloColor = k / 600 ∧
      w4.velocidadDesplazamiento = 10 + 5 * ((k / 600 : Nat) : ℚ) := by
  rw [cicloNivel_bloque w3 (by omega)]
  by_cases h : k = 600
  · subst h
    rw [if_pos hc]
    refine ⟨_, rfl, rfl, rfl, rfl, rfl, rfl, rfl, rfl, rfl, rfl, rfl, hc, ?_, ?_, ?_⟩
    · show w3.nivel + 1 = 1 + 600 / 600
      rw [hn]
    · show (w3.indiceCicloColor + 1) % totalColores = 600 / 600
      rw [hi]
      rfl
    · show w3.velocidadDesplazamiento + 5 = 10 + 5 * ((600 / 600 : Nat) : ℚ)
      rw [hv]
      norm_num
  · rw [if_neg (by omega)]
    have hq : k / 600 = (k - 1) / 600 := by omega
    rw [hq]
    exact ⟨_, rfl, rfl, rfl, rfl, rfl, rfl, rfl, rfl, rfl, rfl, rfl, hc, hn, hi, hv⟩

theorem parado_paso (k : Nat) (w : Mundo) (h : Parado k w) (hk : k ≤ 679) :
    ∃ w1, tick cfg w entradaQuieta = some w1 ∧ Parado (k + 1) w1 := by
  have hs := desplazamiento_paso k (by omega)
  rw [← h.velocidad] at hs
  have hcota := desplazamiento_cota (k + 1) (by omega)
  have h3 := faseMovimiento_bloque k w h hk
  obtain ⟨w4, h4, hcel, hjug, hitems, hpuntos, hsalir, hancho, halto, hcol, hfil, hpal, hcuenta,
    hnivel, hindice, hvel⟩ := cicloNivel_parado k (faseMovimiento cfg w entradaQuieta) (by omega)
      (by rw [h3]; exact h.cuenta) (by rw [h3]; exact h.nivel) (by rw [h3]; exact h.indice)
      (by rw [h3]; exact h.velocidad)
  rw [h3] at hcel hjug hitems hpuntos hsalir hancho halto hcol hfil hpal
  simp only at hcel hjug hitems hpuntos hsalir hancho halto hcol hfil hpal
  have hr4 : RejillaBloque (desplazamientoTras (k + 1)) w4.celdas := by
    rw [hcel, ← hs]
    exact rejilla_desplazada _ _ _ h.rejilla
  obtain ⟨cs5, h5, hr5⟩ := actualizarCeldas_rejilla (desplazamientoTras (k + 1))
    (w4.paleta.getD w4.indiceCicloColor 0) w4.celdas hr4
  have h5b : actualizarCeldas cfg w4.columnas w4.filas (w4.paleta.getD w4.indiceCicloColor 0)
      entradaQuieta.azarEspontaneo w4.celdas = some cs5 := by
    rw [hcol, hfil, h.columnas, h.filas]
    exact h5
  refine ⟨faseFinal cfg w4 entradaQuieta cs5, tick_de_fases cfg w w4 entradaQuieta cs5 h4 h5b, ?_⟩
  have hj := jugador_paso (desplazamientoTras k) (w.velocidadDesplazamiento * dt) w.jugador cs5
    (by rw [hs]; exact hr5) (by rw [hs]; exact hcota.1) (by rw [hs]; exact hcota.2.1)
    h.radio h.posX h.velX h.velY h.energia h.posY
  rw [← hjug, hs] at hj
  have hsalto : saltar cfg entradaQuieta (colisionJugador w4.jugador cs5)
      = colisionJugador w4.jugador cs5 := rfl
  obtain ⟨j1, j2, j3, j4, j5, j6⟩ := hj
  have e11 : (1 : ℚ) / 2 ^ 11 ≤ 1 := by norm_num
  refine
    { cuenta := ?_, sigue := ?_, ancho := ?_, alto := ?_, columnas := ?_, filas := ?_,
      paleta := ?_, nivel := ?_, indice := ?_, velocidad := ?_, rejilla := ?_, items := ?_,
      puntos := ?_, radio := ?_, posX := ?_, velX := ?_, velY := ?_, energia := ?_, posY := ?_ }
  · show w4.cuentaGlobalFotogramas + 1 = k + 1
    rw [hcuenta]
  · show (w4.salir || decide
      ((saltar cfg entradaQuieta (colisionJugador w4.jugador cs5)).pos.x
          - (saltar cfg entradaQuieta (colisionJugador w4.jugador cs5)).radio ≤ 0 ∨
        (saltar cfg entradaQuieta (colisionJugador w4.jugador cs5)).pos.y
          + (saltar cfg entradaQuieta (colisionJugador w4.jugador cs5)).radio
          ≥ (w4.alto : ℚ))) = false
    rw [hsalto, hsalir, h.sigue, halto, h.alto, j1, j2, Bool.false_or, decide_eq_false_iff_not]
    push_neg
    constructor
    · linarith [hcota.2.1]
    · push_cast
      linarith
  · show w4.ancho = 1920
    rw [hancho, h.ancho]
  · show w4.alto = 1080
    rw [halto, h.alto]
  · show w4.columnas = 16
    rw [hcol, h.columnas]
  · show w4.filas = 9
    rw [hfil, h.filas]
  · show w4.paleta = List.range totalColores
    rw [hpal, h.paleta]
  · show w4.nivel = 1 + (k + 1 - 1) / 600
    rw [hnivel, Nat.add_sub_cancel]
  · show w4.indiceCicloColor = (k + 1 - 1) / 600
    rw [hindice, Nat.add_sub_cancel]
  · show w4.velocidadDesplazamiento = 10 + 5 * (((k + 1 - 1) / 600 : Nat) : ℚ)
    rw [hvel, Nat.add_sub_cancel]
  · exact hr5
  · show (actualizarItems cfg cs5 w4.jugador w4.items w4.puntuacion).1 = []
    rw [hitems]
    rfl
  · show (actualizarItems cfg cs5 w4.jugador w4.items w4.puntuacion).2 = 0
    rw [hitems, hpuntos, h.puntos]
    rfl
  · show (saltar cfg entradaQuieta (colisionJugador w4.jugador cs5)).radio = 40
    rw [hsalto]; exact j1
  · show (saltar cfg entradaQuieta (colisionJugador w4.jugador cs5)).pos.x = _
    rw [hsalto]; exact j2
  · show (saltar cfg entradaQuieta (colisionJugador w4.jugador cs5)).vel.x = 0
    rw [hsalto]; exact j3
  · show 0 ≤ (saltar cfg entradaQuieta (colisionJugador w4.jugador cs5)).vel.y
    rw [hsalto]; exact j4
  · show (saltar cfg entradaQuieta (colisionJugador w4.jugador cs5)).vel.y ^ 2 ≤ _
    rw [hsalto]; exact j5
  · show (saltar cfg entradaQuieta (colisionJugador w4.jugador cs5)).pos.y ≤ _
    rw [hsalto]; exact j6

theorem sinRedimension_alcanzable (cfg : ConfiguracionJuego) (w : Mundo)
    (h : AlcanzableSinRedimension cfg w) : Alcanzable cfg w := by
  induction h with
  | inicio ancho alto paleta azN azV hp hv => exact Alcanzable.inicio ancho alto paleta azN azV hp hv
  | paso w w1 e _ hs hv _ ht ih => exact Alcanzable.paso w w1 e ih hs hv ht

theorem parado_inicial : Parado 0 mundoBloque := by
  have h0 : desplazamientoTras 0 = 0 := by
    unfold desplazamientoTras
    norm_num
  refine
    { cuenta := rfl, sigue := rfl, ancho := rfl, alto := rfl, columnas := rfl, filas := rfl,
      paleta := rfl, nivel := rfl, indice := rfl, velocidad := ?_, rejilla := ?_, items := rfl,
      puntos := rfl, radio := rfl, posX := ?_, velX := rfl, velY := ?_, energia := ?_,
      posY := ?_ }
  · show (10 : ℚ) = 10 + 5 * (((0 - 1) / 600 : Nat) : ℚ)
    norm_num
  · rw [h0]
    exact rejilla_inicial
  · rw [h0]
    show (((1920 / 2 : Nat) : ℚ)) = 960 - 0
    norm_num
  · show (0 : ℚ) ≤ 0
    exact le_rfl
  · show (0 : ℚ) ^ 2 ≤ 2100 * ((((1080 / 2 : Nat) : ℚ)) - 539)
    norm_num
  · show (((1080 / 2 : Nat) : ℚ)) ≤ 560 + 1 / 2 ^ 11
    norm_num

theorem corrida (k : Nat) (hk : k ≤ 680) :
    ∃ w, AlcanzableSinRedimension cfg w ∧ Parado k w := by
  induction k with
  | zero =>
    exact ⟨mundoBloque, AlcanzableSinRedimension.inicio 1920 1080 (List.range totalColores)
      azarBloque (fun _ => 1) (List.Perm.refl _) velocidades_constantes, parado_inicial⟩
  | succ n ih =>
    obtain ⟨w, hw, hp⟩ := ih (by omega)
    obtain ⟨w1, ht, hp1⟩ := parado_paso n w hp (by omega)
    exact ⟨w1, AlcanzableSinRedimension.paso w w1 entradaQuieta hw hp.sigue
      velocidades_constantes (fun _ _ hm => by cases hm) ht, hp1⟩

theorem evaluarVida_centro (cfg : ConfiguracionJuego) (color : Nat) (u : ℚ) (cnt : Nat)
    (c : Celda) : (evaluarVida cfg color u cnt c).centro = c.centro := by
  unfold evaluarVida nacer morir
  simp only
  split_ifs <;> rfl

theorem actualizarCelda_centros (cfg : ConfiguracionJuego) (columnas filas color : Nat)
    (azar : Nat → ℚ) (celdas : List Celda) (i : Nat) (res : List Celda)
    (h : actualizarCelda cfg columnas filas color azar celdas i = some res) :
    res.map (fun c => c.centro) = celdas.map fun c => c.centro := by
  unfold actualizarCelda at h
  cases hget : celdas[i]? with
  | none =>
    simp only [hget] at h
    cases h
    rfl
  | some c0 =>
    simp only [hget] at h
    have hi : i < celdas.length := (List.getElem?_eq_some_iff.mp hget).1
    have h1 : (celdas.set i (pasoCelda c0)).map (fun c => c.centro)
        = celdas.map fun c => c.centro :=
      map_set_igual _ celdas i c0 _ hget (pasoCelda_centro c0)
    have hget1 : (celdas.set i (pasoCelda c0))[i]? = some (pasoCelda c0) := by
      rw [List.getElem?_set, if_pos rfl, if_pos hi]
    split_ifs at h
    · rw [Option.map_eq_some'] at h
      obtain ⟨cnt, _, rfl⟩ := h
      rw [map_set_igual _ _ i (pasoCelda c0) _ hget1 (evaluarVida_centro _ _ _ _ _), h1]
    · cases h
      exact h1

theorem actualizarCeldas_centros (cfg : ConfiguracionJuego) (columnas filas color : Nat)
    (azar : Nat → ℚ) (celdas res : List Celda)
    (h : actualizarCeldas cfg columnas filas color azar celdas = some res) :
    res.map (fun c => c.centro) = celdas.map fun c => c.centro := by
  unfold actualizarCeldas at h
  exact foldlM_inv _ (fun cs => cs.map (fun c => c.centro) = celdas.map fun c => c.centro)
    (fun b a r hb hr => (actualizarCelda_centros cfg columnas filas color azar b a r hr).trans hb)
    _ _ _ rfl h

theorem desplazamiento_681 : desplazamientoTras 681 = 721 / 6 := by
  unfold desplazamientoTras
  norm_num

theorem patron_quedan :
    (patronBloque.filter fun t => !decide (t.1 - 721 / 6 + 120 / 2 < 0)).length = 135 ∧
    (patronBloque.filter fun t => !decide (t.1 - 721 / 6 + 120 / 2 < 0))[15]?
      = some (180, 180, false, false) ∧
    (patronBloque.filter fun t => !decide (t.1 - 721 / 6 + 120 / 2 < 0))[0]?
      = some (180, 60, false, false) ∧
    (patronBloque.filter fun t => !decide (t.1 - 721 / 6 + 120 / 2 < 0))[14]?
      = some (1860, 60, false, false) ∧
    (patronBloque.filter fun t => decide (t.1 - 721 / 6 + 120 / 2 < 0)).length = 9 := by
  decide!

theorem filter_vista (s : ℚ) (cs : List Celda) (h : cs.map (vistaCelda s) = patronBloque) :
    (cs.filter fun c => !fueraIzquierda c).map (vistaCelda s)
      = patronBloque.filter (fun t => !decide (t.1 - s + 120 / 2 < 0)) ∧
    ((cs.filter fueraIzquierda).map (vistaCelda s))
      = patronBloque.filter (fun t => decide (t.1 - s + 120 / 2 < 0)) := by
  have hf : ∀ c : Celda, fueraIzquierda c = decide ((vistaCelda s c).1 - s + 120 / 2 < 0) := by
    intro c
    unfold fueraIzquierda vistaCelda tamanoCelda
    simp only [add_sub_cancel_right]
  rw [← h, List.filter_map, List.filter_map]
  constructor
  · congr 1
    apply List.filter_congr
    intro c _
    simp only [Function.comp, hf c]
  · congr 1
    apply List.filter_congr
    intro c _
    simp only [Function.comp, hf c]

theorem parado_reciclaje (w : Mundo) (h : Parado 680 w) :
    ∃ w1, tick cfg w entradaQuieta = some w1 ∧
      w1.ancho = 1920 ∧ w1.alto = 1080 ∧ w1.columnas = 16 ∧ w1.filas = 9 ∧
      w1.celdas.length = 144 ∧ w1.paleta = List.range totalColores ∧
      w1.cuentaGlobalFotogramas = 681 ∧ w1.nivel = 2 ∧ w1.indiceCicloColor = 1 ∧
      w1.velocidadDesplazamiento = 15 ∧ w1.items.length = 9 ∧
      (w1.celdas[15]?.map fun c => c.centro) = some ⟨359 / 6, 180⟩ ∧
      (w1.celdas[0]?.map fun c => c.centro) = some ⟨359 / 6, 60⟩ ∧
      (w1.celdas[14]?.map fun c => c.centro) = some ⟨10439 / 6, 60⟩ := by
  have hs := desplazamiento_paso 680 le_rfl
  rw [← h.velocidad, desplazamiento_681] at hs
  have hr := rejilla_desplazada _ (w.velocidadDesplazamiento * dt) _ h.rejilla
  rw [hs] at hr
  obtain ⟨hq1, hq2⟩ := filter_vista _ _ hr.vista
  obtain ⟨hp1, hp2, hp3, hp5, hp4⟩ := patron_quedan
  obtain ⟨hd1, hd2, hd3⟩ := reciclarDesde_eq cfg w.ancho (w.paleta.getD w.indiceCicloColor 0)
    entradaQuieta (w.celdas.map (desplazarCelda (w.velocidadDesplazamiento * dt))) 0
  have hcel3 : (faseMovimiento cfg w entradaQuieta).celdas
      = (reciclarDesde cfg w.ancho (w.paleta.getD w.indiceCicloColor 0) entradaQuieta
          (w.celdas.map (desplazarCelda (w.velocidadDesplazamiento * dt))) 0).1
        ++ (reciclarDesde cfg w.ancho (w.paleta.getD w.indiceCicloColor 0) entradaQuieta
          (w.celdas.map (desplazarCelda (w.velocidadDesplazamiento * dt))) 0).2.1 := rfl
  have hit3 : (faseMovimiento cfg w entradaQuieta).items
      = w.items.map (desplazarItem (w.velocidadDesplazamiento * dt))
        ++ (reciclarDesde cfg w.ancho (w.paleta.getD w.indiceCicloColor 0) entradaQuieta
          (w.celdas.map (desplazarCelda (w.velocidadDesplazamiento * dt))) 0).2.2 := rfl
  rw [hd1] at hcel3
  rw [hd3, h.items] at hit3
  have hlen3 : (faseMovimiento cfg w entradaQuieta).celdas.length = 144 := by
    rw [faseMovimiento_length, rejilla_length _ _ h.rejilla.vista]
  have hquedan : ((w.celdas.map (desplazarCelda (w.velocidadDesplazamiento * dt))).filter
      fun c => !fueraIzquierda c).length = 135 := by
    have := congrArg List.length hq1
    rwa [List.length_map, hp1] at this
  have hvista : ∀ (i : Nat) (t : ℚ × ℚ × Bool × Bool), i < 135 →
      (patronBloque.filter fun t => !decide (t.1 - 721 / 6 + 120 / 2 < 0))[i]? = some t →
      ((faseMovimiento cfg w entradaQuieta).celdas[i]?.map fun c => c.centro)
        = some ⟨t.1 - 721 / 6, t.2.1⟩ := by
    intro i t hi ht
    rw [hcel3, List.getElem?_append_left (by rw [hquedan]; exact hi)]
    rw [← hq1, List.getElem?_map] at ht
    cases hc : ((w.celdas.map (desplazarCelda (w.velocidadDesplazamiento * dt))).filter
        fun c => !fueraIzquierda c)[i]? with
    | none => rw [hc] at ht; cases ht
    | some c =>
      rw [hc] at ht
      simp only [Option.map_some', Option.some.injEq] at ht ⊢
      subst ht
      simp only [vistaCelda, add_sub_cancel_right]
  obtain ⟨w4, h4, hcel, _, hitems, _, _, hancho, halto, hcol, hfil, hpal, hcuenta,
    hnivel, hindice, hvel⟩ := cicloNivel_parado 680 (faseMovimiento cfg w entradaQuieta) le_rfl
      h.cuenta h.nivel h.indice h.velocidad
  have hancho3 : (faseMovimiento cfg w entradaQuieta).ancho = w.ancho := rfl
  have halto3 : (faseMovimiento cfg w entradaQuieta).alto = w.alto := rfl
  have hcol3 : (faseMovimiento cfg w entradaQuieta).columnas = w.columnas := rfl
  have hfil3 : (faseMovimiento cfg w entradaQuieta).filas = w.filas := rfl
  have hpal3 : (faseMovimiento cfg w entradaQuieta).paleta = w.paleta := rfl
  rw [hancho3, h.ancho] at hancho
  rw [halto3, h.alto] at halto
  rw [hcol3, h.columnas] at hcol
  rw [hfil3, h.filas] at hfil
  rw [hpal3, h.paleta] at hpal
  obtain ⟨cs5, h5, hlen5⟩ := actualizarCeldas_definida cfg w4.columnas w4.filas
    (w4.paleta.getD w4.indiceCicloColor 0) entradaQuieta.azarEspontaneo w4.celdas
    (by rw [hcel, hlen3, hcol, hfil])
  have hcen := actualizarCeldas_centros _ _ _ _ _ _ _ h5
  rw [hcel] at hcen
  have hcentro : ∀ i : Nat, (cs5[i]?.map fun c => c.centro)
      = ((faseMovimiento cfg w entradaQuieta).celdas[i]?.map fun c => c.centro) := by
    intro i
    have := congrArg (fun l => l[i]?) hcen
    simpa only [List.getElem?_map] using this
  refine ⟨faseFinal cfg w4 entradaQuieta cs5, tick_de_fases cfg w w4 entradaQuieta cs5 h4 h5,
    hancho, halto, hcol, hfil, ?_, hpal, ?_, ?_, ?_, ?_, ?_, ?_, ?_, ?_⟩
  · show cs5.length = 144
    rw [hlen5, hcol, hfil]
  · show w4.cuentaGlobalFotogramas + 1 = 681
    rw [hcuenta]
  · show w4.nivel = 2
    rw [hnivel]
  · show w4.indiceCicloColor = 1
    rw [hindice]
  · show w4.velocidadDesplazamiento = 15
    rw [hvel]
    norm_num
  · show (actualizarItems cfg cs5 w4.jugador w4.items w4.puntuacion).1.length = 9
    rw [actualizarItems_eq, List.length_map, hitems, hit3, List.map_nil, List.nil_append,
      List.length_map]
    have := congrArg List.length hq2
    rwa [List.length_map, hp4] at this
  · show (cs5[15]?.map fun c => c.centro) = some ⟨359 / 6, 180⟩
    rw [hcentro 15, hvista 15 _ (by norm_num) hp2]
    norm_num
  · show (cs5[0]?.map fun c => c.centro) = some ⟨359 / 6, 60⟩
    rw [hcentro 0, hvista 0 _ (by norm_num) hp3]
    norm_num
  · show (cs5[14]?.map fun c => c.centro) = some ⟨10439 / 6, 60⟩
    rw [hcentro 14, hvista 14 _ (by norm_num) hp5]
    norm_num

/-- The run from `mundoBloque` without input reaches, at frame counter 681 and with the window
still of 1920 by 1080, a state whose first column has been recycled. -/
theorem corrida_reciclada :
    ∃ w, AlcanzableSinRedimension cfg w ∧
      w.ancho = 1920 ∧ w.alto = 1080 ∧ w.columnas = 16 ∧ w.filas = 9 ∧
      w.celdas.length = 144 ∧ w.paleta = List.range totalColores ∧
      w.cuentaGlobalFotogramas = 681 ∧ w.nivel = 2 ∧ w.indiceCicloColor = 1 ∧
      w.velocidadDesplazamiento = 15 ∧ w.items.length = 9 ∧
      (w.celdas[15]?.map fun c => c.centro) = some ⟨359 / 6, 180⟩ ∧
      (w.celdas[0]?.map fun c => c.centro) = some ⟨359 / 6, 60⟩ ∧
      (w.celdas[14]?.map fun c => c.centro) = some ⟨10439 / 6, 60⟩ := by
  obtain ⟨w, hw, hp⟩ := corrida 680 le_rfl
  obtain ⟨w1, ht, hr⟩ := parado_reciclaje w hp
  exact ⟨w1, AlcanzableSinRedimension.paso w w1 entradaQuieta hw hp.sigue
    velocidades_constantes (fun _ _ hm => by cases hm) ht, hr⟩

/-! ## Recycling order, score and progression on the run -/

/-- Claim C12: recycling does not preserve the row-major order. The attempt that starts in the
window of 1920 by 1080 with the grid `mundoBloque` and is never resized reaches, once the scroll
has recycled the first column of its grid of 16 by 9 (frame counter 681), a state that still
holds `columnas * filas` cells and in which the cell at index 15 is centred in row 1 and not in
row `15 / columnas = 0`. The indices the life rule reads for that cell include 0 and 14: the
cell at index 0, read as the right-hand neighbour, is the cell right above it; the cell at
index 14, read as the left-hand neighbour, is centred 14 columns to its right and one row up,
and is not a neighbour of it on the screen. -/
theorem reciclaje_rompe_contiguidad :
    ∃ w, AlcanzableSinRedimension cfg w ∧ Alcanzable cfg w ∧
      w.ancho = 1920 ∧ w.alto = 1080 ∧ w.columnas = 16 ∧ w.filas = 9 ∧
      w.celdas.length = w.columnas * w.filas ∧ w.cuentaGlobalFotogramas = 681 ∧
      ∃ c c0 c14, w.celdas[15]? = some c ∧ c.centro = ⟨359 / 6, 180⟩ ∧ filaDe c = 1 ∧
        filaDe c ≠ ((15 / w.columnas : Nat) : Int) ∧
        indiceVecino w.columnas w.filas 15 (1, 0) = 0 ∧
        (0 : Int) ∈ vecinos w.columnas w.filas 15 ∧
        w.celdas[0]? = some c0 ∧ c0.centro = ⟨359 / 6, 60⟩ ∧
        indiceVecino w.columnas w.filas 15 (-1, 0) = 14 ∧
        (14 : Int) ∈ vecinos w.columnas w.filas 15 ∧
        w.celdas[14]? = some c14 ∧ c14.centro = ⟨10439 / 6, 60⟩ ∧
        c14.centro.x - c.centro.x = 14 * tamanoCelda ∧ filaDe c14 = 0 := by
  obtain ⟨w, hw, hancho, halto, hcol, hfil, hlen, _, hcuenta, _, _, _, _, h15, h0, h14⟩ :=
    corrida_reciclada
  refine ⟨w, hw, sinRedimension_alcanzable cfg w hw, hancho, halto, hcol, hfil, ?_, hcuenta, ?_⟩
  · rw [hlen, hcol, hfil]
  cases hc : w.celdas[15]? with
  | none => rw [hc] at h15; cases h15
  | some c =>
    cases hc0 : w.celdas[0]? with
    | none => rw [hc0] at h0; cases h0
    | some c0 =>
      cases hc14 : w.celdas[14]? with
      | none => rw [hc14] at h14; cases h14
      | some c14 =>
        rw [hc] at h15
        rw [hc0] at h0
        rw [hc14] at h14
        simp only [Option.map_some', Option.some.injEq] at h15 h0 h14
        rw [hcol, hfil]
        refine ⟨c, c0, c14, rfl, h15, ?_, ?_, by decide, by decide, rfl, h0, by decide,
          by decide, rfl, h14, ?_, ?_⟩
        · unfold filaDe
          rw [h15]
          decide!
        · unfold filaDe
          rw [h15]
          decide!
        · rw [h14, h15]
          decide!
        · unfold filaDe
          rw [h14]
          decide!

/-- Witness of claim C20: the attempt that starts in the window of 1920 by 1080 with the grid
`mundoBloque` reaches, once its first column has been recycled, a state that holds the nine
items of that column, and its score is ten times the number of them that are collected; an item
that is collected is left as it is by the loop over the items and by the scroll. -/
theorem puntuacion_invariante_witness :
    (∃ w, Alcanzable cfg w ∧ w.items.length = 9 ∧ w.cuentaGlobalFotogramas = 681 ∧
      w.puntuacion = 10 * w.items.countP (fun itm => itm.recolectado)) ∧
    actualizarItem cfg [celdaLlena] jugadorDentro ⟨⟨60, 50⟩, ⟨0, 0⟩, true, 25⟩
      = (⟨⟨60, 50⟩, ⟨0, 0⟩, true, 25⟩, false) ∧
    (desplazarItem (1 / 6) ⟨⟨60, 50⟩, ⟨0, 0⟩, true, 25⟩).recolectado = true := by
  obtain ⟨w, hw, _, _, _, _, _, _, hcuenta, _, _, _, hitems, _⟩ := corrida_reciclada
  exact ⟨⟨w, sinRedimension_alcanzable cfg w hw, hitems, hcuenta,
    (puntuacion_invariante cfg).1 w (sinRedimension_alcanzable cfg w hw)⟩,
    (puntuacion_invariante cfg).2.1 _ _ _ rfl, rfl⟩

theorem alcanzable_paleta (cfg : ConfiguracionJuego) (w : Mundo) (h : Alcanzable cfg w) :
    w.paleta.Perm (List.range totalColores) := by
  induction h with
  | inicio ancho alto paleta azN azV hp _ => exact hp
  | paso w w1 e _ _ _ ht ih =>
    obtain ⟨w4, celdas, h4, _, rfl⟩ := tick_eq_some cfg w w1 e ht
    have h3 : (faseMovimiento cfg w e).paleta = w.paleta := procesarEntrada_paleta w e
    show w4.paleta.Perm _
    rw [cicloNivel_paleta cfg _ w4 h4, h3]
    exact ih

/-- Claim C21: in every state reachable within an attempt the palette is a shuffle of the 69
colour indices, so its size `N` is 69; the level is at least 1, the scroll speed is the
configured initial speed plus `(nivel - 1)` times the configured increment, and the colour cycle
index is `(nivel - 1) mod N`, below `N`. An iteration leaves the palette as it is, and the
palette of the initial state is the shuffled palette the attempt is given. -/
theorem progresion_invariante (cfg : ConfiguracionJuego) :
    (∀ w, Alcanzable cfg w →
      w.paleta.Perm (List.range totalColores) ∧ w.paleta.length = totalColores ∧
      1 ≤ w.nivel ∧
      w.velocidadDesplazamiento
        = cfg.velocidadDesplazamiento + ((w.nivel : ℚ) - 1) * cfg.incrementoVelocidad ∧
      w.indiceCicloColor = (w.nivel - 1) % w.paleta.length ∧
      0 ≤ w.indiceCicloColor ∧ w.indiceCicloColor < w.paleta.length) ∧
    (∀ (w w1 : Mundo) (e : Entrada), tick cfg w e = some w1 → w1.paleta = w.paleta) ∧
    (∀ (ancho alto : Nat) (paleta : List Nat) (azarNacer azarVelocidad : Nat → ℚ),
      (inicializar cfg ancho alto paleta azarNacer azarVelocidad).paleta = paleta) := by
  have hbase : ∀ w, Alcanzable cfg w →
      1 ≤ w.nivel ∧
      w.velocidadDesplazamiento
        = cfg.velocidadDesplazamiento + ((w.nivel : ℚ) - 1) * cfg.incrementoVelocidad ∧
      w.indiceCicloColor = (w.nivel - 1) % totalColores ∧
      w.indiceCicloColor < totalColores := by
    intro w hw
    induction hw with
    | inicio ancho alto paleta azN azV _ _ =>
      refine ⟨Nat.le_refl 1, ?_, rfl, ?_⟩
      · show cfg.velocidadDesplazamiento
          = cfg.velocidadDesplazamiento + (((1 : Nat) : ℚ) - 1) * cfg.incrementoVelocidad
        norm_num
      · show 0 < totalColores
        decide
    | paso w w1 e _ _ _ ht ih =>
      obtain ⟨w4, celdas, h4, _, rfl⟩ := tick_eq_some cfg w w1 e ht
      obtain ⟨hn, hv, hi, hlt⟩ := ih
      obtain ⟨hi3, hn3, _, _, _, hv3⟩ := faseMovimiento_progresion cfg w e
      show 1 ≤ w4.nivel ∧
        w4.velocidadDesplazamiento
          = cfg.velocidadDesplazamiento + ((w4.nivel : ℚ) - 1) * cfg.incrementoVelocidad ∧
        w4.indiceCicloColor = (w4.nivel - 1) % totalColores ∧
        w4.indiceCicloColor < totalColores
      rcases cicloNivel_casos cfg _ w4 h4 with ⟨e1, e2, e3⟩ | ⟨e1, e2, e3⟩
      · rw [e1, e2, e3, hi3, hn3, hv3]
        exact ⟨hn, hv, hi, hlt⟩
      · rw [e1, e2, e3, hi3, hn3, hv3]
        refine ⟨Nat.le_add_left 1 _, ?_, ?_, Nat.mod_lt _ (by decide)⟩
        · rw [hv]
          push_cast
          ring
        · rw [hi]
          unfold totalColores
          omega
  refine ⟨?_, ?_, fun _ _ _ _ _ => rfl⟩
  · intro w hw
    have hp := alcanzable_paleta cfg w hw
    have hl : w.paleta.length = totalColores := by
      rw [hp.length_eq, List.length_range]
    obtain ⟨hn, hv, hi, hlt⟩ := hbase w hw
    rw [hl]
    exact ⟨hp, rfl, hn, hv, hi, Nat.zero_le _, hlt⟩
  · intro w w1 e ht
    obtain ⟨w4, celdas, h4, _, rfl⟩ := tick_eq_some cfg w w1 e ht
    show w4.paleta = w.paleta
    rw [cicloNivel_paleta cfg _ w4 h4]
    exact procesarEntrada_paleta w e

/-- Witness of claim C21: the attempt that starts in the window of 1920 by 1080 with the grid
`mundoBloque` is, after the iteration of frame counter 600, still running, at level 2, with
colour cycle index 1 and scroll speed 15, and its palette has 69 entries; the iteration at frame
counter 600 of `mundoEnCadencia` keeps the palette. -/
theorem progresion_invariante_witness :
    (∃ w, Alcanzable cfg w ∧ w.salir = false ∧ w.cuentaGlobalFotogramas = 601 ∧
      w.nivel = 2 ∧ w.indiceCicloColor = 1 ∧ w.velocidadDesplazamiento = 15 ∧
      w.paleta.length = 69 ∧
      (w.paleta.Perm (List.range totalColores) ∧ w.paleta.length = totalColores ∧
        1 ≤ w.nivel ∧
        w.velocidadDesplazamiento
          = cfg.velocidadDesplazamiento + ((w.nivel : ℚ) - 1) * cfg.incrementoVelocidad ∧
        w.indiceCicloColor = (w.nivel - 1) % w.paleta.length ∧
        0 ≤ w.indiceCicloColor ∧ w.indiceCicloColor < w.paleta.length)) ∧
    mundoEnCadenciaTrasTick.paleta = mundoEnCadencia.paleta := by
  obtain ⟨w, hw, hp⟩ := corrida 601 (by norm_num)
  have ha := sinRedimension_alcanzable cfg w hw
  have hpal : w.paleta.length = 69 := by rw [hp.paleta]; rfl
  exact ⟨⟨w, ha, hp.sigue, hp.cuenta, hp.nivel, hp.indice, by rw [hp.velocidad]; norm_num, hpal,
    (progresion_invariante cfg).1 w ha⟩,
    (progresion_invariante cfg).2.1 mundoEnCadencia mundoEnCadenciaTrasTick entradaQuieta
      (some_getD_of_isSome _ _ (by decide!))⟩

end Automata
